import Mathlib

/-!
# SATPI: DVB frontend controller and RTP stream thread

A shallow embedding of `src/input/dvb/Frontend.cpp` and
`src/output/StreamThreadRtp.cpp`.

The member variables of `Frontend` become the fields of a record; every
member function becomes a function from the record to the record (and the
returned value).  Everything outside the program (the results of `open`,
`ioctl`, the delivery system modules' `tune`, the time a call takes) is
supplied by an environment `Env`, indexed by the number of device actions
performed so far.  Every device action is appended to a trace, so that
statements about *which* system calls are issued, and in what order, can
be made about the embedded code.
-/

namespace SATPI

/-! ## Constants -/

/-- Number of entries of the PID table, `mpegts::PidTable::MAX_PIDS`. -/
def MAX_PIDS : Nat := 8192

/-- Bit `FE_HAS_LOCK` of `fe_status_t` (linux/dvb/frontend.h). -/
def FE_HAS_LOCK : Nat := 0x10

/-- Static const `DEFAULT_DVR_BUFFER_SIZE` of Frontend.cpp. -/
def DEFAULT_DVR_BUFFER_SIZE : Nat := 18

/-- Static const `MAX_DVR_BUFFER_SIZE` of Frontend.cpp. -/
def MAX_DVR_BUFFER_SIZE : Nat := 18 * 10

/-- Static const `MAX_WAIT_ON_LOCK_TIMEOUT` of Frontend.cpp. -/
def MAX_WAIT_ON_LOCK_TIMEOUT : Nat := 3500

/-- Static const `DEFAULT_WAIT_ON_LOCK_TIMEOUT` of Frontend.cpp. -/
def DEFAULT_WAIT_ON_LOCK_TIMEOUT : Nat := 1000

/-! ## Data model -/

/-- Modelled from the spec: the delivery system tag `input::InputSystem`
(declared in another header of the repository); the spec lists DVB-S,
DVB-S2, DVB-T, DVB-T2 and DVB-C. -/
inductive InputSystem where
  | UNDEFINED
  | DVBT
  | DVBT2
  | DVBS
  | DVBS2
  | DVBC
deriving DecidableEq, Repr

/-- Modelled from the spec: one entry of `mpegts::PidTable`,
`{desired, opened, packetCount, ccErrorCount, isPMT}`. -/
structure PidData where
  desired : Bool
  opened : Bool
  packetCount : Nat
  ccErrorCount : Nat
  isPMT : Bool
deriving DecidableEq, Repr

/-- Modelled from the spec: `mpegts::PidTable`, a mapping from PID to
`PidData` together with the single table-changed flag. -/
structure PidTable where
  data : Nat → PidData
  changed : Bool

/-- Modelled from the spec: a cleared `PidData` entry. -/
def PidData.clear : PidData :=
  { desired := false, opened := false, packetCount := 0, ccErrorCount := 0, isPMT := false }

/-- Modelled from the spec: `PidTable::shouldPIDOpen`, which is
`desired && !opened`. -/
def PidTable.shouldPIDOpen (t : PidTable) (pid : Nat) : Bool :=
  (t.data pid).desired && !(t.data pid).opened

/-- Modelled from the spec: `PidTable::shouldPIDClose`, which is
`opened && !desired`. -/
def PidTable.shouldPIDClose (t : PidTable) (pid : Nat) : Bool :=
  (t.data pid).opened && !(t.data pid).desired

/-- Modelled from the spec: `PidTable::setPID(pid, use)` records whether the
PID is desired and raises the table-changed flag. -/
def PidTable.setPID (t : PidTable) (pid : Nat) (use : Bool) : PidTable :=
  { data := fun q => if q = pid then { t.data q with desired := use } else t.data q,
    changed := true }

/-- Modelled from the spec: `PidTable::setPIDOpened(pid)` marks the PID opened. -/
def PidTable.setPIDOpened (t : PidTable) (pid : Nat) : PidTable :=
  { t with data := fun q => if q = pid then { t.data q with opened := true } else t.data q }

/-- Modelled from the spec: `PidTable::setPIDClosed(pid)` marks the PID closed. -/
def PidTable.setPIDClosed (t : PidTable) (pid : Nat) : PidTable :=
  { t with data := fun q => if q = pid then { t.data q with opened := false } else t.data q }

/-- Modelled from the spec: `PidTable::hasPIDTableChanged`. -/
def PidTable.hasPIDTableChanged (t : PidTable) : Bool := t.changed

/-- Modelled from the spec: `PidTable::resetPIDTableChanged`. -/
def PidTable.resetPIDTableChanged (t : PidTable) : PidTable :=
  { t with changed := false }

/-- Modelled from the spec: the PID table of a fresh `FrontendData`. -/
def PidTable.initial : PidTable :=
  { data := fun _ => PidData.clear, changed := false }

/-- Modelled from the spec: the monitor snapshot
`{status_bits, strength_0_240, snr_0_15, ber, uncorrectedBlocks}`. -/
structure MonitorData where
  status : Nat
  strength : Nat
  snr : Nat
  ber : Nat
  ublocks : Nat
deriving DecidableEq, Repr

/-- Modelled from the spec: `FrontendData`, the tuning intent (of which only
the delivery system tag is read by Frontend.cpp), the device-data dirty
flag, the PID table and the monitor snapshot. -/
structure FrontendData where
  changed : Bool
  delsys : InputSystem
  filter : PidTable
  monitor : MonitorData

/-- Modelled from the spec: `FrontendData::initialize`, the state of a fresh
`FrontendData`. -/
def FrontendData.initialize : FrontendData :=
  { changed := false, delsys := InputSystem.UNDEFINED, filter := PidTable.initial,
    monitor := { status := 0, strength := 0, snr := 0, ber := 0, ublocks := 0 } }

/-- Modelled from the spec: `FrontendData::setMonitorData` stores the five
values in the monitor snapshot. -/
def FrontendData.setMonitorData (d : FrontendData) (status strength snr ber ublocks : Nat) :
    FrontendData :=
  { d with monitor := { status := status, strength := strength, snr := snr, ber := ber,
                        ublocks := ublocks } }

/-- A registered delivery system module (`input::dvb::delivery::System`).
The modules themselves (`DVBS`, `DVBT`, `DVBC`) are separate classes:
`isCapableOf` is taken as given, the outcome of `tune` comes from the
environment. -/
structure DeliverySystem where
  isCapableOf : InputSystem → Bool

/-- A device action performed by the program, with its outcome. -/
inductive Event where
  | feOpen (readonly : Bool) (fd : Int)
  | feClose (fd : Int)
  | dmxOpen (fd : Int)
  | dmxClose (fd : Int)
  | sleep (ms : Nat)
  | setBufferSize (fd : Int) (size : Nat) (ok : Bool)
  | setPesFilter (fd : Int) (pid : Nat) (ok : Bool)
  | addPid (fd : Int) (pid : Nat) (ok : Bool)
  | removePid (fd : Int) (pid : Nat) (ok : Bool)
  | readStatus (fd : Int) (status : Option Nat)
  | getProperty (fd : Int) (ok : Bool)
  | readSignalStrength (fd : Int) (ok : Bool)
  | readSnr (fd : Int) (ok : Bool)
  | readBer (fd : Int) (ok : Bool)
  | readUncorrectedBlocks (fd : Int) (ok : Bool)
  | tune (index : Nat) (fd : Int) (ok : Bool)
deriving DecidableEq, Repr

/-- One statistic of the modern `FE_GET_PROPERTY` answer
(`dtv_fe_stats.stat[0]`): its scale and its value read as unsigned and as
signed. -/
structure Stat where
  scale : Nat
  uvalue : Nat
  svalue : Int

/-- The world outside the program.  Each field is asked with the number of
device actions performed so far, so successive calls may see different
outcomes. -/
structure Env where
  /-- result of `::open`: `none` is the failure value -1 -/
  openResult : Nat → Option Nat
  /-- whether `::ioctl` returns 0 -/
  ioctlOk : Nat → Bool
  /-- the status bits written by `FE_READ_STATUS` -/
  feStatus : Nat → Nat
  /-- what the delivery system module's `tune` returns -/
  tuneOk : Nat → Bool
  /-- milliseconds taken by the device action -/
  latency : Nat → Nat
  /-- the value written by a legacy statistics ioctl -/
  raw : Nat → Nat
  /-- the three statistics found in the `FE_GET_PROPERTY` buffer -/
  stat : Nat → Nat → Stat
  /-- the conversion `svalue * 0.0001` to an integer (floating point, not modelled) -/
  decibel : Int → Nat
  /-- the reference time of a `base::StopWatch` that was never started -/
  stopWatchInit : Nat → Nat

/-- The member variables of `input::dvb::Frontend` that the embedded
functions use, with the clock, the action counter and the trace of the
device. -/
structure Frontend where
  tuned : Bool
  fd_fe : Int
  fd_dmx : Int
  frontendData : FrontendData
  deliverySystem : List DeliverySystem
  transformFlag : Bool
  dvrBufferSizeMB : Nat
  waitOnLockTimeout : Nat
  oldApiCallStats : Bool
  /-- the build has `FULL_DVB_API_VERSION >= 0x050A` -/
  modernApi : Bool
  now : Nat
  calls : Nat
  trace : List Event

/-! ## Device actions -/

/-- Append a device action to the trace; the action takes the time the
environment says and advances the action counter. -/
def Frontend.tick (s : Frontend) (env : Env) (e : Event) : Frontend :=
  { s with now := s.now + env.latency s.calls, calls := s.calls + 1, trace := s.trace ++ [e] }

/-- The call `std::this_thread::sleep_for(std::chrono::milliseconds(ms))`. -/
def sleepFor (env : Env) (ms : Nat) (s : Frontend) : Frontend :=
  let s1 := s.tick env (Event.sleep ms)
  { s1 with now := s1.now + ms }

/-- The value `::open` returns: a descriptor, or -1. -/
def sysOpen (env : Env) (s : Frontend) : Int :=
  match env.openResult s.calls with
  | some fd => (fd : Int)
  | none => -1

/-- The function `Frontend::openFE(path, readonly)`. -/
def openFE (env : Env) (readonly : Bool) (s : Frontend) : Int × Frontend :=
  let fd := sysOpen env s
  (fd, s.tick env (Event.feOpen readonly fd))

/-- The function `Frontend::closeFE`; `CLOSE_FD` closes the descriptor and
resets the stored descriptor to -1. -/
def closeFE (env : Env) (s : Frontend) : Frontend :=
  if s.fd_fe ≠ -1 then
    { s.tick env (Event.feClose s.fd_fe) with fd_fe := -1 }
  else s

/-- The function `Frontend::openDMX(path)`. -/
def openDMX (env : Env) (s : Frontend) : Int × Frontend :=
  let fd := sysOpen env s
  (fd, s.tick env (Event.dmxOpen fd))

/-- The function `Frontend::closeDMX`. -/
def closeDMX (env : Env) (s : Frontend) : Frontend :=
  if s.fd_dmx ≠ -1 then
    { s.tick env (Event.dmxClose s.fd_dmx) with fd_dmx := -1 }
  else s

/-- Apply a change to the PID table `_frontendData.getFilterData()`. -/
def Frontend.mapFilter (s : Frontend) (f : PidTable → PidTable) : Frontend :=
  { s with frontendData := { s.frontendData with filter := f s.frontendData.filter } }

/-- The loop `for (std::size_t i = 0; i < n; ++i) body(i)`. -/
def forUpTo {σ : Type} (body : Nat → σ → σ) : Nat → σ → σ
  | 0, s => s
  | n + 1, s => body n (forUpTo body n s)

/-! ## Tuning -/

/-- The assignment `_tuned = b`. -/
def Frontend.setTuned (s : Frontend) (b : Bool) : Frontend := { s with tuned := b }

/-- The assignment `_fd_fe = fd`. -/
def Frontend.setFdFe (s : Frontend) (fd : Int) : Frontend := { s with fd_fe := fd }

/-- The loop of `Frontend::tune` over the registered delivery systems, from
position `index` on. -/
def tuneFrom (env : Env) (delsys : InputSystem) :
    List DeliverySystem → Nat → Frontend → Bool × Frontend
  | [], _, s => (false, s)
  | system :: rest, index, s =>
    if system.isCapableOf delsys then
      let ok := env.tuneOk s.calls
      (ok, s.tick env (Event.tune index s.fd_fe ok))
    else tuneFrom env delsys rest (index + 1) s

/-- The function `Frontend::tune`. -/
def tune (env : Env) (s : Frontend) : Bool × Frontend :=
  tuneFrom env s.frontendData.delsys s.deliverySystem 0 s

/-- Whether a status word has `FE_HAS_LOCK` set. -/
def hasLock (status : Nat) : Bool := status &&& FE_HAS_LOCK != 0

/-- The call `::ioctl(_fd_fe, FE_READ_STATUS, &status)`: the status word when
the call returned 0. -/
def readStatus (env : Env) (s : Frontend) : Option Nat × Frontend :=
  let result := if env.ioctlOk s.calls then some (env.feStatus s.calls) else none
  (result, s.tick env (Event.readStatus s.fd_fe result))

/-- The test `::ioctl(...) == 0` and then `status & FE_HAS_LOCK`. -/
def lockReported : Option Nat → Bool
  | some status => hasLock status
  | none => false

/-- The loop `for (;;)` of `Frontend::setupAndTune` that waits for the lock;
`sw` is the time the stop watch was started.  Each round sleeps 20 ms, so
the loop ends; `fuel` bounds the number of rounds (see `waitOnLock_fuel`). -/
def waitOnLock (env : Env) (sw : Nat) : Nat → Frontend → Frontend
  | 0, s => s
  | fuel + 1, s =>
    let r := readStatus env s
    if lockReported r.1 then
      { r.2 with frontendData := r.2.frontendData.setMonitorData FE_HAS_LOCK 100 8 0 0 }
    else
      let waitTime := r.2.now - sw
      if waitTime > r.2.waitOnLockTimeout then r.2
      else waitOnLock env sw fuel (sleepFor env 20 r.2)

/-- A number of rounds that the waiting loop cannot exceed. -/
def lockFuel (sw : Nat) (s : Frontend) : Nat :=
  (s.waitOnLockTimeout + 1 - (s.now - sw)) + 1

/-- The part of `Frontend::setupAndTune` from `// try tuning` on. -/
def tuneAndWait (env : Env) (sw : Nat) (s : Frontend) : Bool × Frontend :=
  let r := tune env s
  if !r.1 then (false, r.2)
  else
    let s2 := r.2.setTuned true
    if s2.now - sw < 500 then
      (true, waitOnLock env sw (lockFuel sw s2) s2)
    else (true, s2)

/-- The function `Frontend::setupAndTune`.  A stop watch that is not started
explicitly measures from a time the environment chooses, not later than now. -/
def setupAndTune (env : Env) (s : Frontend) : Bool × Frontend :=
  if !s.tuned then
    if s.fd_fe = -1 then
      let sw := s.now
      let r := openFE env false s
      if r.1 < 0 then (false, r.2.setFdFe (-1))
      else tuneAndWait env sw (r.2.setFdFe r.1)
    else tuneAndWait env (min (env.stopWatchInit s.calls) s.now) s
  else (s.tuned, s)

/-! ## PID filters -/

/-- The loop `while ((_fd_dmx = openDMX(_path_to_dmx)) == -1)` of
`Frontend::openPid`; `left` is `3 - timeout`, so the loop gives up when
`++timeout` makes `timeout > 3`.  Returns false when `openPid` returns from
inside the loop. -/
def openDMXRetry (env : Env) : Nat → Frontend → Bool × Frontend
  | left, s =>
    let r := openDMX env s
    let s1 := { r.2 with fd_dmx := r.1 }
    if r.1 = -1 then
      let s2 := sleepFor env 20 s1
      match left with
      | 0 => (false, s2)
      | left + 1 => openDMXRetry env left s2
    else (true, s1)

/-- A PID filter ioctl on the demux followed by the early `return` on its
failure: `if (::ioctl(_fd_dmx, REQUEST, ...) != 0) { return; }` and then the
bookkeeping `after` on the PID table.  `event` names the request. -/
def filterIoctl (env : Env) (event : Int → Bool → Event) (after : PidTable → PidTable)
    (s : Frontend) : Frontend :=
  let ok := env.ioctlOk s.calls
  let s1 := s.tick env (event s.fd_dmx ok)
  if !ok then s1
  else s1.mapFilter after

/-- The block `if (_dvrBufferSizeMB > 0)` of `Frontend::openPid`; `size` is
an `unsigned int`. -/
def setDmxBufferSize (env : Env) (s : Frontend) : Frontend :=
  if s.dvrBufferSizeMB > 0 then
    let size := (s.dvrBufferSizeMB * 1024 * 1024) % 2 ^ 32
    s.tick env (Event.setBufferSize s.fd_dmx size (env.ioctlOk s.calls))
  else s

/-- The function `Frontend::openPid`. -/
def openPid (env : Env) (pid : Nat) (s : Frontend) : Frontend :=
  if !s.frontendData.filter.shouldPIDOpen pid then s
  else if s.fd_dmx = -1 then
    let r := openDMXRetry env 3 s
    if !r.1 then r.2
    else
      filterIoctl env (fun fd ok => Event.setPesFilter fd pid ok) (fun t => t.setPIDOpened pid)
        (setDmxBufferSize env r.2)
  else
    filterIoctl env (fun fd ok => Event.addPid fd pid ok) (fun t => t.setPIDOpened pid) s

/-- The function `Frontend::closePid`. -/
def closePid (env : Env) (pid : Nat) (s : Frontend) : Frontend :=
  if !s.frontendData.filter.shouldPIDClose pid then s
  else
    filterIoctl env (fun fd ok => Event.removePid fd pid ok) (fun t => t.setPIDClosed pid) s

/-- The body of the loop of `Frontend::updatePIDFilters`. -/
def syncPid (env : Env) (i : Nat) (s : Frontend) : Frontend :=
  openPid env i (closePid env i s)

/-- The function `Frontend::updatePIDFilters`. -/
def updatePIDFilters (env : Env) (s : Frontend) : Frontend :=
  if !s.frontendData.filter.hasPIDTableChanged then s
  else if !s.tuned then s
  else
    forUpTo (syncPid env) MAX_PIDS (s.mapFilter PidTable.resetPIDTableChanged)

/-! ## Update and teardown -/

/-- The body of the loops `// Close active PIDs` of `Frontend::update` and
`Frontend::teardown`. -/
def dropPid (env : Env) (i : Nat) (s : Frontend) : Frontend :=
  closePid env i (s.mapFilter (fun t => t.setPID i false))

/-- Modelled from the spec: `FrontendData::resetDeviceDataChanged` clears the
device-data dirty flag. -/
def Frontend.resetDeviceDataChanged (s : Frontend) : Frontend :=
  { s with frontendData := { s.frontendData with changed := false } }

/-- The two calls `_frontendData.initialize()` and
`_transform.resetTransformFlag()`. -/
def Frontend.reinitialise (s : Frontend) : Frontend :=
  { s with frontendData := FrontendData.initialize, transformFlag := false }

/-- The block of `Frontend::update` guarded by
`_frontendData.hasDeviceDataChanged()`. -/
def closeOnChange (env : Env) (s : Frontend) : Frontend :=
  if s.frontendData.changed then
    let s1 := s.resetDeviceDataChanged.setTuned false
    let s2 := forUpTo (dropPid env) MAX_PIDS s1
    sleepFor env 5 (closeFE env (closeDMX env s2))
  else s

/-- The function `Frontend::update` (built without `SIMU`). -/
def update (env : Env) (s : Frontend) : Bool × Frontend :=
  let s1 := closeOnChange env s
  let r := setupAndTune env s1
  if !r.1 then (false, r.2)
  else (true, updatePIDFilters env r.2)

/-- The function `Frontend::teardown`. -/
def teardown (env : Env) (s : Frontend) : Bool × Frontend :=
  let s1 := forUpTo (dropPid env) MAX_PIDS s
  let s2 := closeFE env (closeDMX env (s1.setTuned false))
  (true, s2.reinitialise)

/-! ## Signal monitoring -/

/-- Scale `FE_SCALE_DECIBEL` of linux/dvb/frontend.h. -/
def FE_SCALE_DECIBEL : Nat := 1

/-- Scale `FE_SCALE_RELATIVE` of linux/dvb/frontend.h. -/
def FE_SCALE_RELATIVE : Nat := 2

/-- Scale `FE_SCALE_COUNTER` of linux/dvb/frontend.h. -/
def FE_SCALE_COUNTER : Nat := 3

/-- Conversion of an integer to `int` (32 bit, two's complement). -/
def toInt32 (x : Int) : Int := (x + 2147483648) % 4294967296 - 2147483648

/-- Conversion of an integer to `uint16_t`. -/
def toUInt16 (x : Int) : Nat := (x % 65536).toNat

/-- The statement `v = (v * k) / 0xffff` on a `uint16_t v`: the operands
are promoted to `int`, the quotient is stored back in 16 bits. -/
def scale16 (v k : Nat) : Nat :=
  toUInt16 (Int.tdiv (toInt32 ((v : Int) * (k : Int))) 0xffff)

/-- The local variables `strength`, `snr`, `ber`, `ublocks` of
`Frontend::monitorSignal`. -/
structure SignalStats where
  strength : Nat
  snr : Nat
  ber : Nat
  ublocks : Nat
deriving DecidableEq, Repr

/-- One of the first two `switch` statements of the modern path: the new
16 bit value, or `none` when the `default` branch latches the legacy path. -/
def readStat16 (env : Env) (p : Stat) : Option Nat :=
  if p.scale = FE_SCALE_DECIBEL then some (env.decibel p.svalue % 65536)
  else if p.scale = FE_SCALE_RELATIVE then some (p.uvalue % 65536)
  else none

/-- The third `switch` statement of the modern path (`berScale`). -/
def readStatBer (p : Stat) : Option Nat :=
  if p.scale = FE_SCALE_DECIBEL ∨ p.scale = FE_SCALE_RELATIVE ∨ p.scale = FE_SCALE_COUNTER then
    some (p.uvalue &&& 0x7FFF)
  else none

/-- The block `if (!_oldApiCallStats)` of `Frontend::monitorSignal`. -/
def modernStats (env : Env) (st : SignalStats) (s : Frontend) : SignalStats × Frontend :=
  let c := s.calls
  let s1 := s.tick env (Event.getProperty s.fd_fe (env.ioctlOk c))
  let r0 := readStat16 env (env.stat c 0)
  let r1 := readStat16 env (env.stat c 1)
  let r2 := readStatBer (env.stat c 2)
  let latch := r0.isNone || r1.isNone || r2.isNone
  ({ st with strength := r0.getD st.strength, snr := r1.getD st.snr, ber := r2.getD st.ber },
   { s1 with oldApiCallStats := s1.oldApiCallStats || latch })

/-- The 16-bit variable after a legacy statistics ioctl
(`FE_READ_SIGNAL_STRENGTH`, `FE_READ_SNR`) asked as device action `n`: what
the driver wrote, or 0 when the ioctl failed. -/
def legacyRaw (env : Env) (n : Nat) : Nat :=
  if env.ioctlOk n then env.raw n % 65536 else 0

/-- The block `if (_oldApiCallStats)` of `Frontend::monitorSignal`. -/
def legacyStats (env : Env) (s : Frontend) : SignalStats × Frontend :=
  let strength := legacyRaw env s.calls
  let s1 := s.tick env (Event.readSignalStrength s.fd_fe (env.ioctlOk s.calls))
  let snr := legacyRaw env s1.calls
  let s2 := s1.tick env (Event.readSnr s1.fd_fe (env.ioctlOk s1.calls))
  let ok3 := env.ioctlOk s2.calls
  let ber := if ok3 then env.raw s2.calls % 4294967296 else 0
  let s3 := s2.tick env (Event.readBer s2.fd_fe ok3)
  let ok4 := env.ioctlOk s3.calls
  let ublocks := if ok4 then env.raw s3.calls % 4294967296 else 0
  let s4 := s3.tick env (Event.readUncorrectedBlocks s3.fd_fe ok4)
  ({ strength := scale16 strength 240, snr := scale16 snr 15, ber := ber, ublocks := ublocks }, s4)

/-- The modern block of `Frontend::monitorSignal`, entered when the build
has it (`FULL_DVB_API_VERSION >= 0x050A`) and the legacy latch is clear. -/
def modernBlock (env : Env) (s : Frontend) : SignalStats × Frontend :=
  let st0 : SignalStats := { strength := 0, snr := 0, ber := 0, ublocks := 0 }
  if s.modernApi && !s.oldApiCallStats then modernStats env st0 s else (st0, s)

/-- The statistics part of `Frontend::monitorSignal`: the modern block, then
the legacy block when the latch is set. -/
def collectStats (env : Env) (s : Frontend) : SignalStats × Frontend :=
  let m := modernBlock env s
  if m.2.oldApiCallStats then legacyStats env m.2 else m

/-- The function `Frontend::monitorSignal` (built without `SIMU`);
`showStatus` only selects whether a line is logged. -/
def monitorSignal (env : Env) (showStatus : Bool) (s : Frontend) : Frontend :=
  let r := readStatus env s
  match r.1 with
  | some status =>
    let l := collectStats env r.2
    let _ := showStatus
    { l.2 with frontendData :=
        l.2.frontendData.setMonitorData status l.1.strength l.1.snr l.1.ber l.1.ublocks }
  | none => r.2

/-! ## Construction and the reachable states -/

/-- The state the constructor `Frontend::Frontend` leaves, given the
delivery systems that `setupFrontend` registered. -/
def Frontend.construct (systems : List DeliverySystem) (modernApi : Bool) (now : Nat) : Frontend :=
  { tuned := false, fd_fe := -1, fd_dmx := -1,
    frontendData := FrontendData.initialize,
    deliverySystem := systems,
    transformFlag := false,
    dvrBufferSizeMB := DEFAULT_DVR_BUFFER_SIZE,
    waitOnLockTimeout := DEFAULT_WAIT_ON_LOCK_TIMEOUT,
    oldApiCallStats := !modernApi,
    modernApi := modernApi,
    now := now, calls := 0, trace := [] }

/-- Modelled from the spec: what `Frontend::parseStreamString` does to the
frontend: it stores the requested delivery system, may raise the
device-data dirty flag, and, when the request carries a PID list, marks
each PID as desired or not (`PidTable::setPID`). -/
def parseStreamString (delsys : InputSystem) (dirty : Bool) (pids : Option (Nat → Bool))
    (s : Frontend) : Frontend :=
  let d := s.frontendData
  let filter : PidTable :=
    match pids with
    | none => d.filter
    | some want =>
      { data := fun q => if q < MAX_PIDS then { d.filter.data q with desired := want q }
                         else d.filter.data q,
        changed := true }
  { s with frontendData := { d with delsys := delsys, changed := d.changed || dirty,
                                     filter := filter } }

/-- The states a `Frontend` can be in: the constructed state, and every
state reached from one by a call of a public member function, whatever the
environment answers. -/
inductive Reachable : Frontend → Prop where
  | construct (systems : List DeliverySystem) (modernApi : Bool) (now : Nat) :
      Reachable (Frontend.construct systems modernApi now)
  | parse {s : Frontend} (delsys : InputSystem) (dirty : Bool) (pids : Option (Nat → Bool)) :
      Reachable s → Reachable (parseStreamString delsys dirty pids s)
  | update {s : Frontend} (env : Env) : Reachable s → Reachable (update env s).2
  | teardown {s : Frontend} (env : Env) : Reachable s → Reachable (teardown env s).2
  | setupAndTune {s : Frontend} (env : Env) : Reachable s → Reachable (setupAndTune env s).2
  | updatePIDFilters {s : Frontend} (env : Env) :
      Reachable s → Reachable (updatePIDFilters env s)
  | monitorSignal {s : Frontend} (env : Env) (showStatus : Bool) :
      Reachable s → Reachable (monitorSignal env showStatus s)

/-! ## The RTP stream thread -/

/-- Modelled from the spec: `mpegts::PacketBuffer` as the stream thread sees
it: the bytes from `getReadBufferPtr()` on (the RTP header first), the
fixed payload size `getBufferSize()`, and the write cursor: the number of
payload bytes written so far. -/
structure PacketBuffer where
  bytes : Nat → Nat
  size : Nat
  written : Nat

/-- Constant `mpegts::PacketBuffer::RTP_HEADER_LEN`: the 12-byte RTP header. -/
def RTP_HEADER_LEN : Nat := 12

/-- Modelled from the spec: the part of `StreamClient` the RTP thread uses:
the self-destruct flag, and how often `selfDestruct` was called. -/
structure StreamClient where
  selfDestructing : Bool
  selfDestructCalls : Nat
deriving DecidableEq, Repr

/-- Modelled from the spec: `StreamClient::selfDestruct` marks the client
self-destructing. -/
def StreamClient.selfDestruct (c : StreamClient) : StreamClient :=
  { selfDestructing := true, selfDestructCalls := c.selfDestructCalls + 1 }

/-- What the RTP thread does to the outside. -/
inductive RtpEvent where
  | addRtpData (size : Nat) (timestamp : Nat)
  | sendDataTo (header : List Nat) (len : Nat) (ok : Bool)
deriving DecidableEq, Repr

/-- The state of `output::StreamThreadRtp`: the 16-bit sequence counter
`_cseq` of `StreamThreadBase`, and the trace of its calls to the stream and
the socket. -/
structure StreamThreadRtp where
  cseq : Nat
  trace : List RtpEvent

/-- The result of `StreamThreadRtp::writeDataToOutputDevice`. -/
structure WriteResult where
  ret : Bool
  thread : StreamThreadRtp
  buffer : PacketBuffer
  client : StreamClient

/-- Store a byte: `rtpBuffer[i] = v`. -/
def PacketBuffer.setByte (b : PacketBuffer) (i v : Nat) : PacketBuffer :=
  { b with bytes := fun j => if j = i then v else b.bytes j }

/-- The function `StreamThreadRtp::writeDataToOutputDevice`; `ticks` is what
`base::TimeCounter::getTicks()` returns and `sendOk` what `sendDataTo`
returns. -/
def writeDataToOutputDevice (ticks : Nat) (sendOk : Bool) (t : StreamThreadRtp)
    (buffer : PacketBuffer) (client : StreamClient) : WriteResult :=
  let cseq := (t.cseq + 1) % 65536
  let b2 := buffer.setByte 2 ((cseq >>> 8) &&& 0xFF)
  let b3 := b2.setByte 3 (cseq &&& 0xFF)
  let timestamp := (ticks * 90) % 2 ^ 64
  let b4 := b3.setByte 4 ((timestamp >>> 24) &&& 0xFF)
  let b5 := b4.setByte 5 ((timestamp >>> 16) &&& 0xFF)
  let b6 := b5.setByte 6 ((timestamp >>> 8) &&& 0xFF)
  let b7 := b6.setByte 7 ((timestamp >>> 0) &&& 0xFF)
  let size := b7.size
  let header := (List.range RTP_HEADER_LEN).map b7.bytes
  let trace := t.trace ++ [RtpEvent.addRtpData size timestamp,
                           RtpEvent.sendDataTo header (size + RTP_HEADER_LEN) sendOk]
  let client1 :=
    if !sendOk then
      if !client.selfDestructing then client.selfDestruct else client
    else client
  { ret := true, thread := { cseq := cseq, trace := trace }, buffer := b7, client := client1 }

/-- The 16-bit big-endian number at offsets 2..3 of a buffer. -/
def PacketBuffer.sequenceNumber (b : PacketBuffer) : Nat :=
  b.bytes 2 * 256 + b.bytes 3

/-! ## Notions used in the statements -/

/-- The device actions performed on the way from state `s` to state `s'`. -/
def Frontend.since (s s' : Frontend) : List Event := s'.trace.drop s.trace.length

/-- Whether PID `p` is marked desired. -/
def Frontend.desired (s : Frontend) (p : Nat) : Bool := (s.frontendData.filter.data p).desired

/-- Whether PID `p` is marked opened. -/
def Frontend.opened (s : Frontend) (p : Nat) : Bool := (s.frontendData.filter.data p).opened

/-- A demux open or a PID filter ioctl that failed. -/
def Event.failed : Event → Bool
  | Event.dmxOpen fd => decide (fd = -1)
  | Event.setPesFilter _ _ ok => !ok
  | Event.addPid _ _ ok => !ok
  | Event.removePid _ _ ok => !ok
  | _ => false

/-- The PID a demux filter ioctl is about. -/
def Event.pid : Event → Option Nat
  | Event.setPesFilter _ pid _ => some pid
  | Event.addPid _ pid _ => some pid
  | Event.removePid _ pid _ => some pid
  | _ => none

/-- A device action on the demux (or a pause between two of them). -/
def Event.isDemux : Event → Bool
  | Event.dmxOpen _ => true
  | Event.dmxClose _ => true
  | Event.sleep _ => true
  | Event.setBufferSize _ _ _ => true
  | Event.setPesFilter _ _ _ => true
  | Event.addPid _ _ _ => true
  | Event.removePid _ _ _ => true
  | _ => false

/-- State `s'` differs from `s` at most in the demux descriptor, the PID
table, the clock, and by demux actions added to the trace. -/
structure DemuxOnly (s s' : Frontend) : Prop where
  tuned : s'.tuned = s.tuned
  fd_fe : s'.fd_fe = s.fd_fe
  dirty : s'.frontendData.changed = s.frontendData.changed
  delsys : s'.frontendData.delsys = s.frontendData.delsys
  monitor : s'.frontendData.monitor = s.frontendData.monitor
  systems : s'.deliverySystem = s.deliverySystem
  transformFlag : s'.transformFlag = s.transformFlag
  dvrBufferSizeMB : s'.dvrBufferSizeMB = s.dvrBufferSizeMB
  waitOnLockTimeout : s'.waitOnLockTimeout = s.waitOnLockTimeout
  oldApiCallStats : s'.oldApiCallStats = s.oldApiCallStats
  modernApi : s'.modernApi = s.modernApi
  now : s.now ≤ s'.now
  trace : s.trace <+: s'.trace
  events : ∀ e ∈ s.since s', e.isDemux = true

/-- No demux open and no PID filter ioctl failed on the way from `s` to `s'`. -/
def NoFail (s s' : Frontend) : Prop := ∀ e ∈ s.since s', e.failed = false

/-- Between `s` and `s'` the PID table changed at most in the opened bit of
PID `i`. -/
structure TableStep (i : Nat) (s s' : Frontend) : Prop where
  other : ∀ q, q ≠ i → s'.frontendData.filter.data q = s.frontendData.filter.data q
  desired : ∀ q, s'.desired q = s.desired q
  changed : s'.frontendData.filter.changed = s.frontendData.filter.changed

/-- An environment in which no `open` and no `ioctl` ever fails. -/
def Env.NeverFails (env : Env) : Prop :=
  ∀ n, env.ioctlOk n = true ∧ env.openResult n ≠ none

/-- A query of the frontend's status or statistics (or a pause between two). -/
def Event.isFeQuery : Event → Bool
  | Event.sleep _ => true
  | Event.readStatus _ _ => true
  | Event.getProperty _ _ => true
  | Event.readSignalStrength _ _ => true
  | Event.readSnr _ _ => true
  | Event.readBer _ _ => true
  | Event.readUncorrectedBlocks _ _ => true
  | _ => false

/-- State `s'` has the tuned flag, the descriptors, the PID table, the
tuning intent and the configuration of `s`; the device actions in between
all satisfy `allowed`. -/
structure Keeps (allowed : Event → Bool) (s s' : Frontend) : Prop where
  tuned : s'.tuned = s.tuned
  fd_fe : s'.fd_fe = s.fd_fe
  fd_dmx : s'.fd_dmx = s.fd_dmx
  filter : s'.frontendData.filter = s.frontendData.filter
  dirty : s'.frontendData.changed = s.frontendData.changed
  delsys : s'.frontendData.delsys = s.frontendData.delsys
  systems : s'.deliverySystem = s.deliverySystem
  transformFlag : s'.transformFlag = s.transformFlag
  dvrBufferSizeMB : s'.dvrBufferSizeMB = s.dvrBufferSizeMB
  waitOnLockTimeout : s'.waitOnLockTimeout = s.waitOnLockTimeout
  modernApi : s'.modernApi = s.modernApi
  now : s.now ≤ s'.now
  trace : s.trace <+: s'.trace
  events : ∀ e ∈ s.since s', allowed e = true

/-- The position of the first registered delivery system that is capable
of `delsys`. -/
def firstCapable (delsys : InputSystem) : List DeliverySystem → Option Nat
  | [] => none
  | system :: rest =>
    if system.isCapableOf delsys then some 0
    else (firstCapable delsys rest).map (fun k => k + 1)

/-- Reading a trace from the left: whether the most recent `tune` of a
delivery system returned true and the frontend was not closed since;
`standing` is the answer for the empty trace. -/
def tuneStandsFrom (standing : Bool) : List Event → Bool
  | [] => standing
  | Event.tune _ _ ok :: rest => tuneStandsFrom ok rest
  | Event.feClose _ :: rest => tuneStandsFrom false rest
  | _ :: rest => tuneStandsFrom standing rest

/-- Whether, on this trace, the most recent `tune` of a delivery system
returned true and the frontend was not closed since. -/
def tuneStands (trace : List Event) : Bool := tuneStandsFrom false trace

/-- A successful `FE_READ_STATUS` whose status word has `FE_HAS_LOCK`. -/
def Event.reportsLock : Event → Bool
  | Event.readStatus _ (some status) => hasLock status
  | _ => false

/-- Whether `FE_READ_STATUS` reported `FE_HAS_LOCK` anywhere on this trace
(so also: whether it did since the frontend was last opened and tuned). -/
def lockSeen (trace : List Event) : Bool := trace.any Event.reportsLock

/-- A device action that neither tunes nor closes the frontend. -/
def Event.isNeutral : Event → Bool
  | Event.tune _ _ _ => false
  | Event.feClose _ => false
  | _ => true

/-- The invariant of the tuned flag: the frontend descriptor is -1 or a
descriptor; when tuned it is a descriptor, and the most recent `tune`
succeeded with the frontend not closed since. -/
structure TunedInv (s : Frontend) : Prop where
  fd : -1 ≤ s.fd_fe
  isOpen : s.tuned = true → 0 ≤ s.fd_fe
  stands : s.tuned = true → tuneStands s.trace = true

/-- The events are `DMX_REMOVE_PID` ioctls on descriptor `fd`, one for each
of the PIDs, in the order of the PIDs. -/
def Removals (fd : Int) (pids : List Nat) (events : List Event) : Prop :=
  List.Forall₂ (fun p e => ∃ ok, e = Event.removePid fd p ok) pids events

/-- State `s'` has the demux descriptor, the PID table, the dirty flag, the
tuning intent and the registered delivery systems of `s`, and its trace
extends that of `s`. -/
structure KeepsData (s s' : Frontend) : Prop where
  fd_dmx : s'.fd_dmx = s.fd_dmx
  filter : s'.frontendData.filter = s.frontendData.filter
  dirty : s'.frontendData.changed = s.frontendData.changed
  delsys : s'.frontendData.delsys = s.frontendData.delsys
  systems : s'.deliverySystem = s.deliverySystem
  trace : s.trace <+: s'.trace

/-- The descriptor the frontend has when `setupAndTune` calls `tune`: the one
just opened when the frontend was closed. -/
def tuneFd (env : Env) (s : Frontend) : Int :=
  if s.fd_fe = -1 then sysOpen env s else s.fd_fe

/-- The two PID filter ioctls that `updatePIDFilters` issues on an open
demux `fd` for PID `p`, given the bits the PID had before the call: a
`DMX_REMOVE_PID` when it was opened and not desired, a `DMX_ADD_PID` when it
was desired and not opened. -/
def IsSyncEvent (fd : Int) (wasOpened wasDesired : Nat → Bool) (bound : Nat) (e : Event) : Prop :=
  ∃ p ok, p < bound ∧
    ((e = Event.removePid fd p ok ∧ wasOpened p = true ∧ wasDesired p = false) ∨
     (e = Event.addPid fd p ok ∧ wasDesired p = true ∧ wasOpened p = false))

/-! ## Example environments and states -/

/-- An environment that answers every call the same way. -/
def Env.const (fd : Option Nat) (ok : Bool) (status : Nat) (tuneOk : Bool) (latency : Nat) : Env :=
  { openResult := fun _ => fd, ioctlOk := fun _ => ok, feStatus := fun _ => status,
    tuneOk := fun _ => tuneOk, latency := fun _ => latency, raw := fun _ => 0,
    stat := fun _ _ => { scale := 0, uvalue := 0, svalue := 0 }, decibel := fun _ => 0,
    stopWatchInit := fun _ => 0 }

/-- An environment in which every call succeeds and every legacy statistics
ioctl writes the largest 16-bit value. -/
def Env.strongSignal : Env :=
  { Env.const (some 4) true FE_HAS_LOCK true 0 with raw := fun _ => 65535 }

/-- An environment in which every call succeeds and every legacy statistics
ioctl writes 32768; the modern statistics are not available. -/
def Env.halfSignal : Env :=
  { Env.const (some 4) true FE_HAS_LOCK true 0 with raw := fun _ => 32768 }

/-- A delivery system module capable of everything. -/
def DeliverySystem.any : DeliverySystem := { isCapableOf := fun _ => true }

/-- A state with one delivery system, an open frontend (descriptor 4), the
given tuned flag, demux descriptor, dirty flag and table-changed flag, in
which the PIDs in `want` are desired and those in `have_` are opened. -/
def Frontend.example (tuned : Bool) (fd_dmx : Int) (dirty changed : Bool)
    (want have_ : Nat → Bool) : Frontend :=
  { Frontend.construct [DeliverySystem.any] true 0 with
    tuned := tuned, fd_fe := 4, fd_dmx := fd_dmx,
    frontendData :=
      { changed := dirty, delsys := InputSystem.DVBS2,
        filter := { data := fun q => { PidData.clear with desired := want q,
                                                            opened := have_ q },
                    changed := changed },
        monitor := { status := 0, strength := 0, snr := 0, ber := 0, ublocks := 0 } } }

/-- The state after `setupAndTune` on a freshly constructed frontend when
the open and the tune succeed and the first `FE_READ_STATUS` reports the
lock. -/
def Frontend.lockedExample : Frontend :=
  (setupAndTune (Env.const (some 4) true FE_HAS_LOCK true 0)
    (Frontend.construct [DeliverySystem.any] true 0)).2

/-- The state after `setupAndTune` on a freshly constructed frontend when
the open and the tune succeed, every device action takes 200 ms and
`FE_READ_STATUS` never reports the lock: the wait ends by timeout. -/
def Frontend.lockTimeoutExample : Frontend :=
  (setupAndTune (Env.const (some 4) true 0 true 200)
    (Frontend.construct [DeliverySystem.any] true 0)).2

/-- A tuned frontend with an open demux (PID 0 opened) on which a changed
request with `pids=all` has just been parsed: the dirty flag is set and all
8192 PIDs are desired. -/
def Frontend.allPidsExample : Frontend :=
  Frontend.example true 5 true true (fun _ => true) (fun q => q == 0)

/-- A tuned frontend with a clean tuning intent whose demux is closed, on
which PID 0 has just become desired. -/
def Frontend.firstPidExample : Frontend :=
  Frontend.example true (-1) false true (fun q => q == 0) (fun _ => false)

/-! ## Sequences of calls of the RTP thread -/

/-- What one call of `StreamThreadRtp::writeDataToOutputDevice` gets from
outside: the tick counter, the outcome of `sendDataTo`, and the buffer. -/
structure WriteCall where
  ticks : Nat
  sendOk : Bool
  buffer : PacketBuffer

/-- The thread and the client after a sequence of calls of
`writeDataToOutputDevice` for this client. -/
def writeAll : List WriteCall → StreamThreadRtp × StreamClient → StreamThreadRtp × StreamClient
  | [], tc => tc
  | c :: rest, tc =>
    let r := writeDataToOutputDevice c.ticks c.sendOk tc.1 c.buffer tc.2
    writeAll rest (r.thread, r.client)

/-- The number of calls before the first one whose `sendDataTo` fails. -/
def firstFailure (calls : List WriteCall) : Nat :=
  (calls.takeWhile (fun c => c.sendOk)).length

/-- A call of `sendDataTo`. -/
def RtpEvent.isSend : RtpEvent → Bool
  | RtpEvent.sendDataTo _ _ _ => true
  | _ => false

/-- A buffer of 1316 payload bytes, all bytes zero, nothing written. -/
def PacketBuffer.zero : PacketBuffer := { bytes := fun _ => 0, size := 1316, written := 0 }

/-- Modelled from the spec: a client when streaming to it starts: it is not
self-destructing and `selfDestruct` was never called. -/
def StreamClient.fresh : StreamClient := { selfDestructing := false, selfDestructCalls := 0 }

/-! ## The configuration read from XML -/

/-- Conversion of an integer to `unsigned int` (32 bit). -/
def toUInt32 (x : Int) : Nat := (x % 4294967296).toNat

/-- The function `Frontend::doFromXML`, for the two numbers the frontend
keeps itself: `dvrbuffer` and `waitOnLockTimeout` are what `std::stoi`
returns for the elements `dvrbuffer.value` and `waitOnLockTimeout.value`,
`none` when `findXMLElement` does not find the element.  The elements for
the delivery systems and the transformation are handed to those modules. -/
def doFromXML (dvrbuffer waitOnLockTimeout : Option Int) (s : Frontend) : Frontend :=
  let s1 :=
    match dvrbuffer with
    | some v =>
      let newSize := toUInt32 v
      { s with dvrBufferSizeMB :=
          if newSize < MAX_DVR_BUFFER_SIZE then newSize else DEFAULT_DVR_BUFFER_SIZE }
    | none => s
  match waitOnLockTimeout with
  | some v =>
    let c := toUInt32 v
    { s1 with waitOnLockTimeout :=
        if c < MAX_WAIT_ON_LOCK_TIMEOUT then c else MAX_WAIT_ON_LOCK_TIMEOUT }
  | none => s1

/-! ## Reading from the demux -/

/-- Modelled from the spec: `PacketBuffer::getAmountOfBytesToWrite`, the
remaining capacity of the buffer. -/
def PacketBuffer.getAmountOfBytesToWrite (b : PacketBuffer) : Nat := b.size - b.written

/-- Modelled from the spec: `PacketBuffer::addAmountOfBytesWritten` advances
the write cursor. -/
def PacketBuffer.addAmountOfBytesWritten (b : PacketBuffer) (n : Nat) : PacketBuffer :=
  { b with written := b.written + n }

/-- Modelled from the spec: `PacketBuffer::full`, the payload is complete. -/
def PacketBuffer.full (b : PacketBuffer) : Bool := b.written == b.size

/-- What the demux answers to `::read`: an error, or the bytes it has ready. -/
inductive ReadAnswer where
  | error
  | data (bytes : List Nat)

/-- The value `::read(fd, ptr, count)` returns: -1 on error, else the number
of bytes stored, which is at most `count`. -/
def ReadAnswer.returned (a : ReadAnswer) (count : Nat) : Int :=
  match a with
  | ReadAnswer.error => -1
  | ReadAnswer.data bytes => ((bytes.take count).length : Int)

/-- The buffer after `::read(fd, buffer.getWriteBufferPtr(), count)`: the
bytes read are stored from the write cursor on, behind the RTP header. -/
def PacketBuffer.store (b : PacketBuffer) (a : ReadAnswer) (count : Nat) : PacketBuffer :=
  match a with
  | ReadAnswer.error => b
  | ReadAnswer.data bytes =>
    let got := bytes.take count
    let start := RTP_HEADER_LEN + b.written
    { b with bytes := fun j =>
        if start ≤ j ∧ j < start + got.length then got.getD (j - start) 0 else b.bytes j }

/-- What the streaming side of the frontend does to the outside: the read
from the demux, and the call of `FrontendData::addFilterData` with a buffer
that holds `written` payload bytes. -/
inductive StreamEvent where
  | read (fd : Int) (count : Nat) (returned : Int)
  | addFilterData (written : Nat)
deriving DecidableEq, Repr

/-- The result of `Frontend::readFullTSPacket`. -/
structure ReadResult where
  ret : Bool
  buffer : PacketBuffer
  events : List StreamEvent

/-- The function `Frontend::readFullTSPacket`; `answer` is what the demux
answers to the read.  The statistics that `addFilterData` keeps are not
part of this model, only that it is called. -/
def readFullTSPacket (answer : ReadAnswer) (buffer : PacketBuffer) (s : Frontend) : ReadResult :=
  let count := buffer.getAmountOfBytesToWrite
  let bytes := answer.returned count
  let b1 := buffer.store answer count
  let e := StreamEvent.read s.fd_dmx count bytes
  if bytes > 0 then
    let b2 := b1.addAmountOfBytesWritten bytes.toNat
    if b2.full then
      { ret := true, buffer := b2, events := [e, StreamEvent.addFilterData b2.written] }
    else { ret := false, buffer := b2, events := [e] }
  else { ret := false, buffer := b1, events := [e] }

/-! ## Enumeration of the delivery systems -/

/-- Value `SYS_DVBC_ANNEX_A` of linux/dvb/frontend.h. -/
def SYS_DVBC_ANNEX_A : Nat := 1

/-- Value `SYS_DVBC_ANNEX_AC` of linux/dvb/frontend.h (the name before DVB API 5.5). -/
def SYS_DVBC_ANNEX_AC : Nat := 1

/-- Value `SYS_DVBC_ANNEX_B` of linux/dvb/frontend.h. -/
def SYS_DVBC_ANNEX_B : Nat := 2

/-- Value `SYS_DVBT` of linux/dvb/frontend.h. -/
def SYS_DVBT : Nat := 3

/-- Value `SYS_DSS` of linux/dvb/frontend.h. -/
def SYS_DSS : Nat := 4

/-- Value `SYS_DVBS` of linux/dvb/frontend.h. -/
def SYS_DVBS : Nat := 5

/-- Value `SYS_DVBS2` of linux/dvb/frontend.h. -/
def SYS_DVBS2 : Nat := 6

/-- Value `SYS_DVBT2` of linux/dvb/frontend.h. -/
def SYS_DVBT2 : Nat := 16

/-- Value `SYS_DVBC_ANNEX_C` of linux/dvb/frontend.h (since DVB API 5.5). -/
def SYS_DVBC_ANNEX_C : Nat := 18

/-- Frontend type `FE_QPSK` of linux/dvb/frontend.h. -/
def FE_QPSK : Nat := 0

/-- Frontend type `FE_QAM` of linux/dvb/frontend.h. -/
def FE_QAM : Nat := 1

/-- Frontend type `FE_OFDM` of linux/dvb/frontend.h. -/
def FE_OFDM : Nat := 2

/-- Frontend type `FE_ATSC` of linux/dvb/frontend.h. -/
def FE_ATSC : Nat := 3

/-- Capability `FE_CAN_QAM_64` of linux/dvb/frontend.h. -/
def FE_CAN_QAM_64 : Nat := 0x2000

/-- Capability `FE_CAN_QAM_256` of linux/dvb/frontend.h. -/
def FE_CAN_QAM_256 : Nat := 0x8000

/-- Capability `FE_CAN_QAM_AUTO` of linux/dvb/frontend.h. -/
def FE_CAN_QAM_AUTO : Nat := 0x10000

/-- Capability `FE_CAN_2G_MODULATION` of linux/dvb/frontend.h. -/
def FE_CAN_2G_MODULATION : Nat := 0x10000000

/-- The fields of `_fe_info` that `setupFrontend` looks at. -/
structure FeInfo where
  type : Nat
  caps : Nat

/-- What `Frontend::setupFrontend` gets from the device: the descriptor
`openFE(_path_to_fe, true)` returns, the answer of `FE_GET_INFO` (`none`
when the ioctl fails), and the buffer `DTV_ENUM_DELSYS` fills (`none` when
`FE_GET_PROPERTY` fails). -/
structure Probe where
  fd_fe : Int
  info : Option FeInfo
  delsys : Option (List Nat)

/-- The `switch (_fe_info.type)` of the fallback for a DVB API without
`DTV_ENUM_DELSYS`: the buffer it fills, or `none` when it returns from
`setupFrontend`; `api0505` is `FULL_DVB_API_VERSION >= 0x0505`. -/
def legacyDelsys (api0505 : Bool) (info : FeInfo) : Option (List Nat) :=
  if info.type = FE_QPSK then
    some ((if info.caps &&& FE_CAN_2G_MODULATION ≠ 0 then [SYS_DVBS2] else []) ++ [SYS_DVBS])
  else if info.type = FE_OFDM then
    some ((if info.caps &&& FE_CAN_2G_MODULATION ≠ 0 then [SYS_DVBT2] else []) ++ [SYS_DVBT])
  else if info.type = FE_QAM then
    some [if api0505 then SYS_DVBC_ANNEX_A else SYS_DVBC_ANNEX_AC]
  else if info.type = FE_ATSC ∧
      info.caps &&& (FE_CAN_QAM_64 ||| FE_CAN_QAM_256 ||| FE_CAN_QAM_AUTO) ≠ 0 then
    some [SYS_DVBC_ANNEX_B]
  else none

/-- The part of `Frontend::setupFrontend` up to the counting loop: the
delivery systems the loop goes through, or `none` when `setupFrontend`
returns before. -/
def enumerateDelsys (api0505 : Bool) (p : Probe) : Option (List Nat) :=
  if p.fd_fe < 0 then none
  else
    match p.info with
    | none => none
    | some info =>
      match p.delsys with
      | some systems => some systems
      | none => legacyDelsys api0505 info

/-- The counters `_dvbs2`, `_dvbt`, `_dvbt2`, `_dvbc`, `_dvbc2` of the frontend. -/
structure Counts where
  dvbs2 : Nat
  dvbt : Nat
  dvbt2 : Nat
  dvbc : Nat
  dvbc2 : Nat
deriving DecidableEq, Repr

/-- The counters as the constructor initialises them. -/
def Counts.zero : Counts := { dvbs2 := 0, dvbt := 0, dvbt2 := 0, dvbc := 0, dvbc2 := 0 }

/-- The `switch (dtvProperty.u.buffer.data[i])` of the counting loop of
`Frontend::setupFrontend`. -/
def countDelsys (api0505 : Bool) (c : Counts) (sys : Nat) : Counts :=
  if sys = SYS_DSS then c
  else if sys = SYS_DVBS then { c with dvbs2 := c.dvbs2 + 1 }
  else if sys = SYS_DVBS2 then { c with dvbs2 := c.dvbs2 + 1 }
  else if sys = SYS_DVBT then { c with dvbt := c.dvbt + 1 }
  else if sys = SYS_DVBT2 then { c with dvbt2 := c.dvbt2 + 1 }
  else if (if api0505 then sys = SYS_DVBC_ANNEX_A ∨ sys = SYS_DVBC_ANNEX_C
           else sys = SYS_DVBC_ANNEX_AC) ∨ sys = SYS_DVBC_ANNEX_B then
    if c.dvbc = 0 then { c with dvbc := c.dvbc + 1 } else c
  else c

/-- The delivery system modules `setupFrontend` can register
(`delivery::DVBS`, `delivery::DVBT`, `delivery::DVBC`). -/
inductive Module where
  | DVBS
  | DVBT
  | DVBC
deriving DecidableEq, Repr

/-- The block `// Set delivery systems` of `Frontend::setupFrontend`. -/
def Counts.modules (c : Counts) : List Module :=
  (if c.dvbs2 > 0 then [Module.DVBS] else []) ++
  ((if c.dvbt > 0 ∨ c.dvbt2 > 0 then [Module.DVBT] else []) ++
   (if c.dvbc > 0 then [Module.DVBC] else []))

/-- What `Frontend::setupFrontend` leaves: the counters and the registered
modules `_deliverySystem`. -/
structure Setup where
  counts : Counts
  deliverySystem : List Module
deriving DecidableEq, Repr

/-- The function `Frontend::setupFrontend` (built without `SIMU`), called
once by the constructor.  Its device actions are not recorded; on a set-top
box it also issues `DMX_SET_SOURCE`, which changes nothing here. -/
def setupFrontend (api0505 : Bool) (p : Probe) : Setup :=
  match enumerateDelsys api0505 p with
  | none => { counts := Counts.zero, deliverySystem := [] }
  | some systems =>
    let c := systems.foldl (countDelsys api0505) Counts.zero
    { counts := c, deliverySystem := c.modules }

/-- A satellite system: DVB-S or DVB-S2. -/
def isSatellite (sys : Nat) : Bool := sys == SYS_DVBS || sys == SYS_DVBS2

/-- A terrestrial system: DVB-T or DVB-T2. -/
def isTerrestrial (sys : Nat) : Bool := sys == SYS_DVBT || sys == SYS_DVBT2

/-- A cable system: one of the DVB-C annexes the DVB API of the build has
(A, B, C since 5.5; AC, B before). -/
def isCable (api0505 : Bool) (sys : Nat) : Bool :=
  sys == SYS_DVBC_ANNEX_B ||
    (if api0505 then sys == SYS_DVBC_ANNEX_A || sys == SYS_DVBC_ANNEX_C
     else sys == SYS_DVBC_ANNEX_AC)

/-! ## Sequences of calls on a frontend -/

/-- A call of a member function of the frontend, with the environment it
runs in. -/
inductive Op where
  | monitorSignal (env : Env) (showStatus : Bool)
  | update (env : Env)
  | teardown (env : Env)
  | updatePIDFilters (env : Env)
  | setupAndTune (env : Env)
  | parseStreamString (delsys : InputSystem) (dirty : Bool) (pids : Option (Nat → Bool))

/-- The state after the call. -/
def Op.run : Op → Frontend → Frontend
  | Op.monitorSignal env showStatus, s => SATPI.monitorSignal env showStatus s
  | Op.update env, s => (SATPI.update env s).2
  | Op.teardown env, s => (SATPI.teardown env s).2
  | Op.updatePIDFilters env, s => SATPI.updatePIDFilters env s
  | Op.setupAndTune env, s => (SATPI.setupAndTune env s).2
  | Op.parseStreamString delsys dirty pids, s => SATPI.parseStreamString delsys dirty pids s

/-- The state after a sequence of calls. -/
def runOps : List Op → Frontend → Frontend
  | [], s => s
  | op :: rest, s => runOps rest (op.run s)

/-- A modern statistics call: `FE_GET_PROPERTY` for the three `DTV_STAT_*`
properties. -/
def Event.isModernStats : Event → Bool
  | Event.getProperty _ _ => true
  | _ => false

/-- The number of modern statistics calls among the events. -/
def modernCalls (events : List Event) : Nat := events.countP Event.isModernStats

/-- Scale `FE_SCALE_NOT_AVAILABLE` of linux/dvb/frontend.h. -/
def FE_SCALE_NOT_AVAILABLE : Nat := 0

/-- An attempt to open the demux. -/
def Event.isDmxOpen : Event → Bool
  | Event.dmxOpen _ => true
  | _ => false

/-- The number of attempts to open the demux among the events. -/
def dmxOpens (events : List Event) : Nat := events.countP Event.isDmxOpen

/-- An ioctl on the demux. -/
def Event.isDmxIoctl : Event → Bool
  | Event.setBufferSize _ _ _ => true
  | Event.setPesFilter _ _ _ => true
  | Event.addPid _ _ _ => true
  | Event.removePid _ _ _ => true
  | _ => false

/-- The trace of `n` failed attempts to open the demux, each followed by the
pause of 20 ms. -/
def failedOpens : Nat → List Event
  | 0 => []
  | n + 1 => Event.dmxOpen (-1) :: Event.sleep 20 :: failedOpens n

/-- The `DMX_SET_BUFFER_SIZE` that `openPid` issues on a demux it has just
opened, when a buffer size is configured; it is device action number `n`. -/
def bufferSizeEvents (env : Env) (s : Frontend) (fd : Int) (n : Nat) : List Event :=
  if s.dvrBufferSizeMB > 0 then
    [Event.setBufferSize fd ((s.dvrBufferSizeMB * 1024 * 1024) % 2 ^ 32) (env.ioctlOk n)]
  else []

/-- An environment in which nothing succeeds. -/
def Env.allFail : Env := Env.const none false 0 false 0

/-- An environment in which every call succeeds: `open` returns the
descriptor 4 + n as device action number n, `FE_READ_STATUS` reports the
lock. -/
def Env.counting : Env :=
  { Env.const none true FE_HAS_LOCK true 0 with openResult := fun n => some (n + 4) }

/-- A freshly constructed frontend on which a first request, for PID 0, was
parsed (the dirty flag is not raised). -/
def Frontend.requestExample : Frontend :=
  parseStreamString InputSystem.DVBS2 false (some (fun q => q == 0))
    (Frontend.construct [DeliverySystem.any] true 0)

/-- The request example after `update` succeeded (the frontend is tuned, the
demux and PID 0 are opened) and a changed request, for another delivery
system, was parsed: the dirty flag is set, PID 0 is still opened. -/
def Frontend.changedExample : Frontend :=
  parseStreamString InputSystem.DVBT true none (update Env.counting Frontend.requestExample).2

/-- State `s'` has the legacy latch and the build flag of `s`, its trace
extends that of `s`, and no modern statistics call is among the device
actions in between. -/
structure LatchKept (s s' : Frontend) : Prop where
  latch : s'.oldApiCallStats = s.oldApiCallStats
  modernApi : s'.modernApi = s.modernApi
  trace : s.trace <+: s'.trace
  events : ∀ e ∈ s.since s', e.isModernStats = false

/-- No `DMX_REMOVE_PID` on this trace failed. -/
def NoFailedRemove (trace : List Event) : Prop :=
  ∀ fd p, Event.removePid fd p false ∉ trace

/-- The invariant of the opened bits: only PIDs below `MAX_PIDS` are marked
opened, a PID is marked opened only while the demux is open, and every
`DMX_REMOVE_PID` so far was issued on an open demux. -/
structure OpenedInv (s : Frontend) : Prop where
  bound : ∀ p, s.opened p = true → p < MAX_PIDS
  isOpen : ∀ p, s.opened p = true → s.fd_dmx ≠ -1
  removes : ∀ fd p ok, Event.removePid fd p ok ∈ s.trace → fd ≠ -1

/-- A `DMX_REMOVE_PID`. -/
def Event.isRemove : Event → Bool
  | Event.removePid _ _ _ => true
  | _ => false

/-- The trace of `s'` extends that of `s` by device actions that all satisfy
`allowed`. -/
structure Emits (allowed : Event → Bool) (s s' : Frontend) : Prop where
  trace : s.trace <+: s'.trace
  events : ∀ e ∈ s.since s', allowed e = true

/-! ## Basic facts -/

theorem forUpTo_induction {σ : Type} (body : Nat → σ → σ) (P : Nat → σ → Prop) (n : Nat) (s : σ)
    (h0 : P 0 s) (hstep : ∀ i t, i < n → P i t → P (i + 1) (body i t)) :
    P n (forUpTo body n s) := by
  induction n with
  | zero => exact h0
  | succ k ih =>
    exact hstep k _ (Nat.lt_succ_self k)
      (ih (fun i t hi hp => hstep i t (Nat.lt_succ_of_lt hi) hp))

theorem since_self (s : Frontend) : s.since s = [] := by
  simp [Frontend.since]

theorem since_of_trace {s s' : Frontend} {l : List Event} (h : s'.trace = s.trace ++ l) :
    s.since s' = l := by
  simp [Frontend.since, h]

theorem trace_of_since {s s' : Frontend} (h : s.trace <+: s'.trace) :
    s'.trace = s.trace ++ s.since s' := by
  obtain ⟨l, hl⟩ := h
  rw [since_of_trace hl.symm, hl]

theorem since_trans {s s1 s2 : Frontend} (h1 : s.trace <+: s1.trace)
    (h2 : s1.trace <+: s2.trace) : s.since s2 = s.since s1 ++ s1.since s2 := by
  have e1 := trace_of_since h1
  have e2 := trace_of_since h2
  apply since_of_trace
  rw [e2, e1, List.append_assoc]

theorem DemuxOnly.refl (s : Frontend) : DemuxOnly s s := by
  constructor <;> simp [since_self]

theorem DemuxOnly.andThen {s s1 s2 : Frontend} (h1 : DemuxOnly s s1) (h2 : DemuxOnly s1 s2) :
    DemuxOnly s s2 where
  tuned := h2.tuned.trans h1.tuned
  fd_fe := h2.fd_fe.trans h1.fd_fe
  dirty := h2.dirty.trans h1.dirty
  delsys := h2.delsys.trans h1.delsys
  monitor := h2.monitor.trans h1.monitor
  systems := h2.systems.trans h1.systems
  transformFlag := h2.transformFlag.trans h1.transformFlag
  dvrBufferSizeMB := h2.dvrBufferSizeMB.trans h1.dvrBufferSizeMB
  waitOnLockTimeout := h2.waitOnLockTimeout.trans h1.waitOnLockTimeout
  oldApiCallStats := h2.oldApiCallStats.trans h1.oldApiCallStats
  modernApi := h2.modernApi.trans h1.modernApi
  now := Nat.le_trans h1.now h2.now
  trace := h1.trace.trans h2.trace
  events := by
    intro e he
    rw [since_trans h1.trace h2.trace, List.mem_append] at he
    rcases he with he | he
    · exact h1.events e he
    · exact h2.events e he

theorem DemuxOnly.tick (env : Env) (s : Frontend) (e : Event) (he : e.isDemux = true) :
    DemuxOnly s (s.tick env e) := by
  constructor <;> simp [Frontend.tick, Frontend.since, he]

theorem DemuxOnly.mapFilter (s : Frontend) (f : PidTable → PidTable) :
    DemuxOnly s (s.mapFilter f) := by
  constructor <;> simp [Frontend.mapFilter, Frontend.since]

theorem DemuxOnly.sleepFor (env : Env) (ms : Nat) (s : Frontend) :
    DemuxOnly s (sleepFor env ms s) := by
  constructor <;> simp [SATPI.sleepFor, Frontend.tick, Frontend.since, Event.isDemux]
  omega

theorem DemuxOnly.setDmx (s : Frontend) (fd : Int) : DemuxOnly s { s with fd_dmx := fd } := by
  constructor <;> simp [Frontend.since]

theorem filterIoctl_demuxOnly (env : Env) (event : Int → Bool → Event)
    (after : PidTable → PidTable) (s : Frontend)
    (h : ∀ fd ok, (event fd ok).isDemux = true) :
    DemuxOnly s (filterIoctl env event after s) := by
  unfold filterIoctl
  dsimp only
  split
  · exact DemuxOnly.tick env s _ (h _ _)
  · exact (DemuxOnly.tick env s _ (h _ _)).andThen (DemuxOnly.mapFilter _ _)

theorem setDmxBufferSize_demuxOnly (env : Env) (s : Frontend) :
    DemuxOnly s (setDmxBufferSize env s) := by
  unfold setDmxBufferSize
  dsimp only
  split
  · exact DemuxOnly.tick env s _ (by rfl)
  · exact DemuxOnly.refl s

theorem closePid_demuxOnly (env : Env) (i : Nat) (s : Frontend) :
    DemuxOnly s (closePid env i s) := by
  unfold closePid
  split
  · exact DemuxOnly.refl s
  · exact filterIoctl_demuxOnly env _ _ s (fun _ _ => rfl)

theorem openDMXRetry_demuxOnly (env : Env) (left : Nat) (s : Frontend) :
    DemuxOnly s (openDMXRetry env left s).2 := by
  induction left generalizing s with
  | zero =>
    unfold openDMXRetry
    dsimp only [openDMX]
    split
    · exact ((DemuxOnly.tick env s _ (by rfl)).andThen (DemuxOnly.setDmx _ _)).andThen
        (DemuxOnly.sleepFor env 20 _)
    · exact (DemuxOnly.tick env s _ (by rfl)).andThen (DemuxOnly.setDmx _ _)
  | succ k ih =>
    unfold openDMXRetry
    dsimp only [openDMX]
    split
    · exact (((DemuxOnly.tick env s _ (by rfl)).andThen (DemuxOnly.setDmx _ _)).andThen
        (DemuxOnly.sleepFor env 20 _)).andThen (ih _)
    · exact (DemuxOnly.tick env s _ (by rfl)).andThen (DemuxOnly.setDmx _ _)

theorem openPid_demuxOnly (env : Env) (i : Nat) (s : Frontend) :
    DemuxOnly s (openPid env i s) := by
  unfold openPid
  dsimp only
  split
  · exact DemuxOnly.refl s
  · split
    · have h := openDMXRetry_demuxOnly env 3 s
      split
      · exact h
      · exact (h.andThen (setDmxBufferSize_demuxOnly env _)).andThen
          (filterIoctl_demuxOnly env _ _ _ (fun _ _ => rfl))
    · exact filterIoctl_demuxOnly env _ _ s (fun _ _ => rfl)

theorem syncPid_demuxOnly (env : Env) (i : Nat) (s : Frontend) :
    DemuxOnly s (syncPid env i s) :=
  (closePid_demuxOnly env i s).andThen (openPid_demuxOnly env i _)

theorem dropPid_demuxOnly (env : Env) (i : Nat) (s : Frontend) :
    DemuxOnly s (dropPid env i s) :=
  (DemuxOnly.mapFilter s _).andThen (closePid_demuxOnly env i _)

theorem forUpTo_demuxOnly (body : Nat → Frontend → Frontend)
    (h : ∀ i t, DemuxOnly t (body i t)) (n : Nat) (s : Frontend) :
    DemuxOnly s (forUpTo body n s) :=
  forUpTo_induction body (fun _ t => DemuxOnly s t) n s (DemuxOnly.refl s)
    (fun i t _ ht => ht.andThen (h i t))

/-! ## What a PID filter ioctl does to the PID table -/

theorem noFail_trans {s s1 s2 : Frontend} (h1 : s.trace <+: s1.trace)
    (h2 : s1.trace <+: s2.trace) : NoFail s s2 ↔ NoFail s s1 ∧ NoFail s1 s2 := by
  unfold NoFail
  rw [since_trans h1 h2]
  simp only [List.mem_append]
  constructor
  · intro h
    exact ⟨fun e he => h e (Or.inl he), fun e he => h e (Or.inr he)⟩
  · rintro ⟨ha, hb⟩ e (he | he)
    · exact ha e he
    · exact hb e he

theorem filterIoctl_since (env : Env) (event : Int → Bool → Event)
    (after : PidTable → PidTable) (s : Frontend) :
    s.since (filterIoctl env event after s) = [event s.fd_dmx (env.ioctlOk s.calls)] := by
  apply since_of_trace
  unfold filterIoctl
  dsimp only
  split <;> simp [Frontend.tick, Frontend.mapFilter]

theorem filterIoctl_filter (env : Env) (event : Int → Bool → Event)
    (after : PidTable → PidTable) (s : Frontend) :
    (filterIoctl env event after s).frontendData.filter =
      if env.ioctlOk s.calls then after s.frontendData.filter else s.frontendData.filter := by
  unfold filterIoctl
  dsimp only
  cases env.ioctlOk s.calls <;> simp [Frontend.tick, Frontend.mapFilter]

theorem filterIoctl_fd_dmx (env : Env) (event : Int → Bool → Event)
    (after : PidTable → PidTable) (s : Frontend) :
    (filterIoctl env event after s).fd_dmx = s.fd_dmx := by
  unfold filterIoctl
  dsimp only
  split <;> simp [Frontend.tick, Frontend.mapFilter]

theorem setDmxBufferSize_filter (env : Env) (s : Frontend) :
    (setDmxBufferSize env s).frontendData.filter = s.frontendData.filter := by
  unfold setDmxBufferSize
  dsimp only
  split <;> simp [Frontend.tick]

theorem openDMXRetry_filter (env : Env) (left : Nat) (s : Frontend) :
    (openDMXRetry env left s).2.frontendData.filter = s.frontendData.filter := by
  induction left generalizing s with
  | zero =>
    unfold openDMXRetry
    dsimp only [openDMX]
    split <;> simp [sleepFor, Frontend.tick]
  | succ k ih =>
    unfold openDMXRetry
    dsimp only [openDMX]
    split
    · rw [ih]; simp [sleepFor, Frontend.tick]
    · simp [Frontend.tick]

/-- When the retry loop gives up, a failed demux open is on the trace. -/
theorem openDMXRetry_noFail (env : Env) (left : Nat) (s : Frontend)
    (h : NoFail s (openDMXRetry env left s).2) : (openDMXRetry env left s).1 = true := by
  have hfirst : Event.dmxOpen (sysOpen env s) ∈ s.since (openDMXRetry env left s).2 := by
    have hp : (s.tick env (Event.dmxOpen (sysOpen env s))).trace <+:
        (openDMXRetry env left s).2.trace := by
      cases left with
      | zero =>
        unfold openDMXRetry
        dsimp only [openDMX]
        split
        · exact ((DemuxOnly.setDmx _ _).andThen (DemuxOnly.sleepFor env 20 _)).trace
        · exact (DemuxOnly.setDmx _ _).trace
      | succ k =>
        unfold openDMXRetry
        dsimp only [openDMX]
        split
        · exact (((DemuxOnly.setDmx _ _).andThen (DemuxOnly.sleepFor env 20 _)).andThen
            (openDMXRetry_demuxOnly env k _)).trace
        · exact (DemuxOnly.setDmx _ _).trace
    rw [since_trans (DemuxOnly.tick env s _ (by rfl)).trace hp]
    simp [Frontend.since, Frontend.tick]
  have hok : sysOpen env s ≠ -1 := by
    have := h _ hfirst
    simpa [Event.failed] using this
  cases left with
  | zero =>
    unfold openDMXRetry
    dsimp only [openDMX]
    simp [hok]
  | succ k =>
    unfold openDMXRetry
    dsimp only [openDMX]
    simp [hok]

theorem closePid_tableStep (env : Env) (i : Nat) (s : Frontend) :
    TableStep i s (closePid env i s) := by
  unfold closePid
  split
  · exact ⟨fun _ _ => rfl, fun _ => rfl, rfl⟩
  · constructor
    · intro q hq
      rw [filterIoctl_filter]
      split <;> simp [PidTable.setPIDClosed, hq]
    · intro q
      unfold Frontend.desired
      rw [filterIoctl_filter]
      split
      · by_cases hq : q = i <;> simp [PidTable.setPIDClosed, hq]
      · rfl
    · rw [filterIoctl_filter]
      split <;> simp [PidTable.setPIDClosed]

theorem openPid_tableStep (env : Env) (i : Nat) (s : Frontend) :
    TableStep i s (openPid env i s) := by
  have key : ∀ (ev : Int → Bool → Event) (t : Frontend),
      t.frontendData.filter = s.frontendData.filter →
      TableStep i s (filterIoctl env ev (fun u => u.setPIDOpened i) t) := by
    intro ev t ht
    constructor
    · intro q hq
      rw [filterIoctl_filter, ht]
      split <;> simp [PidTable.setPIDOpened, hq]
    · intro q
      unfold Frontend.desired
      rw [filterIoctl_filter, ht]
      split
      · by_cases hq : q = i <;> simp [PidTable.setPIDOpened, hq]
      · rfl
    · rw [filterIoctl_filter, ht]
      split <;> simp [PidTable.setPIDOpened]
  unfold openPid
  dsimp only
  split
  · exact ⟨fun _ _ => rfl, fun _ => rfl, rfl⟩
  · split
    · split
      · have h := openDMXRetry_filter env 3 s
        exact ⟨fun _ _ => by rw [h], fun _ => by unfold Frontend.desired; rw [h], by rw [h]⟩
      · exact key _ _ (by rw [setDmxBufferSize_filter, openDMXRetry_filter])
    · exact key _ _ rfl

theorem TableStep.andAlso {i : Nat} {s s1 s2 : Frontend} (h1 : TableStep i s s1)
    (h2 : TableStep i s1 s2) : TableStep i s s2 where
  other := fun q hq => (h2.other q hq).trans (h1.other q hq)
  desired := fun q => (h2.desired q).trans (h1.desired q)
  changed := h2.changed.trans h1.changed

theorem syncPid_tableStep (env : Env) (i : Nat) (s : Frontend) :
    TableStep i s (syncPid env i s) :=
  (closePid_tableStep env i s).andAlso (openPid_tableStep env i _)

theorem filterIoctl_noFail (env : Env) (event : Int → Bool → Event)
    (after : PidTable → PidTable) (s : Frontend)
    (hev : ∀ fd ok, (event fd ok).failed = !ok)
    (h : NoFail s (filterIoctl env event after s)) :
    (filterIoctl env event after s).frontendData.filter = after s.frontendData.filter := by
  have hok : env.ioctlOk s.calls = true := by
    have := h (event s.fd_dmx (env.ioctlOk s.calls)) (by rw [filterIoctl_since]; simp)
    simpa [hev] using this
  rw [filterIoctl_filter, hok]
  simp

theorem closePid_filter_cases (env : Env) (i : Nat) (s : Frontend) :
    (closePid env i s).frontendData.filter = s.frontendData.filter ∨
      (s.frontendData.filter.shouldPIDClose i = true ∧
        (closePid env i s).frontendData.filter = s.frontendData.filter.setPIDClosed i) := by
  unfold closePid
  split
  · exact Or.inl rfl
  · rename_i h
    rw [filterIoctl_filter]
    split
    · exact Or.inr ⟨by simpa using h, rfl⟩
    · exact Or.inl rfl

theorem closePid_noFail (env : Env) (i : Nat) (s : Frontend)
    (h : NoFail s (closePid env i s)) :
    (closePid env i s).frontendData.filter.shouldPIDClose i = false := by
  unfold closePid at h ⊢
  split
  · rename_i hc
    simpa using hc
  · rename_i hc
    rw [if_neg hc] at h
    rw [filterIoctl_noFail env _ _ s (fun _ _ => by rfl) h]
    simp [PidTable.shouldPIDClose, PidTable.setPIDClosed]

theorem openPid_filter_cases (env : Env) (i : Nat) (s : Frontend) :
    (openPid env i s).frontendData.filter = s.frontendData.filter ∨
      (s.frontendData.filter.shouldPIDOpen i = true ∧
        (openPid env i s).frontendData.filter = s.frontendData.filter.setPIDOpened i) := by
  unfold openPid
  dsimp only
  split
  · exact Or.inl rfl
  · rename_i h
    have h' : s.frontendData.filter.shouldPIDOpen i = true := by simpa using h
    split
    · split
      · exact Or.inl (openDMXRetry_filter env 3 s)
      · rw [filterIoctl_filter, setDmxBufferSize_filter, openDMXRetry_filter]
        split
        · exact Or.inr ⟨h', rfl⟩
        · exact Or.inl rfl
    · rw [filterIoctl_filter]
      split
      · exact Or.inr ⟨h', rfl⟩
      · exact Or.inl rfl

theorem openPid_noFail (env : Env) (i : Nat) (s : Frontend)
    (h : NoFail s (openPid env i s)) :
    (openPid env i s).frontendData.filter.shouldPIDOpen i = false := by
  unfold openPid at h ⊢
  dsimp only at h ⊢
  split
  · rename_i hc
    simpa using hc
  · rename_i hc
    rw [if_neg hc] at h
    split
    · rename_i hfd
      rw [if_pos hfd] at h
      have hr := openDMXRetry_demuxOnly env 3 s
      by_cases hgo : (openDMXRetry env 3 s).1 = true
      · simp only [hgo, Bool.not_true, Bool.false_eq_true, if_false] at h ⊢
        have hb := setDmxBufferSize_demuxOnly env (openDMXRetry env 3 s).2
        have hf := filterIoctl_demuxOnly env (fun fd ok => Event.setPesFilter fd i ok)
          (fun t => t.setPIDOpened i) (setDmxBufferSize env (openDMXRetry env 3 s).2)
          (fun _ _ => rfl)
        have h2 := ((noFail_trans (hr.andThen hb).trace hf.trace).1 h).2
        rw [filterIoctl_noFail env _ _ _ (fun _ _ => by rfl) h2]
        simp [PidTable.shouldPIDOpen, PidTable.setPIDOpened]
      · exfalso
        simp only [hgo, Bool.not_false, if_true] at h
        exact hgo (openDMXRetry_noFail env 3 s (by simpa [hgo] using h))
    · rename_i hfd
      rw [if_neg hfd] at h
      rw [filterIoctl_noFail env _ _ s (fun _ _ => by rfl) h]
      simp [PidTable.shouldPIDOpen, PidTable.setPIDOpened]

/-- One round of the loop of `updatePIDFilters` in which nothing fails
leaves PID `i` opened exactly when it is desired. -/
theorem syncPid_noFail (env : Env) (i : Nat) (s : Frontend)
    (h : NoFail s (syncPid env i s)) :
    (syncPid env i s).opened i = (syncPid env i s).desired i := by
  unfold syncPid at h ⊢
  have hc := closePid_demuxOnly env i s
  have ho := openPid_demuxOnly env i (closePid env i s)
  obtain ⟨h1, h2⟩ := (noFail_trans hc.trace ho.trace).1 h
  have e1 := closePid_noFail env i s h1
  have e2 := openPid_noFail env i _ h2
  have e3 : (openPid env i (closePid env i s)).frontendData.filter.shouldPIDClose i = false := by
    rcases openPid_filter_cases env i (closePid env i s) with hk | ⟨hk1, hk2⟩
    · rw [hk]; exact e1
    · rw [hk2]
      simp only [PidTable.shouldPIDOpen, Bool.and_eq_true] at hk1
      simp [PidTable.shouldPIDClose, PidTable.setPIDOpened, hk1.1]
  unfold Frontend.opened Frontend.desired
  simp only [PidTable.shouldPIDOpen, PidTable.shouldPIDClose] at e2 e3
  revert e2 e3
  cases ((openPid env i (closePid env i s)).frontendData.filter.data i).opened <;>
    cases ((openPid env i (closePid env i s)).frontendData.filter.data i).desired <;> simp

/-! ## Environments that never fail -/

theorem noFail_refl (s : Frontend) : NoFail s s := by
  simp [NoFail, since_self]

theorem filterIoctl_noFail_of_ok (env : Env) (henv : env.NeverFails)
    (event : Int → Bool → Event) (after : PidTable → PidTable) (s : Frontend)
    (hev : ∀ fd ok, (event fd ok).failed = !ok) :
    NoFail s (filterIoctl env event after s) := by
  intro e he
  rw [filterIoctl_since] at he
  simp only [List.mem_singleton] at he
  rw [he, hev, (henv s.calls).1]
  rfl

theorem setDmxBufferSize_noFail (env : Env) (s : Frontend) :
    NoFail s (setDmxBufferSize env s) := by
  unfold setDmxBufferSize
  dsimp only
  split
  · intro e he
    simp only [Frontend.since, Frontend.tick, List.drop_left, List.mem_singleton] at he
    rw [he]
    rfl
  · exact noFail_refl s

theorem openDMXRetry_noFail_of_ok (env : Env) (henv : env.NeverFails) (left : Nat)
    (s : Frontend) :
    NoFail s (openDMXRetry env left s).2 ∧ (openDMXRetry env left s).1 = true := by
  have hok : sysOpen env s ≠ -1 := by
    unfold sysOpen
    have := (henv s.calls).2
    cases h : env.openResult s.calls with
    | none => exact absurd h this
    | some fd => simp only [ne_eq]; omega
  have hf : (Event.dmxOpen (sysOpen env s)).failed = false := by
    simp [Event.failed, hok]
  cases left with
  | zero =>
    unfold openDMXRetry
    dsimp only [openDMX]
    simp only [hok, if_false, and_true]
    intro e he
    simp only [Frontend.since, Frontend.tick, List.drop_left, List.mem_singleton] at he
    rw [he]; exact hf
  | succ k =>
    unfold openDMXRetry
    dsimp only [openDMX]
    simp only [hok, if_false, and_true]
    intro e he
    simp only [Frontend.since, Frontend.tick, List.drop_left, List.mem_singleton] at he
    rw [he]; exact hf

theorem closePid_noFail_of_ok (env : Env) (henv : env.NeverFails) (i : Nat) (s : Frontend) :
    NoFail s (closePid env i s) := by
  unfold closePid
  split
  · exact noFail_refl s
  · exact filterIoctl_noFail_of_ok env henv _ _ s (fun _ _ => by rfl)

theorem openPid_noFail_of_ok (env : Env) (henv : env.NeverFails) (i : Nat) (s : Frontend) :
    NoFail s (openPid env i s) := by
  unfold openPid
  dsimp only
  split
  · exact noFail_refl s
  · split
    · have hr := openDMXRetry_noFail_of_ok env henv 3 s
      simp only [hr.2, Bool.not_true, Bool.false_eq_true, if_false]
      have d1 := openDMXRetry_demuxOnly env 3 s
      have d2 := setDmxBufferSize_demuxOnly env (openDMXRetry env 3 s).2
      have d3 := filterIoctl_demuxOnly env (fun fd ok => Event.setPesFilter fd i ok)
          (fun t => t.setPIDOpened i) (setDmxBufferSize env (openDMXRetry env 3 s).2)
          (fun _ _ => rfl)
      exact (noFail_trans (d1.andThen d2).trace d3.trace).2
        ⟨(noFail_trans d1.trace d2.trace).2 ⟨hr.1, setDmxBufferSize_noFail env _⟩,
         filterIoctl_noFail_of_ok env henv _ _ _ (fun _ _ => by rfl)⟩
    · exact filterIoctl_noFail_of_ok env henv _ _ s (fun _ _ => by rfl)

theorem syncPid_noFail_of_ok (env : Env) (henv : env.NeverFails) (i : Nat) (s : Frontend) :
    NoFail s (syncPid env i s) :=
  (noFail_trans (closePid_demuxOnly env i s).trace (openPid_demuxOnly env i _).trace).2
    ⟨closePid_noFail_of_ok env henv i s, openPid_noFail_of_ok env henv i _⟩

theorem updatePIDFilters_demuxOnly (env : Env) (s : Frontend) :
    DemuxOnly s (updatePIDFilters env s) := by
  unfold updatePIDFilters
  split
  · exact DemuxOnly.refl s
  · split
    · exact DemuxOnly.refl s
    · exact (DemuxOnly.mapFilter s _).andThen
        (forUpTo_demuxOnly _ (syncPid_demuxOnly env) _ _)

theorem updatePIDFilters_noFail_of_ok (env : Env) (henv : env.NeverFails) (s : Frontend) :
    NoFail s (updatePIDFilters env s) := by
  unfold updatePIDFilters
  split
  · exact noFail_refl s
  · split
    · exact noFail_refl s
    · have h0 := DemuxOnly.mapFilter s PidTable.resetPIDTableChanged
      have key := forUpTo_induction (syncPid env)
        (fun _ t => DemuxOnly (s.mapFilter PidTable.resetPIDTableChanged) t ∧
          NoFail (s.mapFilter PidTable.resetPIDTableChanged) t) MAX_PIDS
        (s.mapFilter PidTable.resetPIDTableChanged)
        ⟨DemuxOnly.refl _, noFail_refl _⟩
        (fun i t _ ht => ⟨ht.1.andThen (syncPid_demuxOnly env i t),
          (noFail_trans ht.1.trace (syncPid_demuxOnly env i t).trace).2
            ⟨ht.2, syncPid_noFail_of_ok env henv i t⟩⟩)
      exact (noFail_trans h0.trace key.1.trace).2
        ⟨by simp [NoFail, Frontend.since, Frontend.mapFilter], key.2⟩

theorem Env.const_neverFails (fd : Nat) (status : Nat) (tuneOk : Bool) (latency : Nat) :
    (Env.const (some fd) true status tuneOk latency).NeverFails := by
  intro n
  simp [Env.const]

/-! ## The loop of `updatePIDFilters` -/

theorem forUpTo_syncPid_data (env : Env) (p n : Nat) (s : Frontend) (h : p < n) :
    (forUpTo (syncPid env) n s).frontendData.filter.data p =
      (syncPid env p (forUpTo (syncPid env) p s)).frontendData.filter.data p := by
  induction n with
  | zero => omega
  | succ k ih =>
    by_cases hk : p = k
    · subst hk; rfl
    · have : p < k := by omega
      show (syncPid env k (forUpTo (syncPid env) k s)).frontendData.filter.data p = _
      rw [(syncPid_tableStep env k _).other p hk, ih this]

theorem updatePIDFilters_run (env : Env) (s : Frontend)
    (hc : s.frontendData.filter.changed = true) (ht : s.tuned = true) :
    updatePIDFilters env s =
      forUpTo (syncPid env) MAX_PIDS (s.mapFilter PidTable.resetPIDTableChanged) := by
  unfold updatePIDFilters PidTable.hasPIDTableChanged
  simp [hc, ht]

theorem updatePIDFilters_data (env : Env) (s : Frontend)
    (hc : s.frontendData.filter.changed = true) (ht : s.tuned = true)
    (p : Nat) (hp : p < MAX_PIDS) :
    (updatePIDFilters env s).frontendData.filter.data p =
      (syncPid env p (forUpTo (syncPid env) p
        (s.mapFilter PidTable.resetPIDTableChanged))).frontendData.filter.data p := by
  rw [updatePIDFilters_run env s hc ht, forUpTo_syncPid_data env p MAX_PIDS _ hp]

theorem updatePIDFilters_opened (env : Env) (s : Frontend)
    (hc : s.frontendData.filter.changed = true) (ht : s.tuned = true)
    (p : Nat) (hp : p < MAX_PIDS) :
    (updatePIDFilters env s).opened p =
      (syncPid env p (forUpTo (syncPid env) p
        (s.mapFilter PidTable.resetPIDTableChanged))).opened p := by
  unfold Frontend.opened
  rw [updatePIDFilters_data env s hc ht p hp]

theorem updatePIDFilters_desired (env : Env) (s : Frontend)
    (hc : s.frontendData.filter.changed = true) (ht : s.tuned = true)
    (p : Nat) (hp : p < MAX_PIDS) :
    (updatePIDFilters env s).desired p =
      (syncPid env p (forUpTo (syncPid env) p
        (s.mapFilter PidTable.resetPIDTableChanged))).desired p := by
  unfold Frontend.desired
  rw [updatePIDFilters_data env s hc ht p hp]

/-! ## C1 and C2: `updatePIDFilters` -/

/-- C2.  `updatePIDFilters` is a no-op when the PID table-changed flag is
clear, and also when the flag is set but the frontend is not tuned: the
state after the call is the state before it, so no demux ioctl is issued
(the trace is the same), and the demux descriptor, the tuned flag, every
PID's desired and opened bits and the flag itself are unchanged. -/
theorem updatePIDFilters_noop (env : Env) (s : Frontend)
    (h : s.frontendData.filter.changed = false ∨ s.tuned = false) :
    updatePIDFilters env s = s ∧ s.since (updatePIDFilters env s) = [] := by
  have e : updatePIDFilters env s = s := by
    unfold updatePIDFilters PidTable.hasPIDTableChanged
    rcases h with h | h
    · simp [h]
    · simp [h]
  rw [e]
  exact ⟨rfl, since_self s⟩

/-- C2 at a frontend that is not tuned, with the flag set and PID 0 desired. -/
theorem updatePIDFilters_noop_witness :
    ((Frontend.example false 5 false true (fun q => q == 0) (fun _ => false)
        ).frontendData.filter.changed = false ∨
      (Frontend.example false 5 false true (fun q => q == 0) (fun _ => false)).tuned = false) ∧
    (updatePIDFilters (Env.const (some 5) true 0 true 0)
        (Frontend.example false 5 false true (fun q => q == 0) (fun _ => false)) =
      Frontend.example false 5 false true (fun q => q == 0) (fun _ => false) ∧
     (Frontend.example false 5 false true (fun q => q == 0) (fun _ => false)).since
        (updatePIDFilters (Env.const (some 5) true 0 true 0)
          (Frontend.example false 5 false true (fun q => q == 0) (fun _ => false))) = []) :=
  ⟨Or.inr rfl, updatePIDFilters_noop _ _ (Or.inr rfl)⟩

/-- C1 (as amended).  When the PID table-changed flag is set and the
frontend is tuned, and no demux open and no PID filter ioctl issued during
the call fails, then after `updatePIDFilters` every PID `p < 8192` is opened
exactly when it is desired. -/
theorem updatePIDFilters_syncs (env : Env) (s : Frontend)
    (hc : s.frontendData.filter.changed = true) (ht : s.tuned = true)
    (hok : ∀ e ∈ s.since (updatePIDFilters env s), e.failed = false)
    (p : Nat) (hp : p < MAX_PIDS) :
    (updatePIDFilters env s).opened p = (updatePIDFilters env s).desired p := by
  rw [updatePIDFilters_run env s hc ht] at hok ⊢
  have hok' : NoFail (s.mapFilter PidTable.resetPIDTableChanged)
      (forUpTo (syncPid env) MAX_PIDS (s.mapFilter PidTable.resetPIDTableChanged)) := hok
  have key := forUpTo_induction (syncPid env)
    (fun n t => DemuxOnly (s.mapFilter PidTable.resetPIDTableChanged) t ∧
      (NoFail (s.mapFilter PidTable.resetPIDTableChanged) t →
        ∀ q, q < n → t.opened q = t.desired q)) MAX_PIDS
    (s.mapFilter PidTable.resetPIDTableChanged)
    ⟨DemuxOnly.refl _, fun _ q hq => absurd hq (Nat.not_lt_zero q)⟩
    (fun i t _ ht => by
      have hd := syncPid_demuxOnly env i t
      refine ⟨ht.1.andThen hd, fun hn q hq => ?_⟩
      obtain ⟨hn1, hn2⟩ := (noFail_trans ht.1.trace hd.trace).1 hn
      by_cases hqi : q = i
      · subst hqi
        exact syncPid_noFail env q t hn2
      · have hs := syncPid_tableStep env i t
        have := ht.2 hn1 q (by omega)
        unfold Frontend.opened Frontend.desired at this ⊢
        rw [hs.other q hqi]
        exact this)
  exact key.2 hok' p hp

/-- C1 (as amended) at a tuned frontend with an open demux, the flag set and
PID 0 newly desired, in an environment where every call succeeds. -/
theorem updatePIDFilters_syncs_witness :
    (Frontend.example true 5 false true (fun q => q == 0) (fun _ => false)
      ).frontendData.filter.changed = true ∧
    (Frontend.example true 5 false true (fun q => q == 0) (fun _ => false)).tuned = true ∧
    (updatePIDFilters (Env.const (some 5) true 0 true 0)
        (Frontend.example true 5 false true (fun q => q == 0) (fun _ => false))).opened 16 =
      (updatePIDFilters (Env.const (some 5) true 0 true 0)
        (Frontend.example true 5 false true (fun q => q == 0) (fun _ => false))).desired 16 :=
  ⟨rfl, rfl, updatePIDFilters_syncs _ _ rfl rfl
    (updatePIDFilters_noFail_of_ok _ (Env.const_neverFails 5 0 true 0) _) 16 (by decide)⟩

/-- C1 (as stated) fails.  Three calls after which PID 0 is desired but not
opened: one with the table-changed flag clear, one with the flag set on a
frontend that is not tuned, and one on a tuned frontend with the flag set
and the demux open in which `DMX_ADD_PID` fails. -/
theorem updatePIDFilters_syncs_counterexample :
    ((updatePIDFilters (Env.const (some 5) true 0 true 0)
        (Frontend.example true 5 false false (fun q => q == 0) (fun _ => false))).opened 0 = false ∧
     (updatePIDFilters (Env.const (some 5) true 0 true 0)
        (Frontend.example true 5 false false (fun q => q == 0) (fun _ => false))).desired 0 = true) ∧
    ((updatePIDFilters (Env.const (some 5) true 0 true 0)
        (Frontend.example false 5 false true (fun q => q == 0) (fun _ => false))).opened 0 = false ∧
     (updatePIDFilters (Env.const (some 5) true 0 true 0)
        (Frontend.example false 5 false true (fun q => q == 0) (fun _ => false))).desired 0 = true) ∧
    ((updatePIDFilters (Env.const (some 5) false 0 true 0)
        (Frontend.example true 5 false true (fun q => q == 0) (fun _ => false))).opened 0 = false ∧
     (updatePIDFilters (Env.const (some 5) false 0 true 0)
        (Frontend.example true 5 false true (fun q => q == 0) (fun _ => false))).desired 0 = true) := by
  refine ⟨⟨rfl, rfl⟩, ⟨rfl, rfl⟩, ?_, ?_⟩
  · exact (updatePIDFilters_opened _ _ rfl rfl 0 (by decide)).trans rfl
  · exact (updatePIDFilters_desired _ _ rfl rfl 0 (by decide)).trans rfl

/-! ## Frontend actions that keep the control state -/

theorem Keeps.same (allowed : Event → Bool) (s : Frontend) : Keeps allowed s s := by
  constructor <;> simp [since_self]

theorem Keeps.followedBy {allowed : Event → Bool} {s s1 s2 : Frontend}
    (h1 : Keeps allowed s s1) (h2 : Keeps allowed s1 s2) : Keeps allowed s s2 where
  tuned := h2.tuned.trans h1.tuned
  fd_fe := h2.fd_fe.trans h1.fd_fe
  fd_dmx := h2.fd_dmx.trans h1.fd_dmx
  filter := h2.filter.trans h1.filter
  dirty := h2.dirty.trans h1.dirty
  delsys := h2.delsys.trans h1.delsys
  systems := h2.systems.trans h1.systems
  transformFlag := h2.transformFlag.trans h1.transformFlag
  dvrBufferSizeMB := h2.dvrBufferSizeMB.trans h1.dvrBufferSizeMB
  waitOnLockTimeout := h2.waitOnLockTimeout.trans h1.waitOnLockTimeout
  modernApi := h2.modernApi.trans h1.modernApi
  now := Nat.le_trans h1.now h2.now
  trace := h1.trace.trans h2.trace
  events := by
    intro e he
    rw [since_trans h1.trace h2.trace, List.mem_append] at he
    rcases he with he | he
    · exact h1.events e he
    · exact h2.events e he

theorem Keeps.mono {allowed allowed' : Event → Bool} {s s' : Frontend}
    (h : Keeps allowed s s') (hm : ∀ e, allowed e = true → allowed' e = true) :
    Keeps allowed' s s' :=
  { h with events := fun e he => hm e (h.events e he) }

theorem Keeps.ofTick (allowed : Event → Bool) (env : Env) (s : Frontend) (e : Event)
    (he : allowed e = true) : Keeps allowed s (s.tick env e) := by
  constructor <;> simp [Frontend.tick, Frontend.since, he]

theorem Keeps.ofSleep (allowed : Event → Bool) (env : Env) (ms : Nat) (s : Frontend)
    (he : allowed (Event.sleep ms) = true) : Keeps allowed s (sleepFor env ms s) := by
  constructor <;> simp [sleepFor, Frontend.tick, Frontend.since, he]
  omega

theorem Keeps.ofMonitor (allowed : Event → Bool) (s : Frontend) (a b c d e : Nat) :
    Keeps allowed s { s with frontendData := s.frontendData.setMonitorData a b c d e } := by
  constructor <;> simp [Frontend.since, FrontendData.setMonitorData]

theorem Keeps.ofLatch (allowed : Event → Bool) (s : Frontend) (b : Bool) :
    Keeps allowed s { s with oldApiCallStats := b } := by
  constructor <;> simp [Frontend.since]

theorem readStatus_keeps (env : Env) (s : Frontend) :
    Keeps Event.isFeQuery s (readStatus env s).2 := by
  unfold readStatus
  dsimp only
  exact Keeps.ofTick Event.isFeQuery env s _ (by rfl)

theorem waitOnLock_keeps (env : Env) (sw fuel : Nat) (s : Frontend) :
    Keeps Event.isFeQuery s (waitOnLock env sw fuel s) := by
  induction fuel generalizing s with
  | zero => exact Keeps.same _ s
  | succ k ih =>
    unfold waitOnLock
    dsimp only
    have h1 := readStatus_keeps env s
    split
    · exact h1.followedBy (Keeps.ofMonitor _ _ _ _ _ _ _)
    · split
      · exact h1
      · exact (h1.followedBy (Keeps.ofSleep _ env 20 _ (by rfl))).followedBy (ih _)

theorem modernStats_keeps (env : Env) (st : SignalStats) (s : Frontend) :
    Keeps Event.isFeQuery s (modernStats env st s).2 := by
  unfold modernStats
  dsimp only
  exact (Keeps.ofTick Event.isFeQuery env s _ (by rfl)).followedBy (Keeps.ofLatch _ _ _)

theorem legacyStats_keeps (env : Env) (s : Frontend) :
    Keeps Event.isFeQuery s (legacyStats env s).2 := by
  unfold legacyStats
  dsimp only
  exact (((Keeps.ofTick Event.isFeQuery env s _ (by rfl)).followedBy
    (Keeps.ofTick Event.isFeQuery env _ _ (by rfl))).followedBy
    (Keeps.ofTick Event.isFeQuery env _ _ (by rfl))).followedBy
    (Keeps.ofTick Event.isFeQuery env _ _ (by rfl))

theorem modernBlock_keeps (env : Env) (s : Frontend) :
    Keeps Event.isFeQuery s (modernBlock env s).2 := by
  unfold modernBlock
  dsimp only
  split
  · exact modernStats_keeps env _ s
  · exact Keeps.same _ _

theorem collectStats_keeps (env : Env) (s : Frontend) :
    Keeps Event.isFeQuery s (collectStats env s).2 := by
  unfold collectStats
  dsimp only
  have h := modernBlock_keeps env s
  split
  · exact h.followedBy (legacyStats_keeps env _)
  · exact h

theorem monitorSignal_keeps (env : Env) (showStatus : Bool) (s : Frontend) :
    Keeps Event.isFeQuery s (monitorSignal env showStatus s) := by
  unfold monitorSignal
  dsimp only
  have h1 := readStatus_keeps env s
  split
  · exact (h1.followedBy (collectStats_keeps env _)).followedBy (Keeps.ofMonitor _ _ _ _ _ _ _)
  · exact h1

/-! ## Tuning -/

theorem tuneFrom_cases (env : Env) (delsys : InputSystem) (systems : List DeliverySystem)
    (index : Nat) (s : Frontend) :
    (firstCapable delsys systems = none ∧ tuneFrom env delsys systems index s = (false, s)) ∨
    (∃ k, firstCapable delsys systems = some k ∧
      tuneFrom env delsys systems index s =
        (env.tuneOk s.calls,
         s.tick env (Event.tune (index + k) s.fd_fe (env.tuneOk s.calls)))) := by
  induction systems generalizing index with
  | nil => exact Or.inl ⟨rfl, rfl⟩
  | cons system rest ih =>
    unfold tuneFrom firstCapable
    by_cases hc : system.isCapableOf delsys = true
    · simp only [hc, if_true]
      exact Or.inr ⟨0, rfl, rfl⟩
    · simp only [hc, if_false]
      rcases ih (index + 1) with ⟨h1, h2⟩ | ⟨k, h1, h2⟩
      · exact Or.inl ⟨by rw [h1]; rfl, h2⟩
      · refine Or.inr ⟨k + 1, by rw [h1]; rfl, ?_⟩
        rw [h2]
        have : index + 1 + k = index + (k + 1) := by omega
        rw [this]
        simp

theorem tune_cases (env : Env) (s : Frontend) :
    (firstCapable s.frontendData.delsys s.deliverySystem = none ∧ tune env s = (false, s)) ∨
    (∃ k, firstCapable s.frontendData.delsys s.deliverySystem = some k ∧
      tune env s =
        (env.tuneOk s.calls, s.tick env (Event.tune k s.fd_fe (env.tuneOk s.calls)))) := by
  unfold tune
  rcases tuneFrom_cases env s.frontendData.delsys s.deliverySystem 0 s with h | ⟨k, h1, h2⟩
  · exact Or.inl h
  · exact Or.inr ⟨k, h1, by rw [h2, Nat.zero_add]⟩

theorem readStatus_calls (env : Env) (s : Frontend) :
    (readStatus env s).2.now = s.now + env.latency s.calls ∧
    (readStatus env s).2.calls = s.calls + 1 := by
  simp [readStatus, Frontend.tick]

theorem sleepFor_now (env : Env) (ms : Nat) (s : Frontend) :
    (sleepFor env ms s).now = s.now + env.latency s.calls + ms := by
  simp [sleepFor, Frontend.tick]

/-- One more round of fuel than `lockFuel` changes nothing: the waiting loop
has ended by then. -/
theorem waitOnLock_succ (env : Env) (sw fuel : Nat) (s : Frontend)
    (hsw : sw ≤ s.now) (h : lockFuel sw s ≤ fuel) :
    waitOnLock env sw (fuel + 1) s = waitOnLock env sw fuel s := by
  induction fuel generalizing s with
  | zero => unfold lockFuel at h; omega
  | succ k ih =>
    rw [waitOnLock, waitOnLock.eq_def env sw (k + 1) s]
    dsimp only
    split
    · rfl
    · split
      · rfl
      · rename_i hw
        have hk := readStatus_keeps env s
        have hc := readStatus_calls env s
        have e1 := sleepFor_now env 20 (readStatus env s).2
        have e2 : (sleepFor env 20 (readStatus env s).2).waitOnLockTimeout =
            s.waitOnLockTimeout := by
          rw [← hk.waitOnLockTimeout]
          simp [sleepFor, Frontend.tick]
        have e3 := hk.waitOnLockTimeout
        apply ih
        · omega
        · unfold lockFuel at h ⊢
          rw [e1, e2]
          rw [e3] at hw
          omega

theorem waitOnLock_fuel (env : Env) (sw fuel : Nat) (s : Frontend)
    (hsw : sw ≤ s.now) (h : lockFuel sw s ≤ fuel) :
    waitOnLock env sw fuel s = waitOnLock env sw (lockFuel sw s) s := by
  induction fuel with
  | zero =>
    have : lockFuel sw s = 0 := by omega
    rw [this]
  | succ k ih =>
    by_cases hk : lockFuel sw s ≤ k
    · rw [waitOnLock_succ env sw k s hsw hk, ih hk]
    · have : lockFuel sw s = k + 1 := by omega
      rw [this]

/-! ## The invariant of the tuned flag -/

theorem tuneStandsFrom_append (b : Bool) (l1 l2 : List Event) :
    tuneStandsFrom b (l1 ++ l2) = tuneStandsFrom (tuneStandsFrom b l1) l2 := by
  induction l1 generalizing b with
  | nil => rfl
  | cons e rest ih =>
    rw [List.cons_append]
    cases e <;> simp only [tuneStandsFrom] <;> exact ih _

theorem tuneStandsFrom_neutral (b : Bool) (l : List Event)
    (h : ∀ e ∈ l, e.isNeutral = true) : tuneStandsFrom b l = b := by
  induction l generalizing b with
  | nil => rfl
  | cons e rest ih =>
    have he := h e (List.mem_cons_self _ _)
    have hr : ∀ e ∈ rest, e.isNeutral = true := fun x hx => h x (List.mem_cons_of_mem _ hx)
    cases e <;> first
      | (simp only [tuneStandsFrom]; exact ih _ hr)
      | (simp [Event.isNeutral] at he)

theorem Event.isNeutral_of_isDemux (e : Event) (h : e.isDemux = true) : e.isNeutral = true := by
  cases e <;> simp_all [Event.isDemux, Event.isNeutral]

theorem Event.isNeutral_of_isFeQuery (e : Event) (h : e.isFeQuery = true) :
    e.isNeutral = true := by
  cases e <;> simp_all [Event.isFeQuery, Event.isNeutral]

theorem TunedInv.of_untuned {s : Frontend} (ht : s.tuned = false) (hfd : -1 ≤ s.fd_fe) :
    TunedInv s :=
  ⟨hfd, fun h => (by rw [ht] at h; cases h), fun h => (by rw [ht] at h; cases h)⟩

theorem TunedInv.of_neutral {s s' : Frontend} (h : TunedInv s) (ht : s'.tuned = s.tuned)
    (hfd : s'.fd_fe = s.fd_fe) (hp : s.trace <+: s'.trace)
    (he : ∀ e ∈ s.since s', e.isNeutral = true) : TunedInv s' := by
  refine ⟨by rw [hfd]; exact h.fd, fun hh => ?_, fun hh => ?_⟩
  · rw [hfd]; exact h.isOpen (ht ▸ hh)
  · rw [trace_of_since hp]
    unfold tuneStands
    rw [tuneStandsFrom_append, tuneStandsFrom_neutral _ _ he]
    exact h.stands (ht ▸ hh)

theorem TunedInv.of_demuxOnly {s s' : Frontend} (h : TunedInv s) (hd : DemuxOnly s s') :
    TunedInv s' :=
  h.of_neutral hd.tuned hd.fd_fe hd.trace
    (fun e he => Event.isNeutral_of_isDemux e (hd.events e he))

theorem TunedInv.of_keeps {s s' : Frontend} (h : TunedInv s) (hd : Keeps Event.isFeQuery s s') :
    TunedInv s' :=
  h.of_neutral hd.tuned hd.fd_fe hd.trace
    (fun e he => Event.isNeutral_of_isFeQuery e (hd.events e he))

theorem closeDMX_demuxOnly (env : Env) (s : Frontend) : DemuxOnly s (closeDMX env s) := by
  unfold closeDMX
  split
  · exact (DemuxOnly.tick env s _ (by rfl)).andThen (DemuxOnly.setDmx _ _)
  · exact DemuxOnly.refl s

theorem closeFE_fd_fe (env : Env) (s : Frontend) : (closeFE env s).fd_fe = -1 := by
  unfold closeFE
  split
  · rfl
  · rename_i h
    simpa using h

theorem closeFE_tuned (env : Env) (s : Frontend) : (closeFE env s).tuned = s.tuned := by
  unfold closeFE
  split <;> rfl

theorem sleepFor_tuned (env : Env) (ms : Nat) (s : Frontend) :
    (sleepFor env ms s).tuned = s.tuned := rfl

theorem sleepFor_fd_fe (env : Env) (ms : Nat) (s : Frontend) :
    (sleepFor env ms s).fd_fe = s.fd_fe := rfl

theorem closeOnChange_clean (env : Env) (s : Frontend) (h : s.frontendData.changed = false) :
    closeOnChange env s = s := by
  unfold closeOnChange
  simp [h]

theorem closeOnChange_dirty (env : Env) (s : Frontend) (h : s.frontendData.changed = true) :
    closeOnChange env s =
      sleepFor env 5 (closeFE env (closeDMX env (forUpTo (dropPid env) MAX_PIDS
        (s.resetDeviceDataChanged.setTuned false)))) := by
  unfold closeOnChange
  simp [h]

theorem closeOnChange_untuned (env : Env) (s : Frontend) (h : s.frontendData.changed = true) :
    (closeOnChange env s).tuned = false ∧ (closeOnChange env s).fd_fe = -1 := by
  rw [closeOnChange_dirty env s h, sleepFor_tuned, sleepFor_fd_fe, closeFE_tuned, closeFE_fd_fe,
    (closeDMX_demuxOnly env _).tuned,
    (forUpTo_demuxOnly _ (dropPid_demuxOnly env) MAX_PIDS _).tuned]
  exact ⟨rfl, rfl⟩

theorem closeOnChange_inv (env : Env) (s : Frontend) (h : TunedInv s) :
    TunedInv (closeOnChange env s) := by
  cases hd : s.frontendData.changed with
  | false => rw [closeOnChange_clean env s hd]; exact h
  | true =>
    have := closeOnChange_untuned env s hd
    exact TunedInv.of_untuned this.1 (by rw [this.2])

theorem teardown_snd (env : Env) (s : Frontend) :
    (teardown env s).2 =
      (closeFE env (closeDMX env
        ((forUpTo (dropPid env) MAX_PIDS s).setTuned false))).reinitialise := by
  unfold teardown
  simp only

theorem reinitialise_tuned (s : Frontend) : s.reinitialise.tuned = s.tuned := rfl

theorem reinitialise_fd_fe (s : Frontend) : s.reinitialise.fd_fe = s.fd_fe := rfl

theorem teardown_untuned (env : Env) (s : Frontend) :
    (teardown env s).2.tuned = false ∧ (teardown env s).2.fd_fe = -1 := by
  rw [teardown_snd, reinitialise_tuned, reinitialise_fd_fe, closeFE_tuned, closeFE_fd_fe,
    (closeDMX_demuxOnly env _).tuned]
  exact ⟨rfl, rfl⟩

theorem teardown_inv (env : Env) (s : Frontend) : TunedInv (teardown env s).2 := by
  have := teardown_untuned env s
  exact TunedInv.of_untuned this.1 (by rw [this.2])

theorem tuneAndWait_of_fail (env : Env) (sw : Nat) (s : Frontend)
    (h : (tune env s).1 = false) : tuneAndWait env sw s = (false, (tune env s).2) := by
  unfold tuneAndWait
  simp [h]

theorem tuneAndWait_of_ok (env : Env) (sw : Nat) (s : Frontend)
    (h : (tune env s).1 = true) :
    tuneAndWait env sw s =
      (true, if ((tune env s).2.setTuned true).now - sw < 500 then
          waitOnLock env sw (lockFuel sw ((tune env s).2.setTuned true))
            ((tune env s).2.setTuned true)
        else (tune env s).2.setTuned true) := by
  unfold tuneAndWait
  simp only [h, Bool.not_true, Bool.false_eq_true, if_false]
  by_cases hc : ((tune env s).2.setTuned true).now - sw < 500
  · rw [if_pos hc, if_pos hc]
  · rw [if_neg hc, if_neg hc]

theorem tuneAndWait_inv (env : Env) (sw : Nat) (s : Frontend) (ht : s.tuned = false)
    (hfd : 0 ≤ s.fd_fe) : TunedInv (tuneAndWait env sw s).2 := by
  cases hr : (tune env s).1 with
  | false =>
    rw [tuneAndWait_of_fail env sw s hr]
    rcases tune_cases env s with ⟨_, h2⟩ | ⟨k, _, h2⟩
    · rw [h2]
      exact TunedInv.of_untuned ht (by show -1 ≤ s.fd_fe; omega)
    · rw [h2]
      exact TunedInv.of_untuned ht (by show -1 ≤ s.fd_fe; omega)
  | true =>
    rw [tuneAndWait_of_ok env sw s hr]
    rcases tune_cases env s with ⟨_, h2⟩ | ⟨k, _, h2⟩
    · rw [h2] at hr
      cases hr
    · have hok : env.tuneOk s.calls = true := by rw [h2] at hr; exact hr
      have base : TunedInv ((tune env s).2.setTuned true) := by
        rw [h2, hok]
        refine ⟨by show -1 ≤ s.fd_fe; omega, fun _ => hfd, fun _ => ?_⟩
        show tuneStands (s.trace ++ [Event.tune k s.fd_fe true]) = true
        unfold tuneStands
        rw [tuneStandsFrom_append]
        rfl
      show TunedInv (if _ then _ else _)
      split
      · exact base.of_keeps (waitOnLock_keeps env sw _ _)
      · exact base

theorem setupAndTune_inv (env : Env) (s : Frontend) (h : TunedInv s) :
    TunedInv (setupAndTune env s).2 := by
  unfold setupAndTune
  dsimp only
  cases ht : s.tuned with
  | true => simpa [ht] using h
  | false =>
    simp only [Bool.not_false, if_true]
    split
    · split
      · exact TunedInv.of_untuned (by simp [openFE, Frontend.tick, Frontend.setFdFe, ht])
          (by simp [Frontend.setFdFe])
      · rename_i hfd
        exact tuneAndWait_inv env _ _ (by simp [openFE, Frontend.tick, Frontend.setFdFe, ht])
          (by simpa [Frontend.setFdFe] using hfd)
    · rename_i hfd
      have := h.fd
      exact tuneAndWait_inv env _ s ht (by omega)

theorem update_snd (env : Env) (s : Frontend) :
    (update env s).2 =
      if (setupAndTune env (closeOnChange env s)).1 then
        updatePIDFilters env (setupAndTune env (closeOnChange env s)).2
      else (setupAndTune env (closeOnChange env s)).2 := by
  by_cases h : (setupAndTune env (closeOnChange env s)).1 = true <;> simp [update, h]

theorem update_fst (env : Env) (s : Frontend) :
    (update env s).1 = (setupAndTune env (closeOnChange env s)).1 := by
  by_cases h : (setupAndTune env (closeOnChange env s)).1 = true <;> simp [update, h]

theorem update_inv (env : Env) (s : Frontend) (h : TunedInv s) :
    TunedInv (update env s).2 := by
  rw [update_snd]
  have h1 := setupAndTune_inv env _ (closeOnChange_inv env s h)
  split
  · exact h1.of_demuxOnly (updatePIDFilters_demuxOnly env _)
  · exact h1

theorem reachable_inv {s : Frontend} (h : Reachable s) : TunedInv s := by
  induction h with
  | construct systems modernApi now =>
    exact TunedInv.of_untuned rfl (by simp [Frontend.construct])
  | parse delsys dirty pids _ ih =>
    exact ih.of_neutral rfl rfl (by simp [parseStreamString])
      (by simp [parseStreamString, Frontend.since])
  | update env _ ih => exact update_inv env _ ih
  | teardown env _ _ => exact teardown_inv env _
  | setupAndTune env _ ih => exact setupAndTune_inv env _ ih
  | updatePIDFilters env _ ih => exact ih.of_demuxOnly (updatePIDFilters_demuxOnly env _)
  | monitorSignal env showStatus _ ih => exact ih.of_keeps (monitorSignal_keeps env showStatus _)

/-! ## C3 and C4: what the tuned flag implies -/

/-- C3.  In every state reachable from construction by calls of
`parseStreamString`, `update`, `teardown`, `setupAndTune`,
`updatePIDFilters` and `monitorSignal`, whatever the opens, ioctls and
tunes answer, `tuned == true` implies that the frontend descriptor is
`>= 0`. -/
theorem tuned_implies_fd_open (s : Frontend) (h : Reachable s) (ht : s.tuned = true) :
    0 ≤ s.fd_fe :=
  (reachable_inv h).isOpen ht

/-- C3 at the state after a successful `setupAndTune` with lock. -/
theorem tuned_implies_fd_open_witness :
    Reachable Frontend.lockedExample ∧ Frontend.lockedExample.tuned = true ∧
      0 ≤ Frontend.lockedExample.fd_fe :=
  ⟨Reachable.setupAndTune _ (Reachable.construct _ _ _), rfl,
   tuned_implies_fd_open _ (Reachable.setupAndTune _ (Reachable.construct _ _ _)) rfl⟩

/-- C4 (as amended).  In every reachable state, `tuned == true` implies that
the most recent `tune` of a delivery system returned true and the frontend
has not been closed since.  (That `FE_READ_STATUS` reported the lock is not
implied: the flag is set before the wait for the lock and stays set when
the wait times out.) -/
theorem tuned_implies_tune_stands (s : Frontend) (h : Reachable s) (ht : s.tuned = true) :
    tuneStands s.trace = true :=
  (reachable_inv h).stands ht

/-- C4 (as amended) at the state after a `setupAndTune` whose wait for the
lock timed out. -/
theorem tuned_implies_tune_stands_witness :
    Reachable Frontend.lockTimeoutExample ∧ Frontend.lockTimeoutExample.tuned = true ∧
      tuneStands Frontend.lockTimeoutExample.trace = true :=
  ⟨Reachable.setupAndTune _ (Reachable.construct _ _ _), rfl,
   tuned_implies_tune_stands _ (Reachable.setupAndTune _ (Reachable.construct _ _ _)) rfl⟩

/-- C4 (as stated) fails.  A reachable state that is tuned although no
`FE_READ_STATUS` ever reported `FE_HAS_LOCK`: the open and the tune succeed,
the status is read twice without lock (the trace shows both reads), and the
wait ends by timeout with the tuned flag set. -/
theorem tuned_without_lock_counterexample :
    Reachable Frontend.lockTimeoutExample ∧ Frontend.lockTimeoutExample.tuned = true ∧
      lockSeen Frontend.lockTimeoutExample.trace = false ∧
      Frontend.lockTimeoutExample.trace =
        [Event.feOpen false 4, Event.tune 0 4 true, Event.readStatus 4 (some 0),
         Event.sleep 20, Event.readStatus 4 (some 0)] :=
  ⟨Reachable.setupAndTune _ (Reachable.construct _ _ _), rfl, rfl, rfl⟩

/-! ## C5: the RTP sequence number -/

theorem and_255 (x : Nat) : x &&& 0xFF = x % 256 :=
  Nat.and_pow_two_sub_one_eq_mod x 8

theorem shift_8 (x : Nat) : x >>> 8 = x / 256 :=
  Nat.shiftRight_eq_div_pow x 8

/-- The two bytes written at offsets 2 and 3 spell the counter. -/
theorem writeDataToOutputDevice_sequenceNumber (ticks : Nat) (sendOk : Bool)
    (t : StreamThreadRtp) (buffer : PacketBuffer) (client : StreamClient) :
    (writeDataToOutputDevice ticks sendOk t buffer client).buffer.sequenceNumber =
      (t.cseq + 1) % 65536 := by
  simp only [writeDataToOutputDevice, PacketBuffer.sequenceNumber, PacketBuffer.setByte,
    and_255, shift_8]
  simp
  omega

theorem writeDataToOutputDevice_cseq (ticks : Nat) (sendOk : Bool)
    (t : StreamThreadRtp) (buffer : PacketBuffer) (client : StreamClient) :
    (writeDataToOutputDevice ticks sendOk t buffer client).thread.cseq =
      (t.cseq + 1) % 65536 := rfl

/-- C5.  For every two consecutive calls of
`StreamThreadRtp::writeDataToOutputDevice` on one stream thread, with any
buffers, clients and tick counts and whether or not the sends succeed, the
16-bit big-endian sequence number that the second call writes at buffer
offsets 2..3 is the one the first call wrote, plus 1, modulo 2^16. -/
theorem rtp_sequence_consecutive (ticks1 ticks2 : Nat) (sendOk1 sendOk2 : Bool)
    (t : StreamThreadRtp) (buffer1 buffer2 : PacketBuffer) (client1 client2 : StreamClient) :
    (writeDataToOutputDevice ticks2 sendOk2
        (writeDataToOutputDevice ticks1 sendOk1 t buffer1 client1).thread
        buffer2 client2).buffer.sequenceNumber =
      ((writeDataToOutputDevice ticks1 sendOk1 t buffer1 client1).buffer.sequenceNumber + 1)
        % 65536 := by
  rw [writeDataToOutputDevice_sequenceNumber, writeDataToOutputDevice_sequenceNumber,
    writeDataToOutputDevice_cseq]


/-! ## C10: the legacy statistics -/

theorem toInt32_of_small (x : Nat) (h : x < 2147483648) : toInt32 (x : Int) = (x : Int) := by
  unfold toInt32
  omega

theorem scale16_eq (v k : Nat) (hv : v < 65536) (hk : k ≤ 240) :
    scale16 v k = v * k / 65535 ∧ v * k / 65535 ≤ k ∧ toInt32 ((v : Int) * (k : Int)) = (v : Int) * (k : Int) := by
  have hvk : v * k < 2147483648 := by nlinarith
  have h1 : toInt32 ((v : Int) * (k : Int)) = ((v * k : Nat) : Int) := by
    rw [← Nat.cast_mul]
    exact toInt32_of_small _ hvk
  refine ⟨?_, ?_, ?_⟩
  · unfold scale16
    rw [h1]
    have h2 : Int.tdiv ((v * k : Nat) : Int) 0xffff = ((v * k / 65535 : Nat) : Int) :=
      (Int.ofNat_tdiv (v * k) 65535).symm
    rw [h2]
    unfold toUInt16
    have h3 : v * k / 65535 < 65536 := by omega
    omega
  · have : v * k ≤ 65535 * k := Nat.mul_le_mul_right k (by omega)
    omega
  · rw [h1]; push_cast; ring

theorem legacyRaw_lt (env : Env) (n : Nat) : legacyRaw env n < 65536 := by
  unfold legacyRaw
  split
  · exact Nat.mod_lt _ (by norm_num)
  · norm_num

theorem readStatus_of_ok (env : Env) (s : Frontend) (h : env.ioctlOk s.calls = true) :
    readStatus env s =
      (some (env.feStatus s.calls),
       s.tick env (Event.readStatus s.fd_fe (some (env.feStatus s.calls)))) := by
  unfold readStatus
  simp [h]

theorem legacyStats_fst (env : Env) (s : Frontend) :
    (legacyStats env s).1.strength = scale16 (legacyRaw env s.calls) 240 ∧
    (legacyStats env s).1.snr = scale16 (legacyRaw env (s.calls + 1)) 15 := by
  simp [legacyStats, Frontend.tick]

theorem monitorSignal_of_legacy (env : Env) (showStatus : Bool) (s : Frontend)
    (hst : env.ioctlOk s.calls = true)
    (hleg : (modernBlock env (readStatus env s).2).2.oldApiCallStats = true) :
    (monitorSignal env showStatus s).frontendData.monitor.strength =
        (legacyStats env (modernBlock env (readStatus env s).2).2).1.strength ∧
    (monitorSignal env showStatus s).frontendData.monitor.snr =
        (legacyStats env (modernBlock env (readStatus env s).2).2).1.snr := by
  have hc : collectStats env (readStatus env s).2 =
      legacyStats env (modernBlock env (readStatus env s).2).2 := by
    unfold collectStats
    simp [hleg]
  unfold monitorSignal
  dsimp only
  rw [hc]
  rw [readStatus_of_ok env s hst]
  simp [FrontendData.setMonitorData]

theorem modernBlock_calls (env : Env) (s : Frontend) :
    (modernBlock env s).2.calls =
      s.calls + (if s.modernApi && !s.oldApiCallStats then 1 else 0) ∧
    (modernBlock env s).2.fd_fe = s.fd_fe ∧
    (modernBlock env s).2.trace = s.trace ++
      (if s.modernApi && !s.oldApiCallStats
       then [Event.getProperty s.fd_fe (env.ioctlOk s.calls)] else []) := by
  unfold modernBlock
  split <;> simp [modernStats, Frontend.tick]

theorem legacyStats_trace (env : Env) (s : Frontend) :
    (legacyStats env s).2.trace = s.trace ++
      [Event.readSignalStrength s.fd_fe (env.ioctlOk s.calls),
       Event.readSnr s.fd_fe (env.ioctlOk (s.calls + 1)),
       Event.readBer s.fd_fe (env.ioctlOk (s.calls + 2)),
       Event.readUncorrectedBlocks s.fd_fe (env.ioctlOk (s.calls + 3))] := by
  simp [legacyStats, Frontend.tick]

theorem monitorSignal_legacy_trace (env : Env) (showStatus : Bool) (s : Frontend)
    (hst : env.ioctlOk s.calls = true)
    (hleg : (modernBlock env (readStatus env s).2).2.oldApiCallStats = true) :
    (monitorSignal env showStatus s).trace =
      (legacyStats env (modernBlock env (readStatus env s).2).2).2.trace := by
  have hc : collectStats env (readStatus env s).2 =
      legacyStats env (modernBlock env (readStatus env s).2).2 := by
    unfold collectStats
    simp [hleg]
  unfold monitorSignal
  dsimp only
  rw [hc]
  rw [readStatus_of_ok env s hst]

/-- C10.  On the legacy statistics path of `monitorSignal` (the status was
read and the legacy latch is set when the modern block is over), the call
issues, after `FE_READ_STATUS` and the modern `FE_GET_PROPERTY` if that was
still tried, the ioctls `FE_READ_SIGNAL_STRENGTH`, `FE_READ_SNR`,
`FE_READ_BER` and `FE_READ_UNCORRECTED_BLOCKS`.  With `raw` the 16-bit value
the driver wrote for `FE_READ_SIGNAL_STRENGTH`, respectively `FE_READ_SNR`
(0 when that ioctl fails): the strength stored in the monitor snapshot is
`raw * 240 / 65535` (rounded down) and at most 240, the SNR is
`raw * 15 / 65535` and at most 15, and the products `raw * 240` and
`raw * 15` are unchanged by the conversion to `int`: they do not overflow. -/
theorem monitorSignal_legacy_range (env : Env) (showStatus : Bool) (s : Frontend) (n : Nat)
    (hst : env.ioctlOk s.calls = true)
    (hleg : (modernBlock env (readStatus env s).2).2.oldApiCallStats = true)
    (hn : n = s.calls + 1 + (if s.modernApi && !s.oldApiCallStats then 1 else 0)) :
    s.since (monitorSignal env showStatus s) =
      Event.readStatus s.fd_fe (some (env.feStatus s.calls)) ::
        ((if s.modernApi && !s.oldApiCallStats
          then [Event.getProperty s.fd_fe (env.ioctlOk (s.calls + 1))] else []) ++
         [Event.readSignalStrength s.fd_fe (env.ioctlOk n),
          Event.readSnr s.fd_fe (env.ioctlOk (n + 1)),
          Event.readBer s.fd_fe (env.ioctlOk (n + 2)),
          Event.readUncorrectedBlocks s.fd_fe (env.ioctlOk (n + 3))]) ∧
    (monitorSignal env showStatus s).frontendData.monitor.strength =
        (if env.ioctlOk n then env.raw n % 65536 else 0) * 240 / 65535 ∧
    (monitorSignal env showStatus s).frontendData.monitor.strength ≤ 240 ∧
    (monitorSignal env showStatus s).frontendData.monitor.snr =
        (if env.ioctlOk (n + 1) then env.raw (n + 1) % 65536 else 0) * 15 / 65535 ∧
    (monitorSignal env showStatus s).frontendData.monitor.snr ≤ 15 ∧
    toInt32 (((if env.ioctlOk n then env.raw n % 65536 else 0 : Nat) : Int) * 240) =
        ((if env.ioctlOk n then env.raw n % 65536 else 0 : Nat) : Int) * 240 ∧
    toInt32 (((if env.ioctlOk (n + 1) then env.raw (n + 1) % 65536 else 0 : Nat) : Int) * 15) =
        ((if env.ioctlOk (n + 1) then env.raw (n + 1) % 65536 else 0 : Nat) : Int) * 15 := by
  obtain ⟨h1, h2⟩ := monitorSignal_of_legacy env showStatus s hst hleg
  obtain ⟨l1, l2⟩ := legacyStats_fst env (modernBlock env (readStatus env s).2).2
  obtain ⟨c1, c2, c3⟩ := modernBlock_calls env (readStatus env s).2
  have r1 : (readStatus env s).2.calls = s.calls + 1 := by simp [readStatus, Frontend.tick]
  have r2 : (readStatus env s).2.modernApi = s.modernApi := rfl
  have r3 : (readStatus env s).2.oldApiCallStats = s.oldApiCallStats := rfl
  have r4 : (readStatus env s).2.fd_fe = s.fd_fe := rfl
  have r5 : (readStatus env s).2.trace =
      s.trace ++ [Event.readStatus s.fd_fe (some (env.feStatus s.calls))] := by
    rw [readStatus_of_ok env s hst]; rfl
  rw [r1, r2, r3, ← hn] at c1
  rw [r1, r2, r3, r4, r5] at c3
  rw [r4] at c2
  have hraw : ∀ m, legacyRaw env m = if env.ioctlOk m then env.raw m % 65536 else 0 :=
    fun m => rfl
  obtain ⟨a1, a2, a3⟩ := scale16_eq (legacyRaw env n) 240 (legacyRaw_lt _ _) (le_refl _)
  obtain ⟨b1, b2, b3⟩ := scale16_eq (legacyRaw env (n + 1)) 15 (legacyRaw_lt _ _) (by norm_num)
  rw [h1, h2, l1, l2, c1, a1, b1]
  simp only [hraw] at a2 a3 b2 b3 ⊢
  refine ⟨?_, trivial, a2, trivial, b2, a3, b3⟩
  apply since_of_trace
  rw [monitorSignal_legacy_trace env showStatus s hst hleg, legacyStats_trace, c1, c2, c3]
  simp [Nat.add_assoc]

/-- C10 at the locked example (frontend descriptor 4, modern build) where the
modern statistics are not available and both legacy ioctls write 32768: the
call falls back to the legacy ioctls in its first round and stores the
strength 120 and the SNR 7. -/
theorem monitorSignal_legacy_range_witness :
    Env.halfSignal.ioctlOk Frontend.lockedExample.calls = true ∧
    (modernBlock Env.halfSignal
      (readStatus Env.halfSignal Frontend.lockedExample).2).2.oldApiCallStats = true ∧
    (monitorSignal Env.halfSignal true Frontend.lockedExample).frontendData.monitor.strength =
      120 ∧
    (monitorSignal Env.halfSignal true Frontend.lockedExample).frontendData.monitor.snr = 7 :=
  ⟨rfl, rfl,
   (monitorSignal_legacy_range Env.halfSignal true Frontend.lockedExample 5 rfl rfl rfl).2.1,
   (monitorSignal_legacy_range Env.halfSignal true Frontend.lockedExample 5 rfl rfl rfl
    ).2.2.2.1⟩

/-! ## The loop that closes the active PIDs -/

theorem Removals.append {fd : Int} {p1 p2 : List Nat} {e1 e2 : List Event}
    (h1 : Removals fd p1 e1) (h2 : Removals fd p2 e2) : Removals fd (p1 ++ p2) (e1 ++ e2) := by
  unfold Removals at *
  induction h1 with
  | nil => simpa using h2
  | cons hx _ ih => exact List.Forall₂.cons hx ih

theorem mapFilter_since (s : Frontend) (f : PidTable → PidTable) :
    s.since (s.mapFilter f) = [] := by
  simp [Frontend.since, Frontend.mapFilter]

theorem closePid_fd_dmx (env : Env) (i : Nat) (s : Frontend) :
    (closePid env i s).fd_dmx = s.fd_dmx := by
  unfold closePid
  split
  · rfl
  · exact filterIoctl_fd_dmx env _ _ s

theorem closePid_since (env : Env) (i : Nat) (s : Frontend) :
    s.since (closePid env i s) =
      if s.frontendData.filter.shouldPIDClose i then
        [Event.removePid s.fd_dmx i (env.ioctlOk s.calls)]
      else [] := by
  unfold closePid
  cases h : s.frontendData.filter.shouldPIDClose i
  · simp [since_self]
  · simp [filterIoctl_since]

/-- One round of the loops `// Close active PIDs`. -/
theorem dropPid_step (env : Env) (i : Nat) (s : Frontend) :
    (dropPid env i s).fd_dmx = s.fd_dmx ∧
    (∀ q, q ≠ i → (dropPid env i s).frontendData.filter.data q = s.frontendData.filter.data q) ∧
    (dropPid env i s).desired i = false ∧
    s.since (dropPid env i s) =
      if s.opened i then [Event.removePid s.fd_dmx i (env.ioctlOk s.calls)] else [] := by
  unfold dropPid
  have hs := closePid_tableStep env i (s.mapFilter (fun t => t.setPID i false))
  refine ⟨?_, ?_, ?_, ?_⟩
  · rw [closePid_fd_dmx]; rfl
  · intro q hq
    rw [hs.other q hq]
    simp [Frontend.mapFilter, PidTable.setPID, hq]
  · rw [hs.desired]
    simp [Frontend.desired, Frontend.mapFilter, PidTable.setPID]
  · have h1 : s.trace <+: (s.mapFilter (fun t => t.setPID i false)).trace :=
      (DemuxOnly.mapFilter s _).trace
    have h2 := (closePid_demuxOnly env i (s.mapFilter (fun t => t.setPID i false))).trace
    rw [since_trans h1 h2, mapFilter_since, closePid_since]
    simp [Frontend.mapFilter, PidTable.shouldPIDClose, PidTable.setPID, Frontend.opened]

theorem range_succ_filter (n : Nat) (p : Nat → Bool) :
    (List.range (n + 1)).filter p = (List.range n).filter p ++ (if p n then [n] else []) := by
  rw [List.range_succ, List.filter_append]
  cases h : p n <;> simp [h]

/-- The loop `// Close active PIDs`: every PID stops being desired, and a
`DMX_REMOVE_PID` is issued, in ascending order, for exactly the PIDs that
were opened. -/
theorem dropLoop_spec (env : Env) (n : Nat) (s : Frontend) :
    DemuxOnly s (forUpTo (dropPid env) n s) ∧
    (forUpTo (dropPid env) n s).fd_dmx = s.fd_dmx ∧
    (∀ q, n ≤ q → (forUpTo (dropPid env) n s).frontendData.filter.data q =
      s.frontendData.filter.data q) ∧
    (∀ q, q < n → (forUpTo (dropPid env) n s).desired q = false) ∧
    Removals s.fd_dmx ((List.range n).filter s.opened) (s.since (forUpTo (dropPid env) n s)) := by
  induction n with
  | zero =>
    refine ⟨DemuxOnly.refl s, rfl, fun _ _ => rfl, fun q hq => absurd hq (Nat.not_lt_zero q), ?_⟩
    show Removals _ _ (s.since s)
    rw [since_self]
    exact List.Forall₂.nil
  | succ k ih =>
    obtain ⟨hd, hfd, hdata, hdes, hrem⟩ := ih
    obtain ⟨s1, s2, s3, s4⟩ := dropPid_step env k (forUpTo (dropPid env) k s)
    have hd' := dropPid_demuxOnly env k (forUpTo (dropPid env) k s)
    have hts := closePid_tableStep env k ((forUpTo (dropPid env) k s).mapFilter
      (fun t => t.setPID k false))
    refine ⟨hd.andThen hd', ?_, ?_, ?_, ?_⟩
    · show (dropPid env k (forUpTo (dropPid env) k s)).fd_dmx = s.fd_dmx
      rw [s1, hfd]
    · intro q hq
      show (dropPid env k (forUpTo (dropPid env) k s)).frontendData.filter.data q = _
      rw [s2 q (by omega), hdata q (by omega)]
    · intro q hq
      show (dropPid env k (forUpTo (dropPid env) k s)).desired q = false
      by_cases hqk : q = k
      · subst hqk; exact s3
      · have := hdes q (by omega)
        unfold Frontend.desired at this ⊢
        rw [s2 q hqk]; exact this
    · show Removals _ _ (s.since (dropPid env k (forUpTo (dropPid env) k s)))
      rw [since_trans hd.trace hd'.trace, range_succ_filter, s4, hfd]
      apply hrem.append
      have ho : (forUpTo (dropPid env) k s).opened k = s.opened k := by
        unfold Frontend.opened
        rw [hdata k (le_refl k)]
      rw [ho]
      cases s.opened k
      · exact List.Forall₂.nil
      · exact List.Forall₂.cons ⟨_, rfl⟩ List.Forall₂.nil

/-! ## The block of `update` that closes everything -/

theorem closeDMX_since (env : Env) (s : Frontend) :
    s.since (closeDMX env s) = if s.fd_dmx ≠ -1 then [Event.dmxClose s.fd_dmx] else [] := by
  unfold closeDMX
  split <;> simp [Frontend.since, Frontend.tick]

theorem closeDMX_fd_dmx (env : Env) (s : Frontend) : (closeDMX env s).fd_dmx = -1 := by
  unfold closeDMX
  split
  · rfl
  · rename_i h
    simpa using h

theorem closeDMX_filter (env : Env) (s : Frontend) :
    (closeDMX env s).frontendData = s.frontendData := by
  unfold closeDMX
  split <;> rfl

theorem closeFE_since (env : Env) (s : Frontend) :
    s.since (closeFE env s) = if s.fd_fe ≠ -1 then [Event.feClose s.fd_fe] else [] := by
  unfold closeFE
  split <;> simp [Frontend.since, Frontend.tick]

theorem closeFE_trace (env : Env) (s : Frontend) : s.trace <+: (closeFE env s).trace := by
  unfold closeFE
  split <;> simp [Frontend.tick]

theorem closeFE_frontendData (env : Env) (s : Frontend) :
    (closeFE env s).frontendData = s.frontendData := by
  unfold closeFE
  split <;> rfl

theorem closeFE_deliverySystem (env : Env) (s : Frontend) :
    (closeFE env s).deliverySystem = s.deliverySystem := by
  unfold closeFE
  split <;> rfl

theorem closeFE_fd_dmx (env : Env) (s : Frontend) : (closeFE env s).fd_dmx = s.fd_dmx := by
  unfold closeFE
  split <;> rfl

theorem sleepFor_since (env : Env) (ms : Nat) (s : Frontend) :
    s.since (sleepFor env ms s) = [Event.sleep ms] := by
  simp [Frontend.since, sleepFor, Frontend.tick]

theorem sleepFor_trace (env : Env) (ms : Nat) (s : Frontend) :
    s.trace <+: (sleepFor env ms s).trace := by
  simp [sleepFor, Frontend.tick]

theorem sleepFor_frontendData (env : Env) (ms : Nat) (s : Frontend) :
    (sleepFor env ms s).frontendData = s.frontendData := rfl

theorem sleepFor_deliverySystem (env : Env) (ms : Nat) (s : Frontend) :
    (sleepFor env ms s).deliverySystem = s.deliverySystem := rfl

theorem sleepFor_fd_dmx (env : Env) (ms : Nat) (s : Frontend) :
    (sleepFor env ms s).fd_dmx = s.fd_dmx := rfl

theorem desired_congr {s t : Frontend} (h : s.frontendData = t.frontendData) (q : Nat) :
    s.desired q = t.desired q := by
  unfold Frontend.desired
  rw [h]

theorem opened_congr {s t : Frontend} (h : s.frontendData = t.frontendData) (q : Nat) :
    s.opened q = t.opened q := by
  unfold Frontend.opened
  rw [h]

/-- What the block guarded by `hasDeviceDataChanged()` does when the flag is
set. -/
theorem closeOnChange_spec (env : Env) (s : Frontend) (h : s.frontendData.changed = true) :
    (closeOnChange env s).tuned = false ∧
    (closeOnChange env s).fd_fe = -1 ∧
    (closeOnChange env s).fd_dmx = -1 ∧
    (closeOnChange env s).frontendData.changed = false ∧
    (closeOnChange env s).frontendData.delsys = s.frontendData.delsys ∧
    (closeOnChange env s).deliverySystem = s.deliverySystem ∧
    (∀ q, q < MAX_PIDS → (closeOnChange env s).desired q = false) ∧
    s.trace <+: (closeOnChange env s).trace ∧
    ∃ removes, Removals s.fd_dmx ((List.range MAX_PIDS).filter s.opened) removes ∧
      s.since (closeOnChange env s) =
        removes ++ (if s.fd_dmx ≠ -1 then [Event.dmxClose s.fd_dmx] else []) ++
          (if s.fd_fe ≠ -1 then [Event.feClose s.fd_fe] else []) ++ [Event.sleep 5] := by
  obtain ⟨hd, hfd, _, hdes, hrem⟩ := dropLoop_spec env MAX_PIDS
    (s.resetDeviceDataChanged.setTuned false)
  have hc := closeDMX_demuxOnly env (forUpTo (dropPid env) MAX_PIDS
    (s.resetDeviceDataChanged.setTuned false))
  have t0 : s.trace <+: (s.resetDeviceDataChanged.setTuned false).trace := List.prefix_refl _
  have t1 := hd.trace
  have t2 := hc.trace
  have t3 := closeFE_trace env (closeDMX env (forUpTo (dropPid env) MAX_PIDS
    (s.resetDeviceDataChanged.setTuned false)))
  have t4 := sleepFor_trace env 5 (closeFE env (closeDMX env (forUpTo (dropPid env) MAX_PIDS
    (s.resetDeviceDataChanged.setTuned false))))
  have u := closeOnChange_untuned env s h
  rw [closeOnChange_dirty env s h] at u ⊢
  refine ⟨u.1, u.2, ?_, ?_, ?_, ?_, ?_, ?_, ?_⟩
  · rw [sleepFor_fd_dmx, closeFE_fd_dmx, closeDMX_fd_dmx]
  · rw [sleepFor_frontendData, closeFE_frontendData, closeDMX_filter, hd.dirty]
    rfl
  · rw [sleepFor_frontendData, closeFE_frontendData, closeDMX_filter, hd.delsys]
    rfl
  · rw [sleepFor_deliverySystem, closeFE_deliverySystem, hc.systems, hd.systems]
    rfl
  · intro q hq
    exact (desired_congr (by rw [sleepFor_frontendData, closeFE_frontendData,
      closeDMX_filter]) q).trans (hdes q hq)
  · exact ((t0.trans t1).trans t2).trans (t3.trans t4)
  · refine ⟨_, hrem, ?_⟩
    rw [since_trans (((t0.trans t1).trans t2).trans t3) t4,
      since_trans ((t0.trans t1).trans t2) t3,
      since_trans (t0.trans t1) t2, since_trans t0 t1,
      sleepFor_since, closeFE_since, closeDMX_since, hfd, hc.fd_fe, hd.fd_fe]
    have e0 : s.since (s.resetDeviceDataChanged.setTuned false) = [] := by
      simp [Frontend.since, Frontend.setTuned, Frontend.resetDeviceDataChanged]
    have e1 : (s.resetDeviceDataChanged.setTuned false).fd_dmx = s.fd_dmx := rfl
    have e2 : (s.resetDeviceDataChanged.setTuned false).fd_fe = s.fd_fe := rfl
    rw [e0, e1, e2]
    simp


/-! ## What `setupAndTune` does -/

theorem KeepsData.unchanged (s : Frontend) : KeepsData s s :=
  ⟨rfl, rfl, rfl, rfl, rfl, List.prefix_refl _⟩

theorem KeepsData.next {s s1 s2 : Frontend} (h1 : KeepsData s s1) (h2 : KeepsData s1 s2) :
    KeepsData s s2 :=
  ⟨h2.fd_dmx.trans h1.fd_dmx, h2.filter.trans h1.filter, h2.dirty.trans h1.dirty,
   h2.delsys.trans h1.delsys, h2.systems.trans h1.systems, h1.trace.trans h2.trace⟩

theorem KeepsData.ofKeeps {allowed : Event → Bool} {s s' : Frontend} (h : Keeps allowed s s') :
    KeepsData s s' :=
  ⟨h.fd_dmx, h.filter, h.dirty, h.delsys, h.systems, h.trace⟩

theorem sysOpen_cases (env : Env) (s : Frontend) : sysOpen env s = -1 ∨ 0 ≤ sysOpen env s := by
  unfold sysOpen
  cases env.openResult s.calls with
  | none => exact Or.inl rfl
  | some fd => exact Or.inr (by simp)

theorem setupAndTune_tuned (env : Env) (s : Frontend) (ht : s.tuned = true) :
    setupAndTune env s = (true, s) := by
  unfold setupAndTune
  simp [ht]

theorem setupAndTune_untuned (env : Env) (s : Frontend) (ht : s.tuned = false) :
    setupAndTune env s =
      if s.fd_fe = -1 then
        if sysOpen env s < 0 then
          (false, (s.tick env (Event.feOpen false (sysOpen env s))).setFdFe (-1))
        else
          tuneAndWait env s.now
            ((s.tick env (Event.feOpen false (sysOpen env s))).setFdFe (sysOpen env s))
      else tuneAndWait env (min (env.stopWatchInit s.calls) s.now) s := by
  unfold setupAndTune
  simp [ht, openFE]

/-- What `tune` followed by the wait for the lock does. -/
theorem tuneAndWait_spec (env : Env) (sw : Nat) (t : Frontend) :
    KeepsData t (tuneAndWait env sw t).2 ∧
    (tuneAndWait env sw t).2.fd_fe = t.fd_fe ∧
    (tuneAndWait env sw t).2.tuned = ((tuneAndWait env sw t).1 || t.tuned) ∧
    (firstCapable t.frontendData.delsys t.deliverySystem = none →
      (tuneAndWait env sw t).1 = false ∧ t.since (tuneAndWait env sw t).2 = []) ∧
    (∀ k, firstCapable t.frontendData.delsys t.deliverySystem = some k →
      ∃ waits, t.since (tuneAndWait env sw t).2 =
          Event.tune k t.fd_fe (tuneAndWait env sw t).1 :: waits ∧
        ∀ e ∈ waits, e.isFeQuery = true) := by
  have hk1 : ∀ (k : Nat) (ok : Bool), KeepsData t (t.tick env (Event.tune k t.fd_fe ok)) :=
    fun k ok => KeepsData.ofKeeps (Keeps.ofTick (fun _ => true) env t _ rfl)
  rcases tune_cases env t with ⟨hc, h2⟩ | ⟨k, hc, h2⟩
  · have hr : (tune env t).1 = false := by rw [h2]
    rw [tuneAndWait_of_fail env sw t hr, h2]
    refine ⟨KeepsData.unchanged t, rfl, by simp, fun _ => ⟨rfl, since_self t⟩, ?_⟩
    intro k hk
    rw [hc] at hk
    cases hk
  · cases hok : env.tuneOk t.calls with
    | false =>
      have hr : (tune env t).1 = false := by rw [h2]; exact hok
      rw [tuneAndWait_of_fail env sw t hr, h2, hok]
      refine ⟨hk1 k false, rfl, by simp [Frontend.tick], ?_, ?_⟩
      · intro hn; rw [hc] at hn; cases hn
      · intro k' hk'
        rw [hc] at hk'
        cases hk'
        exact ⟨[], by simp [Frontend.since, Frontend.tick], by simp⟩
    | true =>
      have hr : (tune env t).1 = true := by rw [h2]; exact hok
      rw [tuneAndWait_of_ok env sw t hr, h2, hok]
      have hset : KeepsData t ((t.tick env (Event.tune k t.fd_fe true)).setTuned true) :=
        (hk1 k true).next ⟨rfl, rfl, rfl, rfl, rfl, List.prefix_refl _⟩
      have hsince : t.since ((t.tick env (Event.tune k t.fd_fe true)).setTuned true) =
          [Event.tune k t.fd_fe true] := by
        simp [Frontend.since, Frontend.tick, Frontend.setTuned]
      have hw := waitOnLock_keeps env sw
        (lockFuel sw ((t.tick env (Event.tune k t.fd_fe true)).setTuned true))
        ((t.tick env (Event.tune k t.fd_fe true)).setTuned true)
      dsimp only
      split
      · refine ⟨hset.next (KeepsData.ofKeeps hw), ?_, ?_, ?_, ?_⟩
        · rw [hw.fd_fe]; rfl
        · rw [hw.tuned]; rfl
        · intro hn; rw [hc] at hn; cases hn
        · intro k' hk'
          rw [hc] at hk'
          cases hk'
          refine ⟨_, ?_, hw.events⟩
          rw [since_trans hset.trace hw.trace, hsince]
          rfl
      · refine ⟨hset, rfl, rfl, ?_, ?_⟩
        · intro hn; rw [hc] at hn; cases hn
        · intro k' hk'
          rw [hc] at hk'
          cases hk'
          exact ⟨[], hsince, by simp⟩

/-- What `setupAndTune` does on a frontend that is not tuned: it opens the
frontend when it is closed, and unless that open fails it calls `tune` of
the first capable delivery system and then only queries the frontend. -/
theorem setupAndTune_spec (env : Env) (c : Frontend) (ht : c.tuned = false) :
    KeepsData c (setupAndTune env c).2 ∧
    (setupAndTune env c).2.tuned = (setupAndTune env c).1 ∧
    ∃ rest, c.since (setupAndTune env c).2 =
        (if c.fd_fe = -1 then [Event.feOpen false (sysOpen env c)] else []) ++ rest ∧
      ((c.fd_fe = -1 ∧ sysOpen env c = -1) → rest = [] ∧ (setupAndTune env c).1 = false) ∧
      (¬(c.fd_fe = -1 ∧ sysOpen env c = -1) →
        (firstCapable c.frontendData.delsys c.deliverySystem = none →
          rest = [] ∧ (setupAndTune env c).1 = false) ∧
        (∀ k, firstCapable c.frontendData.delsys c.deliverySystem = some k →
          ∃ waits, rest = Event.tune k (tuneFd env c) (setupAndTune env c).1 :: waits ∧
            ∀ e ∈ waits, e.isFeQuery = true)) := by
  rw [setupAndTune_untuned env c ht]
  by_cases hfd : c.fd_fe = -1
  · simp only [hfd, if_true, true_and]
    rcases sysOpen_cases env c with ho | ho
    · have hlt : sysOpen env c < 0 := by rw [ho]; decide
      simp only [hlt, if_true]
      refine ⟨⟨rfl, rfl, rfl, rfl, rfl, by simp [Frontend.tick, Frontend.setFdFe]⟩,
        by simp [Frontend.tick, Frontend.setFdFe, ht],
        [], by simp [Frontend.since, Frontend.tick, Frontend.setFdFe], fun _ => by simp,
        fun h => absurd ho h⟩
    · have hlt : ¬ sysOpen env c < 0 := by omega
      have hne : sysOpen env c ≠ -1 := by omega
      simp only [hlt, if_false]
      obtain ⟨k1, k2, k3, k4, k5⟩ := tuneAndWait_spec env c.now
        ((c.tick env (Event.feOpen false (sysOpen env c))).setFdFe (sysOpen env c))
      have hpre : KeepsData c
          ((c.tick env (Event.feOpen false (sysOpen env c))).setFdFe (sysOpen env c)) :=
        ⟨rfl, rfl, rfl, rfl, rfl, by simp [Frontend.tick, Frontend.setFdFe]⟩
      have hsince : c.since
          ((c.tick env (Event.feOpen false (sysOpen env c))).setFdFe (sysOpen env c)) =
          [Event.feOpen false (sysOpen env c)] := by
        simp [Frontend.since, Frontend.tick, Frontend.setFdFe]
      refine ⟨hpre.next k1, ?_,
        ((c.tick env (Event.feOpen false (sysOpen env c))).setFdFe (sysOpen env c)).since
          (tuneAndWait env c.now
            ((c.tick env (Event.feOpen false (sysOpen env c))).setFdFe (sysOpen env c))).2,
        ?_, fun h => absurd h hne, fun _ => ⟨?_, ?_⟩⟩
      · rw [k3]; simp [Frontend.tick, Frontend.setFdFe, ht]
      · rw [since_trans hpre.trace k1.trace, hsince]
      · intro hn
        exact ⟨(k4 hn).2, (k4 hn).1⟩
      · intro k hk
        obtain ⟨waits, hw1, hw2⟩ := k5 k hk
        refine ⟨waits, ?_, hw2⟩
        rw [hw1]
        simp [tuneFd, hfd, Frontend.setFdFe]
  · simp only [hfd, if_false, List.nil_append, false_and, not_false_eq_true, true_implies,
      false_implies, true_and]
    obtain ⟨k1, k2, k3, k4, k5⟩ := tuneAndWait_spec env (min (env.stopWatchInit c.calls) c.now) c
    refine ⟨k1, ?_, c.since (tuneAndWait env (min (env.stopWatchInit c.calls) c.now) c).2,
      rfl, ?_, ?_⟩
    · rw [k3, ht]; simp
    · intro hn
      exact ⟨(k4 hn).2, (k4 hn).1⟩
    · intro k hk
      obtain ⟨waits, hw1, hw2⟩ := k5 k hk
      refine ⟨waits, ?_, hw2⟩
      rw [hw1]
      simp [tuneFd, hfd]


/-! ## C9: the order of the device actions of a re-tune -/

theorem update_since (env : Env) (s : Frontend) :
    s.trace <+: (closeOnChange env s).trace ∧
    (closeOnChange env s).trace <+: (setupAndTune env (closeOnChange env s)).2.trace ∧
    (setupAndTune env (closeOnChange env s)).2.trace <+: (update env s).2.trace ∧
    s.since (update env s).2 =
      s.since (closeOnChange env s) ++
        ((closeOnChange env s).since (setupAndTune env (closeOnChange env s)).2 ++
          (setupAndTune env (closeOnChange env s)).2.since (update env s).2) := by
  have h1 : s.trace <+: (closeOnChange env s).trace := by
    cases hd : s.frontendData.changed with
    | false => rw [closeOnChange_clean env s hd]
    | true => exact (closeOnChange_spec env s hd).2.2.2.2.2.2.2.1
  have h2 : (closeOnChange env s).trace <+: (setupAndTune env (closeOnChange env s)).2.trace := by
    cases ht : (closeOnChange env s).tuned with
    | false => exact (setupAndTune_spec env _ ht).1.trace
    | true => rw [setupAndTune_tuned env _ ht]
  have h3 : (setupAndTune env (closeOnChange env s)).2.trace <+: (update env s).2.trace := by
    rw [update_snd]
    split
    · exact (updatePIDFilters_demuxOnly env _).trace
    · exact List.prefix_refl _
  refine ⟨h1, h2, h3, ?_⟩
  rw [since_trans h1 (h2.trans h3), since_trans h2 h3]

/-- C9.  When the device-data dirty flag is set, `update` clears it, and the
device actions of the call are, in this order: a `DMX_REMOVE_PID` for every
PID that was opened (in ascending order), the close of the demux (when it
was open), the close of the frontend (when it was open), a sleep of 5 ms,
the open of the frontend read-write, and then, when that open succeeded and
a delivery system is capable, the `tune` of the first capable delivery
system, followed only by queries of the frontend and demux actions.  So no
PID filter is opened and no tune is issued before the frontend has been
closed and reopened.  The tuned flag is cleared and is set again exactly
when the call returns true. -/
theorem update_dirty_order (env : Env) (s : Frontend) (h : s.frontendData.changed = true) :
    (update env s).2.frontendData.changed = false ∧
    (update env s).2.tuned = (update env s).1 ∧
    ∃ removes fd rest,
      Removals s.fd_dmx ((List.range MAX_PIDS).filter s.opened) removes ∧
      s.since (update env s).2 =
        removes ++ (if s.fd_dmx ≠ -1 then [Event.dmxClose s.fd_dmx] else []) ++
          (if s.fd_fe ≠ -1 then [Event.feClose s.fd_fe] else []) ++
          [Event.sleep 5, Event.feOpen false fd] ++ rest ∧
      (fd = -1 → rest = [] ∧ (update env s).1 = false) ∧
      (fd ≠ -1 →
        (firstCapable s.frontendData.delsys s.deliverySystem = none →
          rest = [] ∧ (update env s).1 = false) ∧
        (∀ k, firstCapable s.frontendData.delsys s.deliverySystem = some k →
          ∃ later, rest = Event.tune k fd (update env s).1 :: later ∧
            ∀ e ∈ later, e.isFeQuery = true ∨ e.isDemux = true)) := by
  obtain ⟨c1, c2, c3, c4, c5, c6, c7, c8, removes, c9, c10⟩ := closeOnChange_spec env s h
  obtain ⟨k1, k2, rest0, k3, k4, k5⟩ := setupAndTune_spec env (closeOnChange env s) c1
  obtain ⟨t1, t2, t3, t4⟩ := update_since env s
  have hfst := update_fst env s
  have hsnd := update_snd env s
  have hu := updatePIDFilters_demuxOnly env (setupAndTune env (closeOnChange env s)).2
  have hfd : tuneFd env (closeOnChange env s) = sysOpen env (closeOnChange env s) := by
    unfold tuneFd
    rw [if_pos c2]
  rw [if_pos c2] at k3
  rw [c5, c6, hfd, ← hfst] at k5
  rw [← hfst] at k4
  have hlast : (update env s).1 = false →
      (setupAndTune env (closeOnChange env s)).2.since (update env s).2 = [] := by
    intro hf
    rw [hfst] at hf
    rw [hsnd, hf]
    exact since_self _
  have hdemux : ∀ e ∈ (setupAndTune env (closeOnChange env s)).2.since (update env s).2,
      e.isDemux = true := by
    rw [hsnd]
    split
    · exact hu.events
    · rw [since_self]; simp
  refine ⟨?_, ?_, removes, sysOpen env (closeOnChange env s),
    rest0 ++ (setupAndTune env (closeOnChange env s)).2.since (update env s).2, c9, ?_, ?_, ?_⟩
  · rw [hsnd]
    split
    · rw [hu.dirty, k1.dirty, c4]
    · rw [k1.dirty, c4]
  · rw [hfst, hsnd]
    split
    · rename_i hr
      rw [hu.tuned, k2]
    · exact k2
  · rw [t4, c10, k3]
    simp
  · intro hfd1
    obtain ⟨e1, e2⟩ := k4 ⟨c2, hfd1⟩
    rw [e1, hlast e2]
    exact ⟨rfl, e2⟩
  · intro hfd1
    obtain ⟨n1, n2⟩ := k5 (fun hh => hfd1 hh.2)
    refine ⟨fun hn => ?_, fun k hk => ?_⟩
    · obtain ⟨e1, e2⟩ := n1 hn
      rw [e1, hlast e2]
      exact ⟨rfl, e2⟩
    · obtain ⟨waits, w1, w2⟩ := n2 k hk
      refine ⟨waits ++ (setupAndTune env (closeOnChange env s)).2.since (update env s).2, ?_, ?_⟩
      · rw [w1]; rfl
      · intro e he
        rcases List.mem_append.1 he with he | he
        · exact Or.inl (w2 e he)
        · exact Or.inr (hdemux e he)

/-- C9 at a tuned frontend on which a changed request was parsed. -/
theorem update_dirty_order_witness :
    Frontend.allPidsExample.frontendData.changed = true ∧
    (update (Env.const (some 4) true FE_HAS_LOCK true 0)
      Frontend.allPidsExample).2.frontendData.changed = false ∧
    (update (Env.const (some 4) true FE_HAS_LOCK true 0) Frontend.allPidsExample).2.tuned =
      (update (Env.const (some 4) true FE_HAS_LOCK true 0) Frontend.allPidsExample).1 :=
  ⟨rfl,
   (update_dirty_order (Env.const (some 4) true FE_HAS_LOCK true 0)
      Frontend.allPidsExample rfl).1,
   (update_dirty_order (Env.const (some 4) true FE_HAS_LOCK true 0)
      Frontend.allPidsExample rfl).2.1⟩

/-! ## C8: the desired PIDs after a re-tune -/

theorem Event.pid_of_isFeQuery (e : Event) (h : e.isFeQuery = true) : e.pid = none := by
  cases e <;> simp_all [Event.isFeQuery, Event.pid]

theorem Removals.mem {fd : Int} {pids : List Nat} {events : List Event}
    (h : Removals fd pids events) : ∀ e ∈ events, ∃ p ok, e = Event.removePid fd p ok := by
  unfold Removals at h
  induction h with
  | nil => intro e he; cases he
  | cons hx _ ih =>
    intro e he
    rcases List.mem_cons.1 he with he | he
    · obtain ⟨ok, hok⟩ := hx
      exact ⟨_, ok, he.trans hok⟩
    · exact ih e he

theorem closeOnChange_systems (env : Env) (s : Frontend) :
    (closeOnChange env s).frontendData.delsys = s.frontendData.delsys ∧
    (closeOnChange env s).deliverySystem = s.deliverySystem := by
  cases hd : s.frontendData.changed with
  | false => rw [closeOnChange_clean env s hd]; exact ⟨rfl, rfl⟩
  | true =>
    obtain ⟨_, _, _, _, c5, c6, _⟩ := closeOnChange_spec env s hd
    exact ⟨c5, c6⟩

/-- No delivery system is tuned while `update` closes the PIDs, the demux and
the frontend. -/
theorem closeOnChange_events (env : Env) (s : Frontend) :
    ∀ e ∈ s.since (closeOnChange env s), ∀ k fd ok, e ≠ Event.tune k fd ok := by
  cases hd : s.frontendData.changed with
  | false =>
    rw [closeOnChange_clean env s hd, since_self]
    intro e he
    cases he
  | true =>
    obtain ⟨_, _, _, _, _, _, _, _, removes, c9, c10⟩ := closeOnChange_spec env s hd
    rw [c10]
    intro e he k fd ok heq
    subst heq
    simp only [List.mem_append, List.mem_singleton] at he
    rcases he with ((he | he) | he) | he
    · obtain ⟨p, ok', hp⟩ := c9.mem _ he
      cases hp
    · split at he <;> simp at he
    · split at he <;> simp at he
    · cases he

/-- Every device action of `setupAndTune` is the open of the frontend, the
`tune` of the first capable delivery system, or a query of the frontend. -/
theorem setupAndTune_events (env : Env) (c : Frontend) :
    ∀ e ∈ c.since (setupAndTune env c).2,
      (e = Event.feOpen false (sysOpen env c) ∧ c.fd_fe = -1 ∧ c.tuned = false) ∨
      (∃ k, firstCapable c.frontendData.delsys c.deliverySystem = some k ∧
        e = Event.tune k (tuneFd env c) (setupAndTune env c).1 ∧
        ¬(c.fd_fe = -1 ∧ sysOpen env c = -1) ∧ c.tuned = false) ∨
      e.isFeQuery = true := by
  cases ht : c.tuned with
  | true =>
    rw [setupAndTune_tuned env c ht, since_self]
    intro e he
    cases he
  | false =>
    obtain ⟨_, _, rest, k3, k4, k5⟩ := setupAndTune_spec env c ht
    rw [k3]
    intro e he
    rcases List.mem_append.1 he with he | he
    · by_cases hfd : c.fd_fe = -1
      · rw [if_pos hfd] at he
        exact Or.inl ⟨List.mem_singleton.1 he, hfd, rfl⟩
      · rw [if_neg hfd] at he
        cases he
    · by_cases hA : c.fd_fe = -1 ∧ sysOpen env c = -1
      · rw [(k4 hA).1] at he
        cases he
      · obtain ⟨n1, n2⟩ := k5 hA
        cases hk : firstCapable c.frontendData.delsys c.deliverySystem with
        | none =>
          rw [(n1 hk).1] at he
          cases he
        | some k =>
          obtain ⟨waits, w1, w2⟩ := n2 k hk
          rw [w1] at he
          rcases List.mem_cons.1 he with he | he
          · exact Or.inr (Or.inl ⟨k, rfl, he, hA, rfl⟩)
          · exact Or.inr (Or.inr (w2 e he))

theorem update_tail_demux (env : Env) (s : Frontend) :
    ∀ e ∈ (setupAndTune env (closeOnChange env s)).2.since (update env s).2,
      e.isDemux = true := by
  rw [update_snd]
  split
  · exact (updatePIDFilters_demuxOnly env _).events
  · rw [since_self]; simp

/-- C6.  With `c` the state after the dirty-flag handling: `update` returns
false exactly when `c` is not tuned and either the open of the frontend
read-write fails (it is on the trace with result -1), or no registered
delivery system is capable of the current delivery system, or a `tune` was
called and returned false.  After a false return the frontend is not tuned,
the PID table is that of `c`, and no PID filter ioctl was issued since `c`.
Every `tune` issued during `update` is that of the first registered
delivery system capable of the current delivery system. -/
theorem update_false_iff (env : Env) (s : Frontend) :
    ((update env s).1 = false ↔
      (closeOnChange env s).tuned = false ∧
        (Event.feOpen false (-1) ∈ (closeOnChange env s).since (update env s).2 ∨
         firstCapable s.frontendData.delsys s.deliverySystem = none ∨
         ∃ k fd, Event.tune k fd false ∈ (closeOnChange env s).since (update env s).2)) ∧
    ((update env s).1 = false →
      (update env s).2.tuned = false ∧
      (update env s).2.frontendData.filter = (closeOnChange env s).frontendData.filter ∧
      ∀ e ∈ (closeOnChange env s).since (update env s).2, e.pid = none) ∧
    (∀ k fd ok, Event.tune k fd ok ∈ s.since (update env s).2 →
      firstCapable s.frontendData.delsys s.deliverySystem = some k) := by
  obtain ⟨t1, t2, t3, t4⟩ := update_since env s
  obtain ⟨y1, y2⟩ := closeOnChange_systems env s
  have hfst := update_fst env s
  have hev := setupAndTune_events env (closeOnChange env s)
  have hdm := update_tail_demux env s
  have hsplit : (closeOnChange env s).since (update env s).2 =
      (closeOnChange env s).since (setupAndTune env (closeOnChange env s)).2 ++
        (setupAndTune env (closeOnChange env s)).2.since (update env s).2 :=
    since_trans t2 t3
  rw [y1, y2] at hev
  refine ⟨⟨fun hf => ?_, fun hr => ?_⟩, fun hf => ?_, fun k fd ok hmem => ?_⟩
  · -- a false return has one of the three causes
    rw [hfst] at hf
    cases ht : (closeOnChange env s).tuned with
    | true =>
      rw [setupAndTune_tuned env _ ht] at hf
      cases hf
    | false =>
      refine ⟨rfl, ?_⟩
      obtain ⟨_, _, rest, k3, k4, k5⟩ := setupAndTune_spec env (closeOnChange env s) ht
      rw [y1, y2] at k5
      by_cases hA : (closeOnChange env s).fd_fe = -1 ∧ sysOpen env (closeOnChange env s) = -1
      · left
        rw [hsplit, k3, if_pos hA.1, hA.2]
        simp
      · obtain ⟨n1, n2⟩ := k5 hA
        cases hk : firstCapable s.frontendData.delsys s.deliverySystem with
        | none => exact Or.inr (Or.inl rfl)
        | some k =>
          obtain ⟨waits, w1, _⟩ := n2 k hk
          refine Or.inr (Or.inr ⟨k, tuneFd env (closeOnChange env s), ?_⟩)
          rw [hsplit, k3, w1, hf]
          simp
  · -- each of the three causes makes the return false
    obtain ⟨ht, hcause⟩ := hr
    rw [hfst]
    obtain ⟨_, _, rest, k3, k4, k5⟩ := setupAndTune_spec env (closeOnChange env s) ht
    rw [y1, y2] at k5
    by_cases hA : (closeOnChange env s).fd_fe = -1 ∧ sysOpen env (closeOnChange env s) = -1
    · exact (k4 hA).2
    · rcases hcause with hc | hc | ⟨k, fd, hc⟩
      · exfalso
        rw [hsplit] at hc
        rcases List.mem_append.1 hc with hc | hc
        · rcases hev _ hc with ⟨h1, h2, _⟩ | ⟨k, _, h1, _⟩ | h1
          · simp only [Event.feOpen.injEq, true_and] at h1
            exact hA ⟨h2, h1.symm⟩
          · cases h1
          · simp [Event.isFeQuery] at h1
        · have := hdm _ hc
          simp [Event.isDemux] at this
      · exact ((k5 hA).1 hc).2
      · rw [hsplit] at hc
        rcases List.mem_append.1 hc with hc | hc
        · rcases hev _ hc with ⟨h1, _⟩ | ⟨k', _, h1, _⟩ | h1
          · cases h1
          · simp only [Event.tune.injEq] at h1
            exact h1.2.2.symm
          · simp [Event.isFeQuery] at h1
        · have := hdm _ hc
          simp [Event.isDemux] at this
  · -- after a false return
    have hf' := hf
    rw [hfst] at hf'
    have hsnd : (update env s).2 = (setupAndTune env (closeOnChange env s)).2 := by
      rw [update_snd, hf']
      rfl
    cases ht : (closeOnChange env s).tuned with
    | true =>
      rw [setupAndTune_tuned env _ ht] at hf'
      cases hf'
    | false =>
      obtain ⟨k1, k2, _⟩ := setupAndTune_spec env (closeOnChange env s) ht
      rw [hsnd]
      refine ⟨by rw [k2]; exact hf', k1.filter, fun e he => ?_⟩
      rcases hev _ he with ⟨h1, _⟩ | ⟨k, _, h1, _⟩ | h1
      · rw [h1]; rfl
      · rw [h1]; rfl
      · exact Event.pid_of_isFeQuery e h1
  · -- the only tune is that of the first capable system
    rw [t4] at hmem
    rcases List.mem_append.1 hmem with hc | hc
    · exact absurd rfl (closeOnChange_events env s _ hc k fd ok)
    · rcases List.mem_append.1 hc with hc | hc
      · rcases hev _ hc with ⟨h1, _⟩ | ⟨k', hk', h1, _⟩ | h1
        · cases h1
        · simp only [Event.tune.injEq] at h1
          rw [h1.1]; exact hk'
        · simp [Event.isFeQuery] at h1
      · have := hdm _ hc
        simp [Event.isDemux] at this

/-! ## C7: a PID change on a tuned frontend -/

theorem closePid_of_not (env : Env) (i : Nat) (s : Frontend)
    (h : s.frontendData.filter.shouldPIDClose i = false) : closePid env i s = s := by
  unfold closePid
  simp [h]

theorem closePid_of_close (env : Env) (i : Nat) (s : Frontend)
    (h : s.frontendData.filter.shouldPIDClose i = true) :
    closePid env i s =
      filterIoctl env (fun fd ok => Event.removePid fd i ok) (fun t => t.setPIDClosed i) s := by
  unfold closePid
  simp [h]

theorem openPid_of_not (env : Env) (i : Nat) (s : Frontend)
    (h : s.frontendData.filter.shouldPIDOpen i = false) : openPid env i s = s := by
  unfold openPid
  simp [h]

theorem openPid_of_open (env : Env) (i : Nat) (s : Frontend)
    (h : s.frontendData.filter.shouldPIDOpen i = true) (hfd : s.fd_dmx ≠ -1) :
    openPid env i s =
      filterIoctl env (fun fd ok => Event.addPid fd i ok) (fun t => t.setPIDOpened i) s := by
  unfold openPid
  simp [h, hfd]

/-- One round of the loop of `updatePIDFilters` on an open demux. -/
theorem syncPid_step (env : Env) (i : Nat) (s : Frontend) (hfd : s.fd_dmx ≠ -1) :
    (syncPid env i s).fd_dmx = s.fd_dmx ∧
    s.since (syncPid env i s) =
      (if s.opened i && !s.desired i then
        [Event.removePid s.fd_dmx i (env.ioctlOk s.calls)]
      else if s.desired i && !s.opened i then
        [Event.addPid s.fd_dmx i (env.ioctlOk s.calls)]
      else []) ∧
    (syncPid env i s).opened i =
      (if s.opened i && !s.desired i then !env.ioctlOk s.calls
      else if s.desired i && !s.opened i then env.ioctlOk s.calls
      else s.opened i) := by
  unfold syncPid
  cases hc : s.frontendData.filter.shouldPIDClose i with
  | true =>
    have hc' : (s.opened i && !s.desired i) = true := hc
    have ho : (filterIoctl env (fun fd ok => Event.removePid fd i ok)
        (fun t => t.setPIDClosed i) s).frontendData.filter.shouldPIDOpen i = false := by
      rw [filterIoctl_filter]
      simp only [PidTable.shouldPIDClose, Bool.and_eq_true, Bool.not_eq_true'] at hc
      split <;> simp [PidTable.shouldPIDOpen, PidTable.setPIDClosed, hc.2]
    rw [closePid_of_close env i s hc, openPid_of_not env i _ ho, hc']
    refine ⟨filterIoctl_fd_dmx _ _ _ _, by rw [filterIoctl_since]; rfl, ?_⟩
    unfold Frontend.opened
    rw [filterIoctl_filter]
    simp only [PidTable.shouldPIDClose, Bool.and_eq_true, Bool.not_eq_true'] at hc
    cases env.ioctlOk s.calls <;> simp [PidTable.setPIDClosed, hc.1]
  | false =>
    have hc' : (s.opened i && !s.desired i) = false := hc
    rw [closePid_of_not env i s hc, hc']
    cases ho : s.frontendData.filter.shouldPIDOpen i with
    | false =>
      have ho' : (s.desired i && !s.opened i) = false := ho
      rw [openPid_of_not env i s ho, ho']
      exact ⟨rfl, by rw [since_self]; rfl, rfl⟩
    | true =>
      have ho' : (s.desired i && !s.opened i) = true := ho
      rw [openPid_of_open env i s ho hfd, ho']
      refine ⟨filterIoctl_fd_dmx _ _ _ _, by rw [filterIoctl_since]; rfl, ?_⟩
      unfold Frontend.opened
      rw [filterIoctl_filter]
      simp only [PidTable.shouldPIDOpen, Bool.and_eq_true, Bool.not_eq_true'] at ho
      cases env.ioctlOk s.calls <;> simp [PidTable.setPIDOpened, ho.2]

theorem IsSyncEvent.widen {fd : Int} {o d : Nat → Bool} {n m : Nat} {e : Event}
    (h : IsSyncEvent fd o d n e) (hnm : n ≤ m) : IsSyncEvent fd o d m e := by
  obtain ⟨p, ok, hp, hh⟩ := h
  exact ⟨p, ok, by omega, hh⟩

theorem IsSyncEvent.pid_lt {fd : Int} {o d : Nat → Bool} {n : Nat} {e : Event}
    (h : IsSyncEvent fd o d n e) : ∃ p, p < n ∧ e.pid = some p := by
  obtain ⟨p, ok, hp, (⟨he, _⟩ | ⟨he, _⟩)⟩ := h
  · exact ⟨p, hp, by rw [he]; rfl⟩
  · exact ⟨p, hp, by rw [he]; rfl⟩

/-- The loop of `updatePIDFilters` on an open demux. -/
theorem syncLoop_spec (env : Env) (n : Nat) (s : Frontend) (hfd : s.fd_dmx ≠ -1) :
    (forUpTo (syncPid env) n s).fd_dmx = s.fd_dmx ∧
    (∀ q, n ≤ q → (forUpTo (syncPid env) n s).frontendData.filter.data q =
      s.frontendData.filter.data q) ∧
    (∀ e ∈ s.since (forUpTo (syncPid env) n s),
      IsSyncEvent s.fd_dmx s.opened s.desired n e) ∧
    (∀ p, p < n → s.opened p = true → s.desired p = true →
      (forUpTo (syncPid env) n s).opened p = true) ∧
    (∀ p, p < n → s.desired p = true → s.opened p = false →
      ∃ ok, (s.since (forUpTo (syncPid env) n s)).filter (fun e => e.pid == some p) =
          [Event.addPid s.fd_dmx p ok] ∧
        (forUpTo (syncPid env) n s).opened p = ok) := by
  induction n with
  | zero =>
    refine ⟨rfl, fun _ _ => rfl, ?_, fun p hp => absurd hp (Nat.not_lt_zero p),
      fun p hp => absurd hp (Nat.not_lt_zero p)⟩
    show ∀ e ∈ s.since s, _
    rw [since_self]
    intro e he
    cases he
  | succ k ih =>
    obtain ⟨i1, i2, i3, i4, i5⟩ := ih
    have hd := forUpTo_demuxOnly (syncPid env) (syncPid_demuxOnly env) k s
    have hd' := syncPid_demuxOnly env k (forUpTo (syncPid env) k s)
    have hts := syncPid_tableStep env k (forUpTo (syncPid env) k s)
    obtain ⟨s1, s2, s3⟩ := syncPid_step env k (forUpTo (syncPid env) k s) (by rw [i1]; exact hfd)
    have hok : (forUpTo (syncPid env) k s).opened k = s.opened k := by
      unfold Frontend.opened; rw [i2 k (le_refl k)]
    have hdk : (forUpTo (syncPid env) k s).desired k = s.desired k := by
      unfold Frontend.desired; rw [i2 k (le_refl k)]
    rw [hok, hdk, i1] at s2
    rw [hok, hdk] at s3
    have hsince : s.since (syncPid env k (forUpTo (syncPid env) k s)) =
        s.since (forUpTo (syncPid env) k s) ++
          (forUpTo (syncPid env) k s).since (syncPid env k (forUpTo (syncPid env) k s)) :=
      since_trans hd.trace hd'.trace
    have hnew : ∀ e ∈ (forUpTo (syncPid env) k s).since
        (syncPid env k (forUpTo (syncPid env) k s)),
        IsSyncEvent s.fd_dmx s.opened s.desired (k + 1) e ∧ e.pid = some k := by
      intro e he
      rw [s2] at he
      cases ho : s.opened k <;> cases hdes : s.desired k <;>
        simp only [ho, hdes, Bool.and_true, Bool.and_false, Bool.not_true, Bool.not_false,
          Bool.false_eq_true, if_false, if_true, List.mem_singleton, List.not_mem_nil,
          Bool.true_and, Bool.and_self] at he
      · subst he
        exact ⟨⟨k, _, Nat.lt_succ_self k, Or.inr ⟨rfl, hdes, ho⟩⟩, rfl⟩
      · subst he
        exact ⟨⟨k, _, Nat.lt_succ_self k, Or.inl ⟨rfl, ho, hdes⟩⟩, rfl⟩
    refine ⟨?_, ?_, ?_, ?_, ?_⟩
    · show (syncPid env k (forUpTo (syncPid env) k s)).fd_dmx = s.fd_dmx
      rw [s1, i1]
    · intro q hq
      show (syncPid env k (forUpTo (syncPid env) k s)).frontendData.filter.data q = _
      rw [hts.other q (by omega), i2 q (by omega)]
    · show ∀ e ∈ s.since (syncPid env k (forUpTo (syncPid env) k s)), _
      rw [hsince]
      intro e he
      rcases List.mem_append.1 he with he | he
      · exact (i3 e he).widen (Nat.le_succ k)
      · exact (hnew e he).1
    · intro p hp ho hdes
      show (syncPid env k (forUpTo (syncPid env) k s)).opened p = true
      by_cases hpk : p = k
      · subst hpk
        rw [s3, ho, hdes]
        simp
      · have := i4 p (by omega) ho hdes
        unfold Frontend.opened at this ⊢
        rw [hts.other p hpk]
        exact this
    · intro p hp hdes ho
      show ∃ ok, (s.since (syncPid env k (forUpTo (syncPid env) k s))).filter _ = _ ∧
        (syncPid env k (forUpTo (syncPid env) k s)).opened p = ok
      rw [hsince, List.filter_append]
      by_cases hpk : p = k
      · subst hpk
        have hold : (s.since (forUpTo (syncPid env) p s)).filter
            (fun e => e.pid == some p) = [] := by
          rw [List.filter_eq_nil_iff]
          intro e he
          obtain ⟨q, hq, hpid⟩ := (i3 e he).pid_lt
          rw [hpid]
          simp only [beq_iff_eq, Option.some.injEq]
          omega
        refine ⟨env.ioctlOk (forUpTo (syncPid env) p s).calls, ?_, ?_⟩
        · rw [hold, s2, ho, hdes]
          simp [Event.pid]
        · rw [s3, ho, hdes]
          simp
      · obtain ⟨ok, h1, h2⟩ := i5 p (by omega) hdes ho
        have hnone : ((forUpTo (syncPid env) k s).since
            (syncPid env k (forUpTo (syncPid env) k s))).filter
            (fun e => e.pid == some p) = [] := by
          rw [List.filter_eq_nil_iff]
          intro e he
          rw [(hnew e he).2]
          simp only [beq_iff_eq, Option.some.injEq]
          omega
        refine ⟨ok, by rw [h1, hnone]; rfl, ?_⟩
        unfold Frontend.opened at h2 ⊢
        rw [hts.other p hpk]
        exact h2

theorem update_of_tuned_clean (env : Env) (s : Frontend) (ht : s.tuned = true)
    (hd : s.frontendData.changed = false) :
    update env s = (true, updatePIDFilters env s) := by
  unfold update
  simp [closeOnChange_clean env s hd, setupAndTune_tuned env s ht]

theorem reset_fd_dmx (s : Frontend) :
    (s.mapFilter PidTable.resetPIDTableChanged).fd_dmx = s.fd_dmx := rfl

theorem reset_opened (s : Frontend) :
    (s.mapFilter PidTable.resetPIDTableChanged).opened = s.opened := rfl

theorem reset_desired (s : Frontend) :
    (s.mapFilter PidTable.resetPIDTableChanged).desired = s.desired := rfl

theorem reset_since (s t : Frontend) :
    (s.mapFilter PidTable.resetPIDTableChanged).since t = s.since t := rfl

/-- C7.  Mid-stream PID change: on a tuned frontend whose dirty flag is
clear, whose PID table-changed flag is set and whose demux is already open
(the claim's "already open demux": the stream is running), `update`
returns true and performs no re-tune: the frontend stays tuned, the
frontend and demux descriptors are unchanged, and every device action of the
call is a `DMX_REMOVE_PID` (for a PID that was opened and is no longer
desired) or a `DMX_ADD_PID` (for a PID that is desired and was not opened) on
the open demux.  So a PID that is opened and still desired receives no
ioctl, and it stays opened; for every newly desired PID exactly one ioctl
is issued, a `DMX_ADD_PID` on the open demux, and the PID is opened when
that ioctl succeeds. -/
theorem update_midstream_pid_change (env : Env) (s : Frontend) (ht : s.tuned = true)
    (hd : s.frontendData.changed = false) (hc : s.frontendData.filter.changed = true)
    (hfd : s.fd_dmx ≠ -1) :
    (update env s).1 = true ∧
    (update env s).2.tuned = true ∧
    (update env s).2.fd_fe = s.fd_fe ∧
    (update env s).2.fd_dmx = s.fd_dmx ∧
    (∀ e ∈ s.since (update env s).2, IsSyncEvent s.fd_dmx s.opened s.desired MAX_PIDS e) ∧
    (∀ p, p < MAX_PIDS → s.opened p = true → s.desired p = true →
      (update env s).2.opened p = true) ∧
    (∀ p, p < MAX_PIDS → s.desired p = true → s.opened p = false →
      ∃ ok, (s.since (update env s).2).filter (fun e => e.pid == some p) =
          [Event.addPid s.fd_dmx p ok] ∧
        (update env s).2.opened p = ok) := by
  have hu := updatePIDFilters_demuxOnly env s
  obtain ⟨i1, _, i3, i4, i5⟩ := syncLoop_spec env MAX_PIDS
    (s.mapFilter PidTable.resetPIDTableChanged) (by rw [reset_fd_dmx]; exact hfd)
  rw [reset_fd_dmx, reset_opened, reset_desired, reset_since,
    ← updatePIDFilters_run env s hc ht] at i3 i5
  rw [reset_fd_dmx, ← updatePIDFilters_run env s hc ht] at i1
  rw [reset_opened, reset_desired, ← updatePIDFilters_run env s hc ht] at i4
  rw [update_of_tuned_clean env s ht hd]
  exact ⟨rfl, hu.tuned.trans ht, hu.fd_fe, i1, i3, i4, i5⟩

/-- C7 at a tuned frontend with PID 0 opened and PIDs 0, 16 and 17 desired:
PID 0 stays opened. -/
theorem update_midstream_pid_change_witness :
    (Frontend.example true 5 false true (fun q => q == 0 || q == 16 || q == 17)
      (fun q => q == 0)).tuned = true ∧
    (Frontend.example true 5 false true (fun q => q == 0 || q == 16 || q == 17)
      (fun q => q == 0)).fd_dmx ≠ -1 ∧
    (update (Env.const (some 5) true FE_HAS_LOCK true 0)
      (Frontend.example true 5 false true (fun q => q == 0 || q == 16 || q == 17)
        (fun q => q == 0))).2.opened 0 = true :=
  ⟨rfl, by decide,
   (update_midstream_pid_change (Env.const (some 5) true FE_HAS_LOCK true 0)
      (Frontend.example true 5 false true (fun q => q == 0 || q == 16 || q == 17)
        (fun q => q == 0)) rfl rfl rfl (by decide)).2.2.2.2.2.1 0 (by decide) rfl rfl⟩

/-- Once the first round of the loop has left the demux open, the later
rounds keep it and only issue ioctls for their own PIDs. -/
theorem syncLoop_after_first (env : Env) (n : Nat) (s : Frontend)
    (h1 : (syncPid env 0 s).fd_dmx ≠ -1) (hn : 1 ≤ n) :
    (syncPid env 0 s).trace <+: (forUpTo (syncPid env) n s).trace ∧
    (forUpTo (syncPid env) n s).fd_dmx = (syncPid env 0 s).fd_dmx ∧
    ∀ e ∈ (syncPid env 0 s).since (forUpTo (syncPid env) n s),
      ∃ p, 1 ≤ p ∧ e.pid = some p := by
  induction n with
  | zero => omega
  | succ k ih =>
    cases k with
    | zero =>
      refine ⟨List.prefix_refl _, rfl, ?_⟩
      show ∀ e ∈ (syncPid env 0 s).since (syncPid env 0 s), _
      rw [since_self]
      intro e he
      cases he
    | succ j =>
      obtain ⟨i1, i2, i3⟩ := ih (by omega)
      have hd' := syncPid_demuxOnly env (j + 1) (forUpTo (syncPid env) (j + 1) s)
      obtain ⟨s1, s2, _⟩ := syncPid_step env (j + 1) (forUpTo (syncPid env) (j + 1) s)
        (by rw [i2]; exact h1)
      refine ⟨i1.trans hd'.trace, ?_, ?_⟩
      · show (syncPid env (j + 1) (forUpTo (syncPid env) (j + 1) s)).fd_dmx = _
        rw [s1, i2]
      · show ∀ e ∈ (syncPid env 0 s).since
          (syncPid env (j + 1) (forUpTo (syncPid env) (j + 1) s)), _
        rw [since_trans i1 hd'.trace]
        intro e he
        rcases List.mem_append.1 he with he | he
        · exact i3 e he
        · rw [s2] at he
          refine ⟨j + 1, by omega, ?_⟩
          split at he
          · rw [List.mem_singleton.1 he]; rfl
          · split at he
            · rw [List.mem_singleton.1 he]; rfl
            · cases he

theorem firstPidExample_first_round :
    (syncPid (Env.const (some 5) true FE_HAS_LOCK true 0) 0
      (Frontend.firstPidExample.mapFilter PidTable.resetPIDTableChanged)).fd_dmx = 5 ∧
    Frontend.firstPidExample.since
      (syncPid (Env.const (some 5) true FE_HAS_LOCK true 0) 0
        (Frontend.firstPidExample.mapFilter PidTable.resetPIDTableChanged)) =
      [Event.dmxOpen 5, Event.setBufferSize 5 18874368 true, Event.setPesFilter 5 0 true] :=
  ⟨rfl, rfl⟩

/-- Before the stream runs, the demux is still closed.  A tuned frontend,
dirty flag clear, table-changed flag set, PID 0 newly desired, the demux not
yet open: `update` opens the demux (its descriptor changes from -1 to 5) and
installs PID 0 with `DMX_SET_PES_FILTER`; no `DMX_ADD_PID` is issued for
PID 0. -/
theorem update_opens_closed_demux :
    Frontend.firstPidExample.tuned = true ∧
    Frontend.firstPidExample.frontendData.changed = false ∧
    Frontend.firstPidExample.frontendData.filter.changed = true ∧
    Frontend.firstPidExample.desired 0 = true ∧
    Frontend.firstPidExample.opened 0 = false ∧
    Event.dmxOpen 5 ∈ Frontend.firstPidExample.since
      (update (Env.const (some 5) true FE_HAS_LOCK true 0) Frontend.firstPidExample).2 ∧
    Event.setPesFilter 5 0 true ∈ Frontend.firstPidExample.since
      (update (Env.const (some 5) true FE_HAS_LOCK true 0) Frontend.firstPidExample).2 ∧
    (update (Env.const (some 5) true FE_HAS_LOCK true 0) Frontend.firstPidExample).2.fd_dmx = 5 ∧
    ∀ fd ok, Event.addPid fd 0 ok ∉ Frontend.firstPidExample.since
      (update (Env.const (some 5) true FE_HAS_LOCK true 0) Frontend.firstPidExample).2 := by
  obtain ⟨f1, f2⟩ := firstPidExample_first_round
  obtain ⟨a1, a2, a3⟩ := syncLoop_after_first (Env.const (some 5) true FE_HAS_LOCK true 0)
    MAX_PIDS (Frontend.firstPidExample.mapFilter PidTable.resetPIDTableChanged)
    (by rw [f1]; decide) (by decide)
  rw [← updatePIDFilters_run _ Frontend.firstPidExample rfl rfl] at a1 a2 a3
  have hpre : Frontend.firstPidExample.trace <+:
      (syncPid (Env.const (some 5) true FE_HAS_LOCK true 0) 0
        (Frontend.firstPidExample.mapFilter PidTable.resetPIDTableChanged)).trace :=
    ((DemuxOnly.mapFilter _ _).andThen (syncPid_demuxOnly _ 0 _)).trace
  have hs := since_trans hpre a1
  rw [f2] at hs
  have hupd : (update (Env.const (some 5) true FE_HAS_LOCK true 0) Frontend.firstPidExample).2 =
      updatePIDFilters (Env.const (some 5) true FE_HAS_LOCK true 0) Frontend.firstPidExample := by
    rw [update_of_tuned_clean _ Frontend.firstPidExample rfl rfl]
  rw [hupd]
  refine ⟨rfl, rfl, rfl, rfl, rfl, ?_, ?_, ?_, ?_⟩
  · rw [hs]; simp
  · rw [hs]; simp
  · rw [a2, f1]
  · intro fd ok hmem
    rw [hs] at hmem
    rcases List.mem_append.1 hmem with hmem | hmem
    · simp at hmem
    · obtain ⟨p, hp, hpid⟩ := a3 _ hmem
      simp only [Event.pid, Option.some.injEq] at hpid
      omega

/-! ## C12 and C13: a send that fails -/

theorem writeDataToOutputDevice_client (ticks : Nat) (sendOk : Bool) (t : StreamThreadRtp)
    (buffer : PacketBuffer) (client : StreamClient) :
    (writeDataToOutputDevice ticks sendOk t buffer client).client =
      if sendOk = false ∧ client.selfDestructing = false then client.selfDestruct else client := by
  cases sendOk <;> cases h : client.selfDestructing <;> simp [writeDataToOutputDevice, h]

theorem writeDataToOutputDevice_trace (ticks : Nat) (sendOk : Bool) (t : StreamThreadRtp)
    (buffer : PacketBuffer) (client : StreamClient) :
    ∃ timestamp header,
      (writeDataToOutputDevice ticks sendOk t buffer client).thread.trace =
        t.trace ++ [RtpEvent.addRtpData buffer.size timestamp,
                    RtpEvent.sendDataTo header (buffer.size + RTP_HEADER_LEN) sendOk] :=
  ⟨_, _, rfl⟩

theorem writeAll_of_selfDestructing (calls : List WriteCall) (t : StreamThreadRtp)
    (client : StreamClient) (h : client.selfDestructing = true) :
    (writeAll calls (t, client)).2 = client := by
  induction calls generalizing t with
  | nil => rfl
  | cons c rest ih =>
    rw [writeAll]
    dsimp only
    rw [writeDataToOutputDevice_client, if_neg (by simp [h])]
    exact ih _

theorem writeAll_take (calls : List WriteCall) (t : StreamThreadRtp) (client : StreamClient)
    (hlive : client.selfDestructing = false) (hfail : firstFailure calls < calls.length) (k : Nat) :
    (writeAll (calls.take k) (t, client)).2.selfDestructCalls =
      client.selfDestructCalls + (if k ≤ firstFailure calls then 0 else 1) := by
  induction calls generalizing t k with
  | nil => simp at hfail
  | cons c rest ih =>
    cases k with
    | zero => simp [writeAll]
    | succ k =>
      rw [List.take_succ_cons, writeAll]
      dsimp only
      rw [writeDataToOutputDevice_client]
      cases hc : c.sendOk with
      | true =>
        have hff : firstFailure (c :: rest) = firstFailure rest + 1 := by
          simp [firstFailure, List.takeWhile_cons, hc]
        rw [hff] at hfail ⊢
        rw [if_neg (by simp), ih _ (by simpa using hfail) k]
        simp
      | false =>
        have hff : firstFailure (c :: rest) = 0 := by
          simp [firstFailure, List.takeWhile_cons, hc]
        rw [hff, if_pos ⟨rfl, hlive⟩, writeAll_of_selfDestructing _ _ _ rfl]
        simp [StreamClient.selfDestruct]

theorem firstFailure_lt (calls : List WriteCall) (h : ∃ c ∈ calls, c.sendOk = false) :
    firstFailure calls < calls.length ∧
      ∃ c, calls.get? (firstFailure calls) = some c ∧ c.sendOk = false := by
  induction calls with
  | nil => simp at h
  | cons c rest ih =>
    cases hc : c.sendOk with
    | true =>
      have hff : firstFailure (c :: rest) = firstFailure rest + 1 := by
        simp [firstFailure, List.takeWhile_cons, hc]
      have h' : ∃ c ∈ rest, c.sendOk = false := by
        obtain ⟨x, hx, hxf⟩ := h
        rcases List.mem_cons.1 hx with rfl | hx
        · rw [hc] at hxf; cases hxf
        · exact ⟨x, hx, hxf⟩
      obtain ⟨h1, h2⟩ := ih h'
      rw [hff]
      exact ⟨by simpa using h1, by simpa using h2⟩
    | false =>
      have hff : firstFailure (c :: rest) = 0 := by
        simp [firstFailure, List.takeWhile_cons, hc]
      rw [hff]
      exact ⟨by simp, c, rfl, hc⟩

/-- C12, amended: over a sequence of calls of `writeDataToOutputDevice` for a
client that is not self-destructing when the sequence starts, in which at least
one `sendDataTo` fails, `selfDestruct` is called exactly once, by the call
with the first failing send: after the first `k` calls the number of
`selfDestruct` calls has grown by 0 when `k` is at most the position of the
first failing send, and by 1 after that. -/
theorem selfDestruct_called_once (calls : List WriteCall) (t : StreamThreadRtp)
    (client : StreamClient) (hlive : client.selfDestructing = false)
    (hfail : ∃ c ∈ calls, c.sendOk = false) :
    (writeAll calls (t, client)).2.selfDestructCalls = client.selfDestructCalls + 1 ∧
    (∃ c, calls.get? (firstFailure calls) = some c ∧ c.sendOk = false) ∧
    ∀ k, (writeAll (calls.take k) (t, client)).2.selfDestructCalls =
      client.selfDestructCalls + (if k ≤ firstFailure calls then 0 else 1) := by
  obtain ⟨h1, h2⟩ := firstFailure_lt calls hfail
  refine ⟨?_, h2, writeAll_take calls t client hlive h1⟩
  have h := writeAll_take calls t client hlive h1 calls.length
  rw [List.take_length, if_neg (by omega)] at h
  exact h

/-- A sequence of three calls on a fresh client whose second and third send
fail: `selfDestruct` is called once. -/
theorem selfDestruct_called_once_witness :
    (writeAll [⟨0, true, PacketBuffer.zero⟩, ⟨1, false, PacketBuffer.zero⟩,
               ⟨2, false, PacketBuffer.zero⟩] (⟨0, []⟩, StreamClient.fresh)).2.selfDestructCalls
      = StreamClient.fresh.selfDestructCalls + 1 :=
  (selfDestruct_called_once
    [⟨0, true, PacketBuffer.zero⟩, ⟨1, false, PacketBuffer.zero⟩, ⟨2, false, PacketBuffer.zero⟩]
    ⟨0, []⟩ StreamClient.fresh rfl ⟨⟨1, false, PacketBuffer.zero⟩, by simp, rfl⟩).1

/-- C12 as stated fails: the first failing send on a fresh client marks it
self-destructing after one `selfDestruct` call; the sequence that consists
of the next call for this client, whose send fails too, contains a failing
send but no call of `selfDestruct`: the number of calls stays 1. -/
theorem selfDestruct_not_called_counterexample :
    (writeDataToOutputDevice 0 false ⟨0, []⟩ PacketBuffer.zero StreamClient.fresh).client =
      ⟨true, 1⟩ ∧
    (⟨1, false, PacketBuffer.zero⟩ : WriteCall).sendOk = false ∧
    (writeAll [⟨1, false, PacketBuffer.zero⟩] (⟨1, []⟩, ⟨true, 1⟩)).2.selfDestructCalls =
      (⟨true, 1⟩ : StreamClient).selfDestructCalls ∧
    (writeAll [⟨1, false, PacketBuffer.zero⟩] (⟨1, []⟩, ⟨true, 1⟩)).2.selfDestructCalls ≠
      (⟨true, 1⟩ : StreamClient).selfDestructCalls + 1 := by
  refine ⟨by decide, rfl, by decide, by decide⟩

/-- C13 as stated fails: the first send on a fresh client fails and marks it
self-destructing, and the next call still performs its `sendDataTo`. -/
theorem send_not_suppressed_counterexample :
    (writeDataToOutputDevice 0 false ⟨0, []⟩ PacketBuffer.zero
      StreamClient.fresh).client.selfDestructing = true ∧
    ((writeDataToOutputDevice 1 true
      (writeDataToOutputDevice 0 false ⟨0, []⟩ PacketBuffer.zero StreamClient.fresh).thread
      PacketBuffer.zero
      (writeDataToOutputDevice 0 false ⟨0, []⟩ PacketBuffer.zero StreamClient.fresh).client
      ).thread.trace.drop 2) =
      [RtpEvent.addRtpData 1316 90,
       RtpEvent.sendDataTo [0, 0, 0, 2, 0, 0, 0, 90, 0, 0, 0, 0] 1328 true] := by
  constructor
  · rfl
  · decide

/-- C13, amended: a call of `writeDataToOutputDevice` for a client that is
already self-destructing still performs exactly one `sendDataTo`; what is
left out is the second `selfDestruct`: the client stays as it is, whether
the send fails or not. -/
theorem send_after_selfDestruct (ticks : Nat) (sendOk : Bool) (t : StreamThreadRtp)
    (buffer : PacketBuffer) (client : StreamClient) (h : client.selfDestructing = true) :
    (writeDataToOutputDevice ticks sendOk t buffer client).client = client ∧
    (∃ timestamp header,
      (writeDataToOutputDevice ticks sendOk t buffer client).thread.trace =
        t.trace ++ [RtpEvent.addRtpData buffer.size timestamp,
                    RtpEvent.sendDataTo header (buffer.size + RTP_HEADER_LEN) sendOk]) ∧
    ((writeDataToOutputDevice ticks sendOk t buffer client).thread.trace.drop
      t.trace.length).countP RtpEvent.isSend = 1 := by
  refine ⟨?_, writeDataToOutputDevice_trace ticks sendOk t buffer client, ?_⟩
  · rw [writeDataToOutputDevice_client, if_neg (by simp [h])]
  · obtain ⟨ts, hd, he⟩ := writeDataToOutputDevice_trace ticks sendOk t buffer client
    rw [he, List.drop_left]
    rfl

/-- A failing send on a self-destructing client: the send is performed, the
client is not touched. -/
theorem send_after_selfDestruct_witness :
    (writeDataToOutputDevice 7 false ⟨3, []⟩ PacketBuffer.zero ⟨true, 1⟩).client = ⟨true, 1⟩ :=
  (send_after_selfDestruct 7 false ⟨3, []⟩ PacketBuffer.zero ⟨true, 1⟩ rfl).1

/-! ## C14: the configured DVR buffer size -/

theorem doFromXML_dvrBufferSizeMB (v : Int) (w : Option Int) (s : Frontend) :
    (doFromXML (some v) w s).dvrBufferSizeMB =
      if toUInt32 v < MAX_DVR_BUFFER_SIZE then toUInt32 v else DEFAULT_DVR_BUFFER_SIZE := by
  cases w <;> rfl

theorem doFromXML_fd_dmx (v w : Option Int) (s : Frontend) :
    (doFromXML v w s).fd_dmx = s.fd_dmx := by
  cases v <;> cases w <;> rfl

theorem doFromXML_lt (v : Int) (w : Option Int) (s : Frontend) :
    (doFromXML (some v) w s).dvrBufferSizeMB < MAX_DVR_BUFFER_SIZE := by
  rw [doFromXML_dvrBufferSizeMB]
  split
  · assumption
  · decide

/-- C14: what the code does with a `dvrbuffer` value `v`: a value below 180
is stored unchanged, for every other value the default of 18 MiB is stored,
so `v = 180` is stored as 18 and not as `min(v, 180) = 180`.  The size
passed to `DMX_SET_BUFFER_SIZE` is the stored number times 1048576, which
does not wrap around in 32 bits. -/
theorem doFromXML_dvrbuffer (env : Env) (v : Int) (w : Option Int) (s : Frontend) :
    (doFromXML (some v) w s).dvrBufferSizeMB =
      (if toUInt32 v < 180 then toUInt32 v else 18) ∧
    (doFromXML (some 180) w s).dvrBufferSizeMB = 18 ∧
    (doFromXML (some 180) w s).dvrBufferSizeMB ≠ min (toUInt32 180) 180 ∧
    (0 < (doFromXML (some v) w s).dvrBufferSizeMB →
      (doFromXML (some v) w s).since (setDmxBufferSize env (doFromXML (some v) w s)) =
        [Event.setBufferSize s.fd_dmx ((doFromXML (some v) w s).dvrBufferSizeMB * 1048576)
          (env.ioctlOk (doFromXML (some v) w s).calls)]) := by
  refine ⟨doFromXML_dvrBufferSizeMB v w s, ?_, ?_, ?_⟩
  · rw [doFromXML_dvrBufferSizeMB]; rfl
  · rw [doFromXML_dvrBufferSizeMB]; decide
  · intro hpos
    have hlt := doFromXML_lt v w s
    have hmod : ((doFromXML (some v) w s).dvrBufferSizeMB * 1024 * 1024) % 2 ^ 32 =
        (doFromXML (some v) w s).dvrBufferSizeMB * 1048576 := by
      rw [Nat.mod_eq_of_lt]
      · omega
      · simp only [MAX_DVR_BUFFER_SIZE] at hlt; omega
    simp only [setDmxBufferSize, gt_iff_lt, hpos, if_true, hmod, Frontend.since, Frontend.tick,
      List.drop_left, doFromXML_fd_dmx]

/-! ## C16: one read from the demux -/

theorem returned_le (a : ReadAnswer) (count : Nat) : a.returned count ≤ count := by
  cases a with
  | error => simp [ReadAnswer.returned]; omega
  | data bytes =>
    simp only [ReadAnswer.returned, List.length_take]
    exact_mod_cast Nat.min_le_left _ _

theorem store_of_nonpos (a : ReadAnswer) (count : Nat) (b : PacketBuffer)
    (h : a.returned count ≤ 0) : b.store a count = b := by
  cases a with
  | error => rfl
  | data bytes =>
    have h0 : (bytes.take count).length = 0 := by
      simp only [ReadAnswer.returned] at h
      exact_mod_cast Nat.le_zero.1 (by exact_mod_cast h)
    simp only [PacketBuffer.store, h0]
    cases b
    congr 1
    funext j
    exact if_neg (by omega)

theorem readFullTSPacket_of_nonpos (answer : ReadAnswer) (buffer : PacketBuffer) (s : Frontend)
    (h : answer.returned buffer.getAmountOfBytesToWrite ≤ 0) :
    readFullTSPacket answer buffer s =
      { ret := false, buffer := buffer,
        events := [StreamEvent.read s.fd_dmx buffer.getAmountOfBytesToWrite
          (answer.returned buffer.getAmountOfBytesToWrite)] } := by
  simp only [readFullTSPacket, gt_iff_lt, if_neg (not_lt.2 h), store_of_nonpos _ _ _ h]

theorem readFullTSPacket_of_pos (answer : ReadAnswer) (buffer : PacketBuffer) (s : Frontend)
    (h : 0 < answer.returned buffer.getAmountOfBytesToWrite) :
    readFullTSPacket answer buffer s =
      { ret := ((buffer.store answer buffer.getAmountOfBytesToWrite).addAmountOfBytesWritten
                  (answer.returned buffer.getAmountOfBytesToWrite).toNat).full,
        buffer := (buffer.store answer buffer.getAmountOfBytesToWrite).addAmountOfBytesWritten
                  (answer.returned buffer.getAmountOfBytesToWrite).toNat,
        events := StreamEvent.read s.fd_dmx buffer.getAmountOfBytesToWrite
                    (answer.returned buffer.getAmountOfBytesToWrite) ::
          (if ((buffer.store answer buffer.getAmountOfBytesToWrite).addAmountOfBytesWritten
                  (answer.returned buffer.getAmountOfBytesToWrite).toNat).full
           then [StreamEvent.addFilterData
             ((buffer.store answer buffer.getAmountOfBytesToWrite).addAmountOfBytesWritten
                  (answer.returned buffer.getAmountOfBytesToWrite).toNat).written]
           else []) } := by
  simp only [readFullTSPacket, gt_iff_lt, if_pos h]
  split <;> rename_i hf <;> simp [hf]

theorem store_written (a : ReadAnswer) (count : Nat) (b : PacketBuffer) :
    (b.store a count).written = b.written ∧ (b.store a count).size = b.size := by
  cases a <;> exact ⟨rfl, rfl⟩

theorem store_bytes (bytes : List Nat) (count : Nat) (b : PacketBuffer) (j : Nat) :
    (b.store (ReadAnswer.data bytes) count).bytes j =
      if RTP_HEADER_LEN + b.written ≤ j ∧
          j < RTP_HEADER_LEN + b.written + (bytes.take count).length
      then (bytes.take count).getD (j - (RTP_HEADER_LEN + b.written)) 0 else b.bytes j := rfl

/-- C16 as stated fails: on a frontend with an open demux (descriptor 5), a
buffer that is already full when `readFullTSPacket` is called asks for 0
bytes, the read returns 0 (or an error), and the call returns false
although the buffer is full when it completes. -/
theorem readFullTSPacket_full_counterexample :
    (readFullTSPacket (ReadAnswer.data [71])
      { bytes := fun _ => 0, size := 1316, written := 1316 }
      Frontend.allPidsExample).ret = false ∧
    (readFullTSPacket (ReadAnswer.data [71])
      { bytes := fun _ => 0, size := 1316, written := 1316 }
      Frontend.allPidsExample).buffer.full = true ∧
    (readFullTSPacket (ReadAnswer.data [71])
      { bytes := fun _ => 0, size := 1316, written := 1316 }
      Frontend.allPidsExample).events = [StreamEvent.read 5 0 0] ∧
    (readFullTSPacket ReadAnswer.error
      { bytes := fun _ => 0, size := 1316, written := 1316 }
      Frontend.allPidsExample).ret = false ∧
    (readFullTSPacket ReadAnswer.error
      { bytes := fun _ => 0, size := 1316, written := 1316 }
      Frontend.allPidsExample).buffer.full = true := by
  refine ⟨by decide, by decide, by decide, by decide, by decide⟩

/-- C16, amended: `readFullTSPacket` asks the demux for exactly the
remaining capacity of the buffer and gets at most that; when the read
returns 0 or an error the buffer is unchanged; when it returns `n > 0`
bytes these are stored behind the bytes written before, the write cursor
advances by `n` and nothing else changes.  The call returns true exactly
when the read returned at least one byte and the buffer is full when the
call completes (for a buffer that was not full at the call: exactly when it
is full when the call completes); then `addFilterData` is called once, with
the full buffer, and otherwise it is not called. -/
theorem readFullTSPacket_spec (answer : ReadAnswer) (buffer : PacketBuffer) (s : Frontend) :
    answer.returned buffer.getAmountOfBytesToWrite ≤ (buffer.size - buffer.written : Nat) ∧
    (readFullTSPacket answer buffer s).events =
      StreamEvent.read s.fd_dmx (buffer.size - buffer.written)
          (answer.returned buffer.getAmountOfBytesToWrite) ::
        (if (readFullTSPacket answer buffer s).ret
         then [StreamEvent.addFilterData buffer.size] else []) ∧
    (answer.returned buffer.getAmountOfBytesToWrite ≤ 0 →
      (readFullTSPacket answer buffer s).buffer = buffer) ∧
    (0 < answer.returned buffer.getAmountOfBytesToWrite →
      (readFullTSPacket answer buffer s).buffer.written =
        buffer.written + (answer.returned buffer.getAmountOfBytesToWrite).toNat ∧
      (readFullTSPacket answer buffer s).buffer.size = buffer.size ∧
      (∀ bytes, answer = ReadAnswer.data bytes →
        ∀ i, i < (answer.returned buffer.getAmountOfBytesToWrite).toNat →
          (readFullTSPacket answer buffer s).buffer.bytes (RTP_HEADER_LEN + buffer.written + i) =
            bytes.getD i 0) ∧
      (∀ j, j < RTP_HEADER_LEN + buffer.written ∨
            RTP_HEADER_LEN + buffer.written +
              (answer.returned buffer.getAmountOfBytesToWrite).toNat ≤ j →
          (readFullTSPacket answer buffer s).buffer.bytes j = buffer.bytes j)) ∧
    ((readFullTSPacket answer buffer s).ret = true ↔
      (0 < answer.returned buffer.getAmountOfBytesToWrite ∧
       (readFullTSPacket answer buffer s).buffer.full = true)) ∧
    (buffer.full = false →
      ((readFullTSPacket answer buffer s).ret = true ↔
        (readFullTSPacket answer buffer s).buffer.full = true)) := by
  have hle := returned_le answer buffer.getAmountOfBytesToWrite
  rcases le_or_lt (answer.returned buffer.getAmountOfBytesToWrite) 0 with h | h
  · rw [readFullTSPacket_of_nonpos answer buffer s h]
    refine ⟨hle, ?_, fun _ => rfl, fun h' => absurd h' (not_lt.2 h), ?_, ?_⟩
    · simp [PacketBuffer.getAmountOfBytesToWrite]
    · simp only [Bool.false_eq_true, false_iff, not_and]
      intro h'; exact absurd h' (not_lt.2 h)
    · intro hf; simp [hf]
  · rw [readFullTSPacket_of_pos answer buffer s h]
    dsimp only
    refine ⟨hle, ?_, fun h' => absurd h (not_lt.2 h'), fun _ => ⟨?_, ?_, ?_, ?_⟩, ?_, ?_⟩
    · congr 1
      split
      · rename_i hf
        simp only [PacketBuffer.full, beq_iff_eq] at hf
        rw [hf]; simp [PacketBuffer.addAmountOfBytesWritten, (store_written _ _ _).2]
      · rfl
    · simp [PacketBuffer.addAmountOfBytesWritten, (store_written _ _ _).1]
    · simp [PacketBuffer.addAmountOfBytesWritten, (store_written _ _ _).2]
    · intro bytes hb i hi
      subst hb
      simp only [PacketBuffer.addAmountOfBytesWritten, store_bytes]
      simp only [ReadAnswer.returned, Int.toNat_ofNat] at hi
      rw [if_pos ⟨by omega, by omega⟩]
      have : RTP_HEADER_LEN + buffer.written + i - (RTP_HEADER_LEN + buffer.written) = i := by
        omega
      rw [this]
      simp only [List.getD_eq_getElem?_getD]
      rw [List.getElem?_take_of_lt (by simp at hi; exact hi.1)]
    · intro j hj
      cases answer with
      | error => rfl
      | data bytes =>
        simp only [PacketBuffer.addAmountOfBytesWritten, store_bytes]
        simp only [ReadAnswer.returned, Int.toNat_ofNat] at hj
        rw [if_neg (by omega)]
    · simp [h]
    · intro _; rfl

/-- A buffer with room for two more bytes gets both: the call returns true
and hands the buffer to `addFilterData`. -/
theorem readFullTSPacket_spec_witness :
    (readFullTSPacket (ReadAnswer.data [71, 1]) { bytes := fun _ => 0, size := 4, written := 2 }
      Frontend.allPidsExample).events =
      [StreamEvent.read 5 2 2, StreamEvent.addFilterData 4] :=
  (readFullTSPacket_spec (ReadAnswer.data [71, 1]) { bytes := fun _ => 0, size := 4, written := 2 }
    Frontend.allPidsExample).2.1

/-! ## C18: the delivery systems `setupFrontend` registers -/

theorem countDelsys_dvbs2 (api : Bool) (c : Counts) (x : Nat) :
    (0 < (countDelsys api c x).dvbs2 ↔ 0 < c.dvbs2 ∨ isSatellite x = true) := by
  simp only [countDelsys, isSatellite, SYS_DSS, SYS_DVBS, SYS_DVBS2, SYS_DVBT, SYS_DVBT2,
    SYS_DVBC_ANNEX_A, SYS_DVBC_ANNEX_AC, SYS_DVBC_ANNEX_B, SYS_DVBC_ANNEX_C, Bool.or_eq_true,
    beq_iff_eq]
  split_ifs <;> simp_all

theorem countDelsys_dvbt (api : Bool) (c : Counts) (x : Nat) :
    (0 < (countDelsys api c x).dvbt ∨ 0 < (countDelsys api c x).dvbt2 ↔
      (0 < c.dvbt ∨ 0 < c.dvbt2) ∨ isTerrestrial x = true) := by
  simp only [countDelsys, isTerrestrial, SYS_DSS, SYS_DVBS, SYS_DVBS2, SYS_DVBT, SYS_DVBT2,
    SYS_DVBC_ANNEX_A, SYS_DVBC_ANNEX_AC, SYS_DVBC_ANNEX_B, SYS_DVBC_ANNEX_C, Bool.or_eq_true,
    beq_iff_eq]
  split_ifs <;> simp_all

theorem countDelsys_dvbc (api : Bool) (c : Counts) (x : Nat) :
    (0 < (countDelsys api c x).dvbc ↔ 0 < c.dvbc ∨ isCable api x = true) ∧
    (c.dvbc ≤ 1 → (countDelsys api c x).dvbc ≤ 1) := by
  cases api <;>
  simp only [countDelsys, isCable, SYS_DSS, SYS_DVBS, SYS_DVBS2, SYS_DVBT, SYS_DVBT2,
    SYS_DVBC_ANNEX_A, SYS_DVBC_ANNEX_AC, SYS_DVBC_ANNEX_B, SYS_DVBC_ANNEX_C, Bool.or_eq_true,
    beq_iff_eq] <;>
  split_ifs <;> simp_all <;> omega

theorem foldl_countDelsys (api : Bool) (systems : List Nat) (c : Counts) :
    (0 < (systems.foldl (countDelsys api) c).dvbs2 ↔
      0 < c.dvbs2 ∨ systems.any isSatellite = true) ∧
    (0 < (systems.foldl (countDelsys api) c).dvbt ∨ 0 < (systems.foldl (countDelsys api) c).dvbt2 ↔
      (0 < c.dvbt ∨ 0 < c.dvbt2) ∨ systems.any isTerrestrial = true) ∧
    (0 < (systems.foldl (countDelsys api) c).dvbc ↔
      0 < c.dvbc ∨ systems.any (isCable api) = true) ∧
    (c.dvbc ≤ 1 → (systems.foldl (countDelsys api) c).dvbc ≤ 1) := by
  induction systems generalizing c with
  | nil =>
    simp only [List.foldl_nil, List.any_nil, Bool.false_eq_true, or_false]
    exact ⟨trivial, trivial, trivial, id⟩
  | cons x rest ih =>
    obtain ⟨h1, h2, h3, h4⟩ := ih (countDelsys api c x)
    simp only [List.foldl_cons, List.any_cons, Bool.or_eq_true]
    exact ⟨h1.trans ((or_congr_left (countDelsys_dvbs2 api c x)).trans or_assoc),
      h2.trans ((or_congr_left (countDelsys_dvbt api c x)).trans or_assoc),
      h3.trans ((or_congr_left (countDelsys_dvbc api c x).1).trans or_assoc),
      fun h => h4 ((countDelsys_dvbc api c x).2 h)⟩

theorem modules_sublist (c : Counts) :
    c.modules.Sublist [Module.DVBS, Module.DVBT, Module.DVBC] := by
  simp only [Counts.modules]
  split_ifs <;> simp

theorem mem_modules (c : Counts) :
    (Module.DVBS ∈ c.modules ↔ 0 < c.dvbs2) ∧
    (Module.DVBT ∈ c.modules ↔ (0 < c.dvbt ∨ 0 < c.dvbt2)) ∧
    (Module.DVBC ∈ c.modules ↔ 0 < c.dvbc) := by
  simp only [Counts.modules]
  refine ⟨?_, ?_, ?_⟩ <;> split_ifs <;> simp_all

theorem legacyDelsys_unknown (api : Bool) (info : FeInfo)
    (h1 : info.type ≠ FE_QPSK) (h2 : info.type ≠ FE_OFDM) (h3 : info.type ≠ FE_QAM)
    (h4 : info.type = FE_ATSC →
      info.caps &&& (FE_CAN_QAM_64 ||| FE_CAN_QAM_256 ||| FE_CAN_QAM_AUTO) = 0) :
    legacyDelsys api info = none := by
  simp only [legacyDelsys, if_neg h1, if_neg h2, if_neg h3]
  rw [if_neg]
  rintro ⟨ha, hb⟩
  exact hb (h4 ha)

theorem legacy_modules (api : Bool) (p : Probe) (info : FeInfo) (systems : List Nat)
    (hfd : 0 ≤ p.fd_fe) (hi : p.info = some info) (hd : p.delsys = none)
    (hl : legacyDelsys api info = some systems) :
    enumerateDelsys api p = some systems ∧
    (setupFrontend api p).deliverySystem =
      (systems.foldl (countDelsys api) Counts.zero).modules := by
  have he : enumerateDelsys api p = some systems := by
    simp [enumerateDelsys, not_lt.2 hfd, hi, hd, hl]
  exact ⟨he, by simp only [setupFrontend, he]⟩

theorem legacy_qpsk (api : Bool) (p : Probe) (info : FeInfo)
    (hfd : 0 ≤ p.fd_fe) (hi : p.info = some info) (hd : p.delsys = none)
    (ht : info.type = 0) :
    enumerateDelsys api p =
      some ((if info.caps &&& 0x10000000 ≠ 0 then [6] else []) ++ [5]) ∧
    (setupFrontend api p).deliverySystem = [Module.DVBS] := by
  have hl : legacyDelsys api info =
      some ((if info.caps &&& 0x10000000 ≠ 0 then [6] else []) ++ [5]) := by
    simp [legacyDelsys, ht, FE_QPSK, FE_CAN_2G_MODULATION, SYS_DVBS2, SYS_DVBS]
  obtain ⟨h1, h2⟩ := legacy_modules api p info _ hfd hi hd hl
  refine ⟨h1, ?_⟩
  rw [h2]
  cases api <;> split <;> rfl

theorem legacy_ofdm (api : Bool) (p : Probe) (info : FeInfo)
    (hfd : 0 ≤ p.fd_fe) (hi : p.info = some info) (hd : p.delsys = none)
    (ht : info.type = 2) :
    enumerateDelsys api p =
      some ((if info.caps &&& 0x10000000 ≠ 0 then [16] else []) ++ [3]) ∧
    (setupFrontend api p).deliverySystem = [Module.DVBT] := by
  have hl : legacyDelsys api info =
      some ((if info.caps &&& 0x10000000 ≠ 0 then [16] else []) ++ [3]) := by
    simp [legacyDelsys, ht, FE_QPSK, FE_OFDM, FE_CAN_2G_MODULATION, SYS_DVBT2, SYS_DVBT]
  obtain ⟨h1, h2⟩ := legacy_modules api p info _ hfd hi hd hl
  refine ⟨h1, ?_⟩
  rw [h2]
  cases api <;> split <;> rfl

theorem legacy_qam (api : Bool) (p : Probe) (info : FeInfo)
    (hfd : 0 ≤ p.fd_fe) (hi : p.info = some info) (hd : p.delsys = none)
    (ht : info.type = 1) :
    enumerateDelsys api p = some [1] ∧
    (setupFrontend api p).deliverySystem = [Module.DVBC] := by
  have hl : legacyDelsys api info = some [1] := by
    cases api <;>
      simp [legacyDelsys, ht, FE_QPSK, FE_OFDM, FE_QAM, SYS_DVBC_ANNEX_A, SYS_DVBC_ANNEX_AC]
  obtain ⟨h1, h2⟩ := legacy_modules api p info _ hfd hi hd hl
  refine ⟨h1, ?_⟩
  rw [h2]
  cases api <;> rfl

theorem legacy_atsc (api : Bool) (p : Probe) (info : FeInfo)
    (hfd : 0 ≤ p.fd_fe) (hi : p.info = some info) (hd : p.delsys = none)
    (ht : info.type = 3) (hc : info.caps &&& 0x1A000 ≠ 0) :
    enumerateDelsys api p = some [2] ∧
    (setupFrontend api p).deliverySystem = [Module.DVBC] := by
  have hl : legacyDelsys api info = some [2] := by
    have hm : FE_CAN_QAM_64 ||| FE_CAN_QAM_256 ||| FE_CAN_QAM_AUTO = 0x1A000 := by decide
    simp only [legacyDelsys, ht, hm]
    simp [FE_QPSK, FE_OFDM, FE_QAM, FE_ATSC, SYS_DVBC_ANNEX_B, hc]
  obtain ⟨h1, h2⟩ := legacy_modules api p info _ hfd hi hd hl
  refine ⟨h1, ?_⟩
  rw [h2]
  cases api <;> rfl

theorem legacy_none (api : Bool) (p : Probe) (info : FeInfo)
    (hi : p.info = some info) (hd : p.delsys = none)
    (ht : 3 ≤ info.type) (hc : info.type = 3 → info.caps &&& 0x1A000 = 0) :
    enumerateDelsys api p = none ∧ (setupFrontend api p).deliverySystem = [] := by
  have hm : FE_CAN_QAM_64 ||| FE_CAN_QAM_256 ||| FE_CAN_QAM_AUTO = 0x1A000 := by decide
  have hl := legacyDelsys_unknown api info (by rw [FE_QPSK]; omega) (by rw [FE_OFDM]; omega)
    (by rw [FE_QAM]; omega) (by rw [hm, FE_ATSC]; exact hc)
  have he : enumerateDelsys api p = none := by
    simp only [enumerateDelsys, hi, hd, hl]
    split <;> rfl
  exact ⟨he, by simp only [setupFrontend, he]⟩

/-- C18: `setupFrontend` registers its modules in the order DVBS, DVBT, DVBC,
each at most once, and the cable counter is at most 1.  For the delivery
systems its counting loop goes through, a module is registered exactly when
one of the systems is of its family (DVB-S or DVB-S2; DVB-T or DVB-T2; a
DVB-C annex).  That list is the answer of `DTV_ENUM_DELSYS` when
`FE_GET_PROPERTY` succeeds; in the legacy fallback it is inferred from the
frontend type and the capabilities: `FE_QPSK` (0) gives DVB-S, preceded by
DVB-S2 with `FE_CAN_2G_MODULATION`, and registers DVBS; `FE_OFDM` (2) gives
DVB-T, preceded by DVB-T2, and registers DVBT; `FE_QAM` (1) gives annex A
and registers DVBC; `FE_ATSC` (3) with one of `FE_CAN_QAM_64`,
`FE_CAN_QAM_256`, `FE_CAN_QAM_AUTO` (mask 0x1A000) gives annex B and
registers DVBC; an ATSC frontend without these capabilities and a frontend
of unknown type register no module, and neither does a frontend that could
not be opened or did not answer `FE_GET_INFO`. -/
theorem setupFrontend_modules (api0505 : Bool) (p : Probe) :
    (setupFrontend api0505 p).deliverySystem.Sublist [Module.DVBS, Module.DVBT, Module.DVBC] ∧
    (setupFrontend api0505 p).counts.dvbc ≤ 1 ∧
    (∀ systems, enumerateDelsys api0505 p = some systems →
      (Module.DVBS ∈ (setupFrontend api0505 p).deliverySystem ↔
        systems.any isSatellite = true) ∧
      (Module.DVBT ∈ (setupFrontend api0505 p).deliverySystem ↔
        systems.any isTerrestrial = true) ∧
      (Module.DVBC ∈ (setupFrontend api0505 p).deliverySystem ↔
        systems.any (isCable api0505) = true)) ∧
    (enumerateDelsys api0505 p = none → (setupFrontend api0505 p).deliverySystem = []) ∧
    (p.fd_fe < 0 ∨ p.info = none → enumerateDelsys api0505 p = none) ∧
    (∀ info systems, 0 ≤ p.fd_fe → p.info = some info → p.delsys = some systems →
      enumerateDelsys api0505 p = some systems) ∧
    (∀ info, 0 ≤ p.fd_fe → p.info = some info → p.delsys = none →
      (info.type = 0 →
        enumerateDelsys api0505 p =
          some ((if info.caps &&& 0x10000000 ≠ 0 then [6] else []) ++ [5]) ∧
        (setupFrontend api0505 p).deliverySystem = [Module.DVBS]) ∧
      (info.type = 2 →
        enumerateDelsys api0505 p =
          some ((if info.caps &&& 0x10000000 ≠ 0 then [16] else []) ++ [3]) ∧
        (setupFrontend api0505 p).deliverySystem = [Module.DVBT]) ∧
      (info.type = 1 →
        enumerateDelsys api0505 p = some [1] ∧
        (setupFrontend api0505 p).deliverySystem = [Module.DVBC]) ∧
      (info.type = 3 → info.caps &&& 0x1A000 ≠ 0 →
        enumerateDelsys api0505 p = some [2] ∧
        (setupFrontend api0505 p).deliverySystem = [Module.DVBC]) ∧
      (3 ≤ info.type → (info.type = 3 → info.caps &&& 0x1A000 = 0) →
        enumerateDelsys api0505 p = none ∧
        (setupFrontend api0505 p).deliverySystem = [])) ∧
    (setupFrontend api0505 ⟨3, some ⟨3, 0x2000⟩, none⟩).deliverySystem = [Module.DVBC] ∧
    (setupFrontend api0505 ⟨3, some ⟨3, 0x8000⟩, none⟩).deliverySystem = [Module.DVBC] ∧
    (setupFrontend api0505 ⟨3, some ⟨3, 0x10000⟩, none⟩).deliverySystem = [Module.DVBC] ∧
    (setupFrontend api0505 ⟨3, some ⟨3, 0x1000 ||| 0x4000⟩, none⟩).deliverySystem = [] ∧
    (setupFrontend api0505 ⟨3, some ⟨4, 0x1A000⟩, none⟩).deliverySystem = [] ∧
    setupFrontend api0505 ⟨3, some ⟨0, 0⟩, some [5, 6, 6, 16, 1, 18, 2, 4, 99]⟩ =
      { counts := { dvbs2 := 3, dvbt := 0, dvbt2 := 1, dvbc := 1, dvbc2 := 0 },
        deliverySystem := [Module.DVBS, Module.DVBT, Module.DVBC] } ∧
    (setupFrontend false ⟨3, some ⟨0, 0⟩, some [18]⟩).deliverySystem = [] ∧
    (setupFrontend true ⟨3, some ⟨0, 0⟩, some [18]⟩).deliverySystem = [Module.DVBC] := by
  refine ⟨?_, ?_, ?_, ?_, ?_, ?_, ?_, ?_, ?_, ?_, ?_, ?_, ?_, ?_, ?_⟩
  · unfold setupFrontend
    split
    · simp
    · exact modules_sublist _
  · unfold setupFrontend
    split
    · simp [Counts.zero]
    · exact (foldl_countDelsys api0505 _ Counts.zero).2.2.2 (by simp [Counts.zero])
  · intro systems he
    simp only [setupFrontend, he]
    obtain ⟨h1, h2, h3, _⟩ := foldl_countDelsys api0505 systems Counts.zero
    obtain ⟨m1, m2, m3⟩ := mem_modules (systems.foldl (countDelsys api0505) Counts.zero)
    rw [m1, m2, m3, h1, h2, h3]
    simp [Counts.zero]
  · intro he
    simp only [setupFrontend, he]
  · rintro (h | h)
    · simp [enumerateDelsys, h]
    · simp only [enumerateDelsys, h]
      split <;> rfl
  · intro info systems hfd hi hd
    simp [enumerateDelsys, not_lt.2 hfd, hi, hd]
  · intro info hfd hi hd
    exact ⟨legacy_qpsk api0505 p info hfd hi hd, legacy_ofdm api0505 p info hfd hi hd,
      legacy_qam api0505 p info hfd hi hd, legacy_atsc api0505 p info hfd hi hd,
      legacy_none api0505 p info hi hd⟩
  · cases api0505 <;> decide
  · cases api0505 <;> decide
  · cases api0505 <;> decide
  · cases api0505 <;> decide
  · cases api0505 <;> decide
  · cases api0505 <;> decide
  · decide
  · decide

/-! ## C17: the attempts of `openPid` to open the demux -/

theorem sysOpen_none (env : Env) (s : Frontend) (h : env.openResult s.calls = none) :
    sysOpen env s = -1 := by
  simp [sysOpen, h]

theorem sysOpen_some (env : Env) (s : Frontend) (fd : Nat) (h : env.openResult s.calls = some fd) :
    sysOpen env s = (fd : Int) ∧ sysOpen env s ≠ -1 := by
  have h1 : sysOpen env s = (fd : Int) := by simp [sysOpen, h]
  exact ⟨h1, by rw [h1]; omega⟩

theorem openDMXRetry_fail (env : Env) (left : Nat) (s : Frontend)
    (h : ∀ j, j ≤ left → env.openResult (s.calls + 2 * j) = none) :
    (openDMXRetry env left s).1 = false ∧
    (openDMXRetry env left s).2.fd_dmx = -1 ∧
    (openDMXRetry env left s).2.frontendData = s.frontendData ∧
    (openDMXRetry env left s).2.trace = s.trace ++ failedOpens (left + 1) := by
  induction left generalizing s with
  | zero =>
    have h0 : sysOpen env s = -1 := sysOpen_none env s (by simpa using h 0 (le_refl _))
    unfold openDMXRetry
    simp [openDMX, h0, sleepFor, Frontend.tick, failedOpens]
  | succ left ih =>
    have h0 : sysOpen env s = -1 := sysOpen_none env s (by simpa using h 0 (Nat.zero_le _))
    unfold openDMXRetry
    simp only [openDMX, h0, if_true]
    obtain ⟨i1, i2, i3, i4⟩ := ih
      (sleepFor env 20 { s.tick env (Event.dmxOpen (-1)) with fd_dmx := -1 })
      (fun j hj => by
        have := h (j + 1) (by omega)
        simp only [sleepFor, Frontend.tick]
        rw [← this]; congr 1; omega)
    refine ⟨i1, i2, i3, ?_⟩
    rw [i4]
    simp [sleepFor, Frontend.tick, failedOpens]

theorem openDMXRetry_ok (env : Env) (left : Nat) (s : Frontend) (k fd : Nat) (hk : k ≤ left)
    (h : ∀ j, j < k → env.openResult (s.calls + 2 * j) = none)
    (hfd : env.openResult (s.calls + 2 * k) = some fd) :
    (openDMXRetry env left s).1 = true ∧
    (openDMXRetry env left s).2.fd_dmx = (fd : Int) ∧
    (openDMXRetry env left s).2.frontendData = s.frontendData ∧
    (openDMXRetry env left s).2.dvrBufferSizeMB = s.dvrBufferSizeMB ∧
    (openDMXRetry env left s).2.calls = s.calls + 2 * k + 1 ∧
    (openDMXRetry env left s).2.trace = s.trace ++ (failedOpens k ++ [Event.dmxOpen fd]) := by
  induction k generalizing s left with
  | zero =>
    obtain ⟨h0, h1⟩ := sysOpen_some env s fd (by simpa using hfd)
    unfold openDMXRetry
    simp only [openDMX, if_neg h1]
    simp [h0, Frontend.tick, failedOpens]
  | succ k ih =>
    have h0 : sysOpen env s = -1 := sysOpen_none env s (by simpa using h 0 (Nat.succ_pos _))
    cases left with
    | zero => omega
    | succ left =>
      unfold openDMXRetry
      simp only [openDMX, h0, if_true]
      obtain ⟨i1, i2, i3, i4, i5, i6⟩ := ih left
        (sleepFor env 20 { s.tick env (Event.dmxOpen (-1)) with fd_dmx := -1 }) (by omega)
        (fun j hj => by
          have := h (j + 1) (by omega)
          simp only [sleepFor, Frontend.tick]
          rw [← this]; congr 1; omega)
        (by
          simp only [sleepFor, Frontend.tick]
          rw [← hfd]; congr 1; omega)
      refine ⟨i1, i2, i3, i4, ?_, ?_⟩
      · rw [i5]; simp only [sleepFor, Frontend.tick]; omega
      · rw [i6]
        simp [sleepFor, Frontend.tick, failedOpens]

theorem first_open (f : Nat → Option Nat) (n : Nat) :
    (∀ j, j < n → f j = none) ∨
    ∃ k fd, k < n ∧ (∀ j, j < k → f j = none) ∧ f k = some fd := by
  induction n with
  | zero => left; intro j hj; omega
  | succ n ih =>
    rcases ih with h | ⟨k, fd, hk, h1, h2⟩
    · cases hn : f n with
      | none =>
        left; intro j hj
        rcases Nat.lt_succ_iff_lt_or_eq.1 hj with h' | h'
        · exact h j h'
        · rw [h']; exact hn
      | some fd => right; exact ⟨n, fd, Nat.lt_succ_self _, h, hn⟩
    · right; exact ⟨k, fd, by omega, h1, h2⟩

theorem dmxOpens_failedOpens (n : Nat) : dmxOpens (failedOpens n) = n := by
  induction n with
  | zero => rfl
  | succ n ih =>
    simp only [dmxOpens, failedOpens, List.countP_cons, Event.isDmxOpen] at ih ⊢
    simp [ih]

theorem dmxOpens_append (a b : List Event) : dmxOpens (a ++ b) = dmxOpens a + dmxOpens b := by
  simp [dmxOpens, List.countP_append]

theorem mem_failedOpens (n : Nat) (e : Event) (h : e ∈ failedOpens n) :
    e = Event.dmxOpen (-1) ∨ e = Event.sleep 20 := by
  induction n with
  | zero => simp [failedOpens] at h
  | succ n ih =>
    simp only [failedOpens, List.mem_cons] at h
    rcases h with h | h | h
    · exact Or.inl h
    · exact Or.inr h
    · exact ih h

theorem openPid_of_closed (env : Env) (pid : Nat) (s : Frontend)
    (hopen : s.frontendData.filter.shouldPIDOpen pid = true) (hfd : s.fd_dmx = -1) :
    openPid env pid s =
      if (openDMXRetry env 3 s).1 then
        filterIoctl env (fun fd ok => Event.setPesFilter fd pid ok) (fun t => t.setPIDOpened pid)
          (setDmxBufferSize env (openDMXRetry env 3 s).2)
      else (openDMXRetry env 3 s).2 := by
  simp only [openPid, hopen, hfd, Bool.not_true, Bool.false_eq_true, if_false, if_true]
  cases (openDMXRetry env 3 s).1 <;> simp

theorem setDmxBufferSize_trace (env : Env) (s : Frontend) :
    (setDmxBufferSize env s).trace = s.trace ++ bufferSizeEvents env s s.fd_dmx s.calls ∧
    (setDmxBufferSize env s).fd_dmx = s.fd_dmx ∧
    (setDmxBufferSize env s).frontendData = s.frontendData := by
  simp only [setDmxBufferSize, bufferSizeEvents]
  split <;> simp [Frontend.tick]

theorem bufferSizeEvents_congr (env : Env) (s t : Frontend) (fd : Int) (n : Nat)
    (h : t.dvrBufferSizeMB = s.dvrBufferSizeMB) :
    bufferSizeEvents env t fd n = bufferSizeEvents env s fd n := by
  simp only [bufferSizeEvents, h]

theorem filterIoctl_trace (env : Env) (event : Int → Bool → Event)
    (after : PidTable → PidTable) (s : Frontend) :
    (filterIoctl env event after s).trace = s.trace ++ [event s.fd_dmx (env.ioctlOk s.calls)] := by
  simp only [filterIoctl]
  split <;> simp [Frontend.tick, Frontend.mapFilter]

theorem opened_of_shouldPIDOpen (s : Frontend) (pid : Nat)
    (hopen : s.frontendData.filter.shouldPIDOpen pid = true) : s.opened pid = false := by
  simp only [PidTable.shouldPIDOpen, Bool.and_eq_true, Bool.not_eq_true'] at hopen
  exact hopen.2

theorem openPid_all_fail (env : Env) (pid : Nat) (s : Frontend)
    (hopen : s.frontendData.filter.shouldPIDOpen pid = true) (hfd : s.fd_dmx = -1)
    (h : ∀ j, j < 4 → env.openResult (s.calls + 2 * j) = none) :
    s.since (openPid env pid s) = failedOpens 4 ∧
    (openPid env pid s).fd_dmx = -1 ∧
    (openPid env pid s).opened pid = false := by
  obtain ⟨i1, i2, i3, i4⟩ := openDMXRetry_fail env 3 s (fun j hj => h j (by omega))
  rw [openPid_of_closed env pid s hopen hfd, if_neg (by rw [i1]; simp)]
  refine ⟨since_of_trace i4, i2, ?_⟩
  rw [Frontend.opened, i3]
  exact opened_of_shouldPIDOpen s pid hopen

theorem openPid_first_ok (env : Env) (pid : Nat) (s : Frontend)
    (hopen : s.frontendData.filter.shouldPIDOpen pid = true) (hfd : s.fd_dmx = -1)
    (k fd : Nat) (hk : k < 4) (h : ∀ j, j < k → env.openResult (s.calls + 2 * j) = none)
    (hok : env.openResult (s.calls + 2 * k) = some fd) :
    ∃ ok, s.since (openPid env pid s) =
        failedOpens k ++ Event.dmxOpen fd ::
          (bufferSizeEvents env s fd (s.calls + 2 * k + 1) ++ [Event.setPesFilter fd pid ok]) ∧
      (openPid env pid s).fd_dmx = (fd : Int) ∧
      (openPid env pid s).opened pid = ok := by
  obtain ⟨i1, i2, i3, i4, i5, i6⟩ := openDMXRetry_ok env 3 s k fd (by omega) h hok
  obtain ⟨b1, b2, b3⟩ := setDmxBufferSize_trace env (openDMXRetry env 3 s).2
  rw [openPid_of_closed env pid s hopen hfd, if_pos i1]
  refine ⟨env.ioctlOk (setDmxBufferSize env (openDMXRetry env 3 s).2).calls, ?_, ?_, ?_⟩
  · apply since_of_trace
    rw [filterIoctl_trace, b1, b2, i2, i5, i6, bufferSizeEvents_congr env s _ _ _ i4]
    simp
  · rw [filterIoctl_fd_dmx, b2, i2]
  · rw [Frontend.opened, filterIoctl_filter, b3, i3]
    have hcl := opened_of_shouldPIDOpen s pid hopen
    rw [Frontend.opened] at hcl
    cases env.ioctlOk (setDmxBufferSize env (openDMXRetry env 3 s).2).calls
    · simpa using hcl
    · simp [PidTable.setPIDOpened]

theorem mem_bufferSizeEvents (env : Env) (s : Frontend) (fd : Int) (n : Nat) (e : Event)
    (h : e ∈ bufferSizeEvents env s fd n) : ∃ size ok, e = Event.setBufferSize fd size ok := by
  simp only [bufferSizeEvents] at h
  split at h
  · exact ⟨_, _, List.mem_singleton.1 h⟩
  · simp at h

theorem dmxOpens_bufferSizeEvents (env : Env) (s : Frontend) (fd : Int) (n : Nat) :
    dmxOpens (bufferSizeEvents env s fd n) = 0 := by
  simp only [bufferSizeEvents]
  split <;> rfl

/-- C17: `openPid` for a PID that should open.  With the demux closed it
makes at most 4 attempts to open it: when all four fail the trace is the
four failed attempts with their pauses, so there is no demux ioctl, the
demux descriptor stays -1 and the PID is not opened; when the attempt
after `k < 4` failed ones succeeds, the trace is these `k + 1` attempts,
the `DMX_SET_BUFFER_SIZE` if a size is configured, and one
`DMX_SET_PES_FILTER` for the PID, whose outcome is the opened bit, and no
`DMX_ADD_PID`.  With the demux open it issues one `DMX_ADD_PID` and does not
open anything; so a `DMX_ADD_PID` is issued only when the demux was open. -/
theorem openPid_attempts (env : Env) (pid : Nat) (s : Frontend)
    (hopen : s.frontendData.filter.shouldPIDOpen pid = true) :
    (s.fd_dmx = -1 → dmxOpens (s.since (openPid env pid s)) ≤ 4) ∧
    (s.fd_dmx = -1 → (∀ j, j < 4 → env.openResult (s.calls + 2 * j) = none) →
      s.since (openPid env pid s) = failedOpens 4 ∧
      dmxOpens (s.since (openPid env pid s)) = 4 ∧
      (∀ e ∈ s.since (openPid env pid s), e.isDmxIoctl = false) ∧
      (openPid env pid s).fd_dmx = -1 ∧
      (openPid env pid s).opened pid = false) ∧
    (s.fd_dmx = -1 → ∀ k fd, k < 4 →
      (∀ j, j < k → env.openResult (s.calls + 2 * j) = none) →
      env.openResult (s.calls + 2 * k) = some fd →
      ∃ ok, s.since (openPid env pid s) =
          failedOpens k ++ Event.dmxOpen fd ::
            (bufferSizeEvents env s fd (s.calls + 2 * k + 1) ++
              [Event.setPesFilter fd pid ok]) ∧
        dmxOpens (s.since (openPid env pid s)) = k + 1 ∧
        (openPid env pid s).fd_dmx = (fd : Int) ∧
        (openPid env pid s).opened pid = ok) ∧
    (s.fd_dmx ≠ -1 →
      s.since (openPid env pid s) = [Event.addPid s.fd_dmx pid (env.ioctlOk s.calls)] ∧
      (openPid env pid s).fd_dmx = s.fd_dmx ∧
      (openPid env pid s).opened pid = env.ioctlOk s.calls) ∧
    (∀ fd p ok, Event.addPid fd p ok ∈ s.since (openPid env pid s) → s.fd_dmx ≠ -1) := by
  have hfail : s.fd_dmx = -1 → (∀ j, j < 4 → env.openResult (s.calls + 2 * j) = none) →
      s.since (openPid env pid s) = failedOpens 4 ∧
      dmxOpens (s.since (openPid env pid s)) = 4 ∧
      (∀ e ∈ s.since (openPid env pid s), e.isDmxIoctl = false) ∧
      (openPid env pid s).fd_dmx = -1 ∧
      (openPid env pid s).opened pid = false := by
    intro hfd h
    obtain ⟨a1, a2, a3⟩ := openPid_all_fail env pid s hopen hfd h
    refine ⟨a1, by rw [a1]; exact dmxOpens_failedOpens 4, ?_, a2, a3⟩
    intro e he
    rw [a1] at he
    rcases mem_failedOpens 4 e he with rfl | rfl <;> rfl
  have hok : s.fd_dmx = -1 → ∀ k fd, k < 4 →
      (∀ j, j < k → env.openResult (s.calls + 2 * j) = none) →
      env.openResult (s.calls + 2 * k) = some fd →
      ∃ ok, s.since (openPid env pid s) =
          failedOpens k ++ Event.dmxOpen fd ::
            (bufferSizeEvents env s fd (s.calls + 2 * k + 1) ++
              [Event.setPesFilter fd pid ok]) ∧
        dmxOpens (s.since (openPid env pid s)) = k + 1 ∧
        (openPid env pid s).fd_dmx = (fd : Int) ∧
        (openPid env pid s).opened pid = ok := by
    intro hfd k fd hk h hfdk
    obtain ⟨ok, a1, a2, a3⟩ := openPid_first_ok env pid s hopen hfd k fd hk h hfdk
    refine ⟨ok, a1, ?_, a2, a3⟩
    rw [a1, dmxOpens_append, dmxOpens_failedOpens]
    have : dmxOpens (Event.dmxOpen fd ::
        (bufferSizeEvents env s fd (s.calls + 2 * k + 1) ++ [Event.setPesFilter fd pid ok])) =
        1 := by
      have hb := dmxOpens_bufferSizeEvents env s fd (s.calls + 2 * k + 1)
      simp only [dmxOpens, List.countP_cons, List.countP_append, Event.isDmxOpen] at hb ⊢
      simp [hb]
    rw [this]
  refine ⟨?_, hfail, hok, ?_, ?_⟩
  · intro hfd
    rcases first_open (fun j => env.openResult (s.calls + 2 * j)) 4 with h | ⟨k, fd, hk, h, hfdk⟩
    · rw [(hfail hfd h).2.1]
    · obtain ⟨ok, _, a2, _⟩ := hok hfd k fd hk h hfdk
      rw [a2]; omega
  · intro hfd
    rw [openPid_of_open env pid s hopen hfd]
    refine ⟨filterIoctl_since _ _ _ _, filterIoctl_fd_dmx _ _ _ _, ?_⟩
    rw [Frontend.opened, filterIoctl_filter]
    have hcl := opened_of_shouldPIDOpen s pid hopen
    rw [Frontend.opened] at hcl
    cases env.ioctlOk s.calls
    · simpa using hcl
    · simp [PidTable.setPIDOpened]
  · intro fd' p ok' hmem hfd
    rcases first_open (fun j => env.openResult (s.calls + 2 * j)) 4 with h | ⟨k, fd, hk, h, hfdk⟩
    · rw [(hfail hfd h).1] at hmem
      rcases mem_failedOpens 4 _ hmem with h' | h' <;> cases h'
    · obtain ⟨ok, a1, _, _⟩ := hok hfd k fd hk h hfdk
      rw [a1] at hmem
      rcases List.mem_append.1 hmem with h' | h'
      · rcases mem_failedOpens k _ h' with h'' | h'' <;> cases h''
      · rcases List.mem_cons.1 h' with h'' | h''
        · cases h''
        · rcases List.mem_append.1 h'' with h3 | h3
          · obtain ⟨size, okb, he⟩ := mem_bufferSizeEvents env s _ _ _ h3
            cases he
          · cases List.mem_singleton.1 h3

/-- PID 0 of the example with a closed demux should open; the environment
answers every open with descriptor 4: one attempt is made. -/
theorem openPid_attempts_witness :
    Frontend.firstPidExample.frontendData.filter.shouldPIDOpen 0 = true ∧
    dmxOpens (Frontend.firstPidExample.since
      (openPid Env.strongSignal 0 Frontend.firstPidExample)) ≤ 4 :=
  ⟨rfl, (openPid_attempts Env.strongSignal 0 Frontend.firstPidExample rfl).1 rfl⟩

/-! ## C11: the legacy latch -/

theorem LatchKept.stay (s : Frontend) : LatchKept s s :=
  ⟨rfl, rfl, List.prefix_refl _, by rw [since_self]; intro e he; cases he⟩

theorem LatchKept.chain {s s1 s2 : Frontend} (h1 : LatchKept s s1) (h2 : LatchKept s1 s2) :
    LatchKept s s2 := by
  refine ⟨h2.latch.trans h1.latch, h2.modernApi.trans h1.modernApi, h1.trace.trans h2.trace, ?_⟩
  rw [since_trans h1.trace h2.trace]
  intro e he
  rcases List.mem_append.1 he with h | h
  · exact h1.events e h
  · exact h2.events e h

theorem LatchKept.ofEq {s s' : Frontend} (h1 : s'.oldApiCallStats = s.oldApiCallStats)
    (h2 : s'.modernApi = s.modernApi) (h3 : s'.trace = s.trace) : LatchKept s s' := by
  refine ⟨h1, h2, by rw [h3], ?_⟩
  rw [since_of_trace (l := []) (by rw [h3, List.append_nil])]
  intro e he; cases he

theorem LatchKept.ofTickEvent (env : Env) (s : Frontend) (e : Event)
    (he : e.isModernStats = false) : LatchKept s (s.tick env e) := by
  refine ⟨rfl, rfl, ⟨[e], rfl⟩, ?_⟩
  rw [since_of_trace (l := [e]) rfl]
  intro x hx
  rw [List.mem_singleton.1 hx]; exact he

theorem LatchKept.ofDemuxOnly {s s' : Frontend} (h : DemuxOnly s s') : LatchKept s s' := by
  refine ⟨h.oldApiCallStats, h.modernApi, h.trace, ?_⟩
  intro e he
  have := h.events e he
  cases e <;> first | rfl | (simp [Event.isDemux] at this)

theorem setTuned_latchKept (s : Frontend) (b : Bool) : LatchKept s (s.setTuned b) :=
  LatchKept.ofEq rfl rfl rfl

theorem setFdFe_latchKept (s : Frontend) (fd : Int) : LatchKept s (s.setFdFe fd) :=
  LatchKept.ofEq rfl rfl rfl

theorem reinitialise_latchKept (s : Frontend) : LatchKept s s.reinitialise :=
  LatchKept.ofEq rfl rfl rfl

theorem resetDeviceDataChanged_latchKept (s : Frontend) :
    LatchKept s s.resetDeviceDataChanged :=
  LatchKept.ofEq rfl rfl rfl

theorem parse_latchKept (delsys : InputSystem) (dirty : Bool) (pids : Option (Nat → Bool))
    (s : Frontend) : LatchKept s (parseStreamString delsys dirty pids s) :=
  LatchKept.ofEq rfl rfl rfl

theorem sleepFor_latchKept (env : Env) (ms : Nat) (s : Frontend) :
    LatchKept s (sleepFor env ms s) :=
  (LatchKept.ofTickEvent env s (Event.sleep ms) rfl).chain (LatchKept.ofEq rfl rfl rfl)

theorem closeFE_latchKept (env : Env) (s : Frontend) : LatchKept s (closeFE env s) := by
  unfold closeFE
  split
  · exact (LatchKept.ofTickEvent env s (Event.feClose s.fd_fe) rfl).chain
      (LatchKept.ofEq rfl rfl rfl)
  · exact LatchKept.stay s

theorem readStatus_latchKept (env : Env) (s : Frontend) : LatchKept s (readStatus env s).2 :=
  LatchKept.ofTickEvent env s _ (by rfl)

theorem waitOnLock_latchKept (env : Env) (sw fuel : Nat) (s : Frontend) :
    LatchKept s (waitOnLock env sw fuel s) := by
  induction fuel generalizing s with
  | zero => exact LatchKept.stay s
  | succ fuel ih =>
    unfold waitOnLock
    dsimp only
    split
    · exact (readStatus_latchKept env s).chain (LatchKept.ofEq rfl rfl rfl)
    · split
      · exact readStatus_latchKept env s
      · exact ((readStatus_latchKept env s).chain (sleepFor_latchKept env 20 _)).chain (ih _)

theorem tune_latchKept (env : Env) (s : Frontend) : LatchKept s (tune env s).2 := by
  rcases tune_cases env s with ⟨_, h⟩ | ⟨k, _, h⟩
  · rw [h]; exact LatchKept.stay s
  · rw [h]; exact LatchKept.ofTickEvent env s _ (by rfl)

theorem tuneAndWait_latchKept (env : Env) (sw : Nat) (s : Frontend) :
    LatchKept s (tuneAndWait env sw s).2 := by
  cases h : (tune env s).1 with
  | false => rw [tuneAndWait_of_fail env sw s h]; exact tune_latchKept env s
  | true =>
    rw [tuneAndWait_of_ok env sw s h]
    dsimp only
    split
    · exact ((tune_latchKept env s).chain (setTuned_latchKept _ _)).chain
        (waitOnLock_latchKept env sw _ _)
    · exact (tune_latchKept env s).chain (setTuned_latchKept _ _)

theorem setupAndTune_latchKept (env : Env) (s : Frontend) :
    LatchKept s (setupAndTune env s).2 := by
  cases ht : s.tuned with
  | true => rw [setupAndTune_tuned env s ht]; exact LatchKept.stay s
  | false =>
    rw [setupAndTune_untuned env s ht]
    split
    · split
      · exact (LatchKept.ofTickEvent env s _ (by rfl)).chain (setFdFe_latchKept _ _)
      · exact ((LatchKept.ofTickEvent env s _ (by rfl)).chain (setFdFe_latchKept _ _)).chain
          (tuneAndWait_latchKept env _ _)
    · exact tuneAndWait_latchKept env _ _

theorem dropLoop_latchKept (env : Env) (n : Nat) (s : Frontend) :
    LatchKept s (forUpTo (dropPid env) n s) :=
  LatchKept.ofDemuxOnly (forUpTo_demuxOnly _ (dropPid_demuxOnly env) n s)

theorem closeOnChange_latchKept (env : Env) (s : Frontend) :
    LatchKept s (closeOnChange env s) := by
  cases h : s.frontendData.changed with
  | false => rw [closeOnChange_clean env s h]; exact LatchKept.stay s
  | true =>
    rw [closeOnChange_dirty env s h]
    exact (((((resetDeviceDataChanged_latchKept s).chain (setTuned_latchKept _ _)).chain
      (dropLoop_latchKept env _ _)).chain
      (LatchKept.ofDemuxOnly (closeDMX_demuxOnly env _))).chain
      (closeFE_latchKept env _)).chain (sleepFor_latchKept env 5 _)

theorem update_latchKept (env : Env) (s : Frontend) : LatchKept s (update env s).2 := by
  rw [update_snd]
  split
  · exact ((closeOnChange_latchKept env s).chain (setupAndTune_latchKept env _)).chain
      (LatchKept.ofDemuxOnly (updatePIDFilters_demuxOnly env _))
  · exact (closeOnChange_latchKept env s).chain (setupAndTune_latchKept env _)

theorem teardown_latchKept (env : Env) (s : Frontend) : LatchKept s (teardown env s).2 := by
  rw [teardown_snd]
  exact ((((dropLoop_latchKept env _ s).chain (setTuned_latchKept _ _)).chain
    (LatchKept.ofDemuxOnly (closeDMX_demuxOnly env _))).chain
    (closeFE_latchKept env _)).chain (reinitialise_latchKept _)

theorem legacyStats_latchKept (env : Env) (s : Frontend) :
    LatchKept s (legacyStats env s).2 :=
  (((LatchKept.ofTickEvent env s _ (by rfl)).chain (LatchKept.ofTickEvent env _ _ (by rfl))).chain
    (LatchKept.ofTickEvent env _ _ (by rfl))).chain (LatchKept.ofTickEvent env _ _ (by rfl))

theorem modernBlock_of_latched (env : Env) (s : Frontend) (h : s.oldApiCallStats = true) :
    modernBlock env s = ({ strength := 0, snr := 0, ber := 0, ublocks := 0 }, s) := by
  simp [modernBlock, h]

theorem collectStats_latchKept (env : Env) (s : Frontend) (h : s.oldApiCallStats = true) :
    LatchKept s (collectStats env s).2 := by
  unfold collectStats
  dsimp only
  rw [modernBlock_of_latched env _ h]
  dsimp only
  rw [if_pos h]
  exact legacyStats_latchKept env _

theorem monitorSignal_latchKept (env : Env) (showStatus : Bool) (s : Frontend)
    (h : s.oldApiCallStats = true) : LatchKept s (monitorSignal env showStatus s) := by
  have hr := readStatus_latchKept env s
  have hl : (readStatus env s).2.oldApiCallStats = true := by rw [hr.latch, h]
  unfold monitorSignal
  dsimp only
  split
  · exact (hr.chain (collectStats_latchKept env _ hl)).chain (LatchKept.ofEq rfl rfl rfl)
  · exact hr

theorem run_latchKept (op : Op) (s : Frontend) (h : s.oldApiCallStats = true) :
    LatchKept s (op.run s) := by
  cases op with
  | monitorSignal env showStatus => exact monitorSignal_latchKept env showStatus s h
  | update env => exact update_latchKept env s
  | teardown env => exact teardown_latchKept env s
  | updatePIDFilters env => exact LatchKept.ofDemuxOnly (updatePIDFilters_demuxOnly env s)
  | setupAndTune env => exact setupAndTune_latchKept env s
  | parseStreamString delsys dirty pids => exact parse_latchKept delsys dirty pids s

theorem runOps_latchKept (ops : List Op) (s : Frontend) (h : s.oldApiCallStats = true) :
    LatchKept s (runOps ops s) := by
  induction ops generalizing s with
  | nil => exact LatchKept.stay s
  | cons op rest ih =>
    have h1 := run_latchKept op s h
    exact h1.chain (ih _ (by rw [h1.latch, h]))

theorem modernCalls_latchKept {s s' : Frontend} (h : LatchKept s s') :
    modernCalls (s.since s') = 0 := by
  rw [modernCalls, List.countP_eq_zero]
  intro e he
  rw [h.events e he]
  simp

theorem readStat16_of_not_available (env : Env) (p : Stat)
    (h : p.scale = FE_SCALE_NOT_AVAILABLE) : readStat16 env p = none := by
  simp [readStat16, h, FE_SCALE_NOT_AVAILABLE, FE_SCALE_DECIBEL, FE_SCALE_RELATIVE]

theorem readStatBer_of_not_available (p : Stat)
    (h : p.scale = FE_SCALE_NOT_AVAILABLE) : readStatBer p = none := by
  simp [readStatBer, h, FE_SCALE_NOT_AVAILABLE, FE_SCALE_DECIBEL, FE_SCALE_RELATIVE,
    FE_SCALE_COUNTER]

theorem modernStats_latches (env : Env) (st : SignalStats) (s : Frontend)
    (hna : ∃ i, i < 3 ∧ (env.stat s.calls i).scale = FE_SCALE_NOT_AVAILABLE) :
    (modernStats env st s).2.oldApiCallStats = true := by
  obtain ⟨i, hi, hs⟩ := hna
  simp only [modernStats, Frontend.tick]
  have h3 : i = 0 ∨ i = 1 ∨ i = 2 := by omega
  rcases h3 with rfl | rfl | rfl
  · rw [readStat16_of_not_available env _ hs]; simp
  · rw [readStat16_of_not_available env _ hs]; simp
  · rw [readStatBer_of_not_available _ hs]; simp

theorem monitorSignal_first_modern (env : Env) (showStatus : Bool) (s : Frontend)
    (hm : s.modernApi = true) (hl : s.oldApiCallStats = false)
    (hst : env.ioctlOk s.calls = true)
    (hna : ∃ i, i < 3 ∧ (env.stat (s.calls + 1) i).scale = FE_SCALE_NOT_AVAILABLE) :
    (monitorSignal env showStatus s).oldApiCallStats = true ∧
    (monitorSignal env showStatus s).trace = s.trace ++
      [Event.readStatus s.fd_fe (some (env.feStatus s.calls)),
       Event.getProperty s.fd_fe (env.ioctlOk (s.calls + 1)),
       Event.readSignalStrength s.fd_fe (env.ioctlOk (s.calls + 2)),
       Event.readSnr s.fd_fe (env.ioctlOk (s.calls + 3)),
       Event.readBer s.fd_fe (env.ioctlOk (s.calls + 4)),
       Event.readUncorrectedBlocks s.fd_fe (env.ioctlOk (s.calls + 5))] := by
  have hlatch := modernStats_latches env { strength := 0, snr := 0, ber := 0, ublocks := 0 }
    (s.tick env (Event.readStatus s.fd_fe (some (env.feStatus s.calls)))) hna
  have hmb : modernBlock env (s.tick env (Event.readStatus s.fd_fe (some (env.feStatus s.calls))))
      = modernStats env { strength := 0, snr := 0, ber := 0, ublocks := 0 }
          (s.tick env (Event.readStatus s.fd_fe (some (env.feStatus s.calls)))) := by
    simp [modernBlock, Frontend.tick, hm, hl]
  unfold monitorSignal
  rw [readStatus_of_ok env s hst]
  dsimp only
  unfold collectStats
  dsimp only
  rw [hmb, if_pos hlatch]
  constructor
  · rw [(legacyStats_latchKept env _).latch, hlatch]
  · simp [legacyStats, modernStats, Frontend.tick]

/-- C11: the legacy latch `_oldApiCallStats` is sticky: from a state in
which it is set, every sequence of calls of `monitorSignal`, `update`,
`teardown`, `updatePIDFilters` (and of `setupAndTune` and
`parseStreamString`) leaves it set and makes no modern statistics call.
So when, on a build with the modern API and with the latch clear,
`FE_READ_STATUS` succeeds and one of the three statistics of the first
modern call has scale `FE_SCALE_NOT_AVAILABLE`, that call of `monitorSignal`
makes the one modern `FE_GET_PROPERTY` call, continues with the four legacy
ioctls and sets the latch, and over every later sequence of calls the
number of modern statistics calls stays 1. -/
theorem oldApiCallStats_latch (env : Env) (showStatus : Bool) (s : Frontend) (ops : List Op)
    (hm : s.modernApi = true) (hl : s.oldApiCallStats = false)
    (hst : env.ioctlOk s.calls = true)
    (hna : ∃ i, i < 3 ∧ (env.stat (s.calls + 1) i).scale = FE_SCALE_NOT_AVAILABLE) :
    s.since (monitorSignal env showStatus s) =
      [Event.readStatus s.fd_fe (some (env.feStatus s.calls)),
       Event.getProperty s.fd_fe (env.ioctlOk (s.calls + 1)),
       Event.readSignalStrength s.fd_fe (env.ioctlOk (s.calls + 2)),
       Event.readSnr s.fd_fe (env.ioctlOk (s.calls + 3)),
       Event.readBer s.fd_fe (env.ioctlOk (s.calls + 4)),
       Event.readUncorrectedBlocks s.fd_fe (env.ioctlOk (s.calls + 5))] ∧
    (monitorSignal env showStatus s).oldApiCallStats = true ∧
    (runOps ops (monitorSignal env showStatus s)).oldApiCallStats = true ∧
    modernCalls (s.since (runOps ops (monitorSignal env showStatus s))) = 1 ∧
    (∀ (t : Frontend) (later : List Op), t.oldApiCallStats = true →
      (runOps later t).oldApiCallStats = true ∧ modernCalls (t.since (runOps later t)) = 0) := by
  obtain ⟨h1, h2⟩ := monitorSignal_first_modern env showStatus s hm hl hst hna
  have hk := runOps_latchKept ops _ h1
  refine ⟨since_of_trace h2, h1, by rw [hk.latch, h1], ?_, ?_⟩
  · rw [since_trans ⟨_, h2.symm⟩ hk.trace, modernCalls, List.countP_append]
    have h0 := modernCalls_latchKept hk
    rw [modernCalls] at h0
    rw [h0, since_of_trace h2]
    rfl
  · intro t later ht
    have hk' := runOps_latchKept later t ht
    exact ⟨by rw [hk'.latch, ht], modernCalls_latchKept hk'⟩

/-- The locked example, monitored in an environment whose modern statistics
are not available, and then monitored twice more: one modern call. -/
theorem oldApiCallStats_latch_witness :
    modernCalls (Frontend.lockedExample.since
      (runOps [Op.monitorSignal Env.strongSignal true, Op.monitorSignal Env.strongSignal false]
        (monitorSignal Env.strongSignal true Frontend.lockedExample))) = 1 :=
  (oldApiCallStats_latch Env.strongSignal true Frontend.lockedExample
    [Op.monitorSignal Env.strongSignal true, Op.monitorSignal Env.strongSignal false]
    rfl rfl rfl ⟨0, by decide, rfl⟩).2.2.2.1

/-! ## C15: a PID marked opened and the demux descriptor -/

theorem Emits.idle (allowed : Event → Bool) (s : Frontend) : Emits allowed s s :=
  ⟨List.prefix_refl _, by rw [since_self]; intro e he; cases he⟩

theorem Emits.andNext {allowed : Event → Bool} {s s1 s2 : Frontend}
    (h1 : Emits allowed s s1) (h2 : Emits allowed s1 s2) : Emits allowed s s2 := by
  refine ⟨h1.trace.trans h2.trace, ?_⟩
  rw [since_trans h1.trace h2.trace]
  intro e he
  rcases List.mem_append.1 he with h | h
  · exact h1.events e h
  · exact h2.events e h

theorem Emits.ofSince {allowed : Event → Bool} {s s' : Frontend} (l : List Event)
    (h : s.trace <+: s'.trace) (hs : s.since s' = l) (hl : ∀ e ∈ l, allowed e = true) :
    Emits allowed s s' :=
  ⟨h, by rw [hs]; exact hl⟩

theorem Emits.fromKeeps {allowed allowed' : Event → Bool} {s s' : Frontend}
    (h : Keeps allowed s s') (hm : ∀ e, allowed e = true → allowed' e = true) :
    Emits allowed' s s' :=
  ⟨h.trace, fun e he => hm e (h.events e he)⟩

theorem closeDMX_emits (env : Env) (s : Frontend) :
    Emits (fun e => !e.isRemove) s (closeDMX env s) := by
  refine Emits.ofSince _ (closeDMX_demuxOnly env s).trace (closeDMX_since env s) ?_
  intro e he
  split at he
  · rw [List.mem_singleton.1 he]; rfl
  · cases he

theorem closeFE_emits (env : Env) (s : Frontend) :
    Emits (fun e => !e.isRemove) s (closeFE env s) := by
  refine Emits.ofSince _ (closeFE_trace env s) (closeFE_since env s) ?_
  intro e he
  split at he
  · rw [List.mem_singleton.1 he]; rfl
  · cases he

theorem sleepFor_emits (env : Env) (ms : Nat) (s : Frontend) :
    Emits (fun e => !e.isRemove) s (sleepFor env ms s) := by
  refine Emits.ofSince _ (sleepFor_trace env ms s) (sleepFor_since env ms s) ?_
  intro e he
  rw [List.mem_singleton.1 he]; rfl

theorem setupAndTune_emits (env : Env) (s : Frontend) :
    Emits (fun e => !e.isRemove) s (setupAndTune env s).2 := by
  cases ht : s.tuned with
  | true => rw [setupAndTune_tuned env s ht]; exact Emits.idle _ s
  | false =>
    refine ⟨(setupAndTune_spec env s ht).1.trace, ?_⟩
    intro e he
    rcases setupAndTune_events env s e he with ⟨h, _⟩ | ⟨k, _, h, _⟩ | h
    · rw [h]; rfl
    · rw [h]; rfl
    · cases e <;> first | rfl | (simp [Event.isFeQuery] at h)

theorem monitorSignal_emits (env : Env) (showStatus : Bool) (s : Frontend) :
    Emits (fun e => !e.isRemove) s (monitorSignal env showStatus s) :=
  Emits.fromKeeps (monitorSignal_keeps env showStatus s) (fun e h => by
    cases e <;> first | rfl | (simp [Event.isFeQuery] at h))

theorem NoFailedRemove.ofPrefix {a b : List Event} (h : a <+: b) (hb : NoFailedRemove b) :
    NoFailedRemove a :=
  fun fd p hm => hb fd p (h.subset hm)

theorem OpenedInv.ofSame {s s' : Frontend} (h : OpenedInv s)
    (hop : ∀ p, s'.opened p = s.opened p) (hfd : s'.fd_dmx = s.fd_dmx)
    (he : Emits (fun e => !e.isRemove) s s') : OpenedInv s' := by
  refine ⟨fun p hp => h.bound p (by rw [← hop]; exact hp),
    fun p hp => (by rw [hfd]; exact h.isOpen p (by rw [← hop]; exact hp)), ?_⟩
  intro fd p ok hm
  rw [trace_of_since he.trace] at hm
  rcases List.mem_append.1 hm with h' | h'
  · exact h.removes fd p ok h'
  · have := he.events _ h'
    simp [Event.isRemove] at this

theorem OpenedInv.ofNone {s s' : Frontend} (h : OpenedInv s)
    (hop : ∀ p, s'.opened p = false)
    (he : Emits (fun e => !e.isRemove) s s') : OpenedInv s' := by
  refine ⟨fun p hp => (by rw [hop] at hp; cases hp), fun p hp => (by rw [hop] at hp; cases hp),
    ?_⟩
  intro fd p ok hm
  rw [trace_of_since he.trace] at hm
  rcases List.mem_append.1 hm with h' | h'
  · exact h.removes fd p ok h'
  · have := he.events _ h'
    simp [Event.isRemove] at this

theorem closePid_openedInv (env : Env) (i : Nat) (s : Frontend) (h : OpenedInv s) :
    OpenedInv (closePid env i s) := by
  cases hc : s.frontendData.filter.shouldPIDClose i with
  | false => rw [closePid_of_not env i s hc]; exact h
  | true =>
    have hoi : s.opened i = true := by
      simp only [PidTable.shouldPIDClose, Bool.and_eq_true] at hc
      exact hc.1
    have hop : ∀ p, (closePid env i s).opened p = true → s.opened p = true := by
      intro p hp
      rcases closePid_filter_cases env i s with hf | ⟨_, hf⟩
      · rw [Frontend.opened, hf] at hp; exact hp
      · rw [Frontend.opened, hf] at hp
        simp only [PidTable.setPIDClosed] at hp
        split at hp
        · cases hp
        · exact hp
    refine ⟨fun p hp => h.bound p (hop p hp),
      fun p hp => (by rw [closePid_fd_dmx]; exact h.isOpen p (hop p hp)), ?_⟩
    intro fd p ok hm
    rw [closePid_of_close env i s hc, filterIoctl_trace] at hm
    rcases List.mem_append.1 hm with h' | h'
    · exact h.removes fd p ok h'
    · have := List.mem_singleton.1 h'
      injection this with e1 e2 e3
      rw [e1]; exact h.isOpen i hoi

theorem openPid_opened (env : Env) (i : Nat) (s : Frontend) (p : Nat)
    (hp : (openPid env i s).opened p = true) :
    s.opened p = true ∨
      (p = i ∧ s.frontendData.filter.shouldPIDOpen i = true ∧
        (openPid env i s).frontendData.filter = s.frontendData.filter.setPIDOpened i) := by
  rcases openPid_filter_cases env i s with hf | ⟨ho, hf⟩
  · left; rw [Frontend.opened, hf] at hp; exact hp
  · by_cases hpi : p = i
    · right; exact ⟨hpi, ho, hf⟩
    · left
      rw [Frontend.opened, hf] at hp
      simp only [PidTable.setPIDOpened, if_neg hpi] at hp
      exact hp

theorem failedOpens_emits (n : Nat) : ∀ e ∈ failedOpens n, (!e.isRemove) = true := by
  intro e he
  rcases mem_failedOpens n e he with rfl | rfl <;> rfl

theorem openPid_emits (env : Env) (i : Nat) (s : Frontend) :
    Emits (fun e => !e.isRemove) s (openPid env i s) := by
  refine ⟨(openPid_demuxOnly env i s).trace, ?_⟩
  cases ho : s.frontendData.filter.shouldPIDOpen i with
  | false => rw [openPid_of_not env i s ho, since_self]; intro e he; cases he
  | true =>
    by_cases hfd : s.fd_dmx = -1
    · rcases first_open (fun j => env.openResult (s.calls + 2 * j)) 4 with h | ⟨k, fd, hk, h, hk'⟩
      · rw [(openPid_all_fail env i s ho hfd h).1]
        exact failedOpens_emits 4
      · obtain ⟨ok, a1, _, _⟩ := openPid_first_ok env i s ho hfd k fd hk h hk'
        rw [a1]
        intro e he
        rcases List.mem_append.1 he with h' | h'
        · exact failedOpens_emits k e h'
        · rcases List.mem_cons.1 h' with h'' | h''
          · rw [h'']; rfl
          · rcases List.mem_append.1 h'' with h3 | h3
            · obtain ⟨size, okb, he'⟩ := mem_bufferSizeEvents env s _ _ _ h3
              rw [he']; rfl
            · rw [List.mem_singleton.1 h3]; rfl
    · rw [openPid_of_open env i s ho hfd, filterIoctl_since]
      intro e he
      rw [List.mem_singleton.1 he]; rfl

theorem openPid_fd_dmx_of_opened (env : Env) (i : Nat) (s : Frontend)
    (ho : s.frontendData.filter.shouldPIDOpen i = true)
    (hp : (openPid env i s).opened i = true) : (openPid env i s).fd_dmx ≠ -1 := by
  by_cases hfd : s.fd_dmx = -1
  · rcases first_open (fun j => env.openResult (s.calls + 2 * j)) 4 with h | ⟨k, fd, hk, h, hk'⟩
    · rw [(openPid_all_fail env i s ho hfd h).2.2] at hp; cases hp
    · obtain ⟨ok, _, a2, _⟩ := openPid_first_ok env i s ho hfd k fd hk h hk'
      rw [a2]; omega
  · rw [openPid_of_open env i s ho hfd, filterIoctl_fd_dmx]; exact hfd

theorem openPid_fd_dmx_of_open (env : Env) (i : Nat) (s : Frontend) (hfd : s.fd_dmx ≠ -1) :
    (openPid env i s).fd_dmx = s.fd_dmx := by
  cases ho : s.frontendData.filter.shouldPIDOpen i with
  | false => rw [openPid_of_not env i s ho]
  | true => rw [openPid_of_open env i s ho hfd, filterIoctl_fd_dmx]

theorem openPid_openedInv (env : Env) (i : Nat) (hi : i < MAX_PIDS) (s : Frontend)
    (h : OpenedInv s) : OpenedInv (openPid env i s) := by
  have he := openPid_emits env i s
  refine ⟨?_, ?_, ?_⟩
  · intro p hp
    rcases openPid_opened env i s p hp with h' | ⟨h', _, _⟩
    · exact h.bound p h'
    · rw [h']; exact hi
  · intro p hp
    rcases openPid_opened env i s p hp with h' | ⟨h', ho, _⟩
    · rw [openPid_fd_dmx_of_open env i s (h.isOpen p h')]; exact h.isOpen p h'
    · rw [h'] at hp; exact openPid_fd_dmx_of_opened env i s ho hp
  · intro fd p ok hm
    rw [trace_of_since he.trace] at hm
    rcases List.mem_append.1 hm with h' | h'
    · exact h.removes fd p ok h'
    · have := he.events _ h'
      simp [Event.isRemove] at this

theorem syncLoop_openedInv (env : Env) (n : Nat) (hn : n ≤ MAX_PIDS) (s : Frontend)
    (h : OpenedInv s) : OpenedInv (forUpTo (syncPid env) n s) :=
  forUpTo_induction (syncPid env) (fun _ t => OpenedInv t) n s h
    (fun i t hi ht => openPid_openedInv env i (by omega) _ (closePid_openedInv env i t ht))

theorem updatePIDFilters_openedInv (env : Env) (s : Frontend) (h : OpenedInv s) :
    OpenedInv (updatePIDFilters env s) := by
  unfold updatePIDFilters
  split
  · exact h
  · split
    · exact h
    · exact syncLoop_openedInv env MAX_PIDS (le_refl _) _
        (h.ofSame (fun _ => rfl) rfl (Emits.ofSince [] (by exact List.prefix_refl _)
          (mapFilter_since _ _) (fun e he => by cases he)))

theorem Emits.ofTraceEq (allowed : Event → Bool) {s s' : Frontend} (h : s'.trace = s.trace) :
    Emits allowed s s' :=
  Emits.ofSince [] (by rw [h]) (since_of_trace (by rw [h, List.append_nil]))
    (fun e he => by cases he)

theorem setPID_opened (s : Frontend) (i : Nat) (use : Bool) (p : Nat) :
    (s.mapFilter (fun t => t.setPID i use)).opened p = s.opened p := by
  simp only [Frontend.opened, Frontend.mapFilter, PidTable.setPID]
  split <;> rfl

theorem dropPid_openedInv (env : Env) (i : Nat) (s : Frontend) (h : OpenedInv s) :
    OpenedInv (dropPid env i s) :=
  closePid_openedInv env i _
    (h.ofSame (setPID_opened s i false) rfl (Emits.ofTraceEq _ rfl))

theorem dropLoop_openedInv (env : Env) (n : Nat) (s : Frontend) (h : OpenedInv s) :
    OpenedInv (forUpTo (dropPid env) n s) :=
  forUpTo_induction (dropPid env) (fun _ t => OpenedInv t) n s h
    (fun i t _ ht => dropPid_openedInv env i t ht)

theorem dropPid_opened_self (env : Env) (i : Nat) (s : Frontend) :
    (dropPid env i s).opened i = (s.opened i && !env.ioctlOk s.calls) := by
  have hd : (s.mapFilter (fun t => t.setPID i false)).frontendData.filter.shouldPIDClose i =
      s.opened i := by
    simp [PidTable.shouldPIDClose, Frontend.mapFilter, PidTable.setPID, Frontend.opened]
  unfold dropPid
  cases ho : s.opened i with
  | false =>
    rw [closePid_of_not env i _ (hd.trans ho), setPID_opened, ho]; rfl
  | true =>
    rw [closePid_of_close env i _ (hd.trans ho), Frontend.opened, filterIoctl_filter]
    have hc : (s.mapFilter (fun t => t.setPID i false)).calls = s.calls := rfl
    rw [hc]
    cases env.ioctlOk s.calls
    · have := setPID_opened s i false i
      rw [Frontend.opened, Frontend.opened] at this
      simpa [ho] using this.trans ho
    · simp [PidTable.setPIDClosed]

theorem dropLoop_closed (env : Env) (n : Nat) (s : Frontend)
    (h : ∀ e ∈ s.since (forUpTo (dropPid env) n s), ∀ fd p, e ≠ Event.removePid fd p false) :
    ∀ q, q < n → (forUpTo (dropPid env) n s).opened q = false := by
  induction n with
  | zero => intro q hq; omega
  | succ n ih =>
    have hrun : forUpTo (dropPid env) (n + 1) s = dropPid env n (forUpTo (dropPid env) n s) :=
      rfl
    rw [hrun] at h ⊢
    have h1 := (dropLoop_spec env n s).1.trace
    have h2 := (dropPid_demuxOnly env n (forUpTo (dropPid env) n s)).trace
    rw [since_trans h1 h2] at h
    obtain ⟨_, hother, _, hsince⟩ := dropPid_step env n (forUpTo (dropPid env) n s)
    have ih' := ih (fun e he => h e (List.mem_append_left _ he))
    intro q hq
    by_cases hqn : q = n
    · rw [hqn, dropPid_opened_self]
      cases ho : (forUpTo (dropPid env) n s).opened n with
      | false => rfl
      | true =>
        rw [ho] at hsince
        cases hok : env.ioctlOk (forUpTo (dropPid env) n s).calls with
        | true => rfl
        | false =>
          rw [hok] at hsince
          exact absurd rfl (h (Event.removePid (forUpTo (dropPid env) n s).fd_dmx n false)
            (List.mem_append_right _ (by rw [hsince]; simp)) _ _)
    · rw [Frontend.opened, hother q hqn]
      exact ih' q (by omega)

theorem closeOnChange_openedInv (env : Env) (s : Frontend) (h : OpenedInv s)
    (hn : NoFailedRemove (closeOnChange env s).trace) : OpenedInv (closeOnChange env s) := by
  cases hd : s.frontendData.changed with
  | false => rw [closeOnChange_clean env s hd]; exact h
  | true =>
    rw [closeOnChange_dirty env s hd] at hn ⊢
    have h0 : OpenedInv (s.resetDeviceDataChanged.setTuned false) :=
      h.ofSame (fun _ => rfl) rfl (Emits.ofTraceEq _ rfl)
    have hL := dropLoop_openedInv env MAX_PIDS _ h0
    have he := ((closeDMX_emits env (forUpTo (dropPid env) MAX_PIDS
      (s.resetDeviceDataChanged.setTuned false))).andNext (closeFE_emits env _)).andNext
      (sleepFor_emits env 5 _)
    have hLtrace := (dropLoop_spec env MAX_PIDS (s.resetDeviceDataChanged.setTuned false)).1.trace
    have hclosed := dropLoop_closed env MAX_PIDS (s.resetDeviceDataChanged.setTuned false)
      (fun e hmem fd p heq => hn fd p (he.trace.subset (by
        rw [trace_of_since hLtrace]; exact List.mem_append_right _ (heq ▸ hmem))))
    have hdata := (dropLoop_spec env MAX_PIDS (s.resetDeviceDataChanged.setTuned false)).2.2.1
    refine hL.ofNone ?_ he
    intro p
    rw [opened_congr (sleepFor_frontendData env 5 _) p, opened_congr (closeFE_frontendData env _) p,
      opened_congr (closeDMX_filter env _) p]
    by_cases hp : p < MAX_PIDS
    · exact hclosed p hp
    · rw [Frontend.opened, hdata p (not_lt.1 hp)]
      cases hop : ((s.resetDeviceDataChanged.setTuned false).frontendData.filter.data p).opened with
      | false => rfl
      | true => exact absurd (h0.bound p hop) hp

theorem setTuned_emits (allowed : Event → Bool) (s : Frontend) (b : Bool) :
    Emits allowed s (s.setTuned b) :=
  Emits.ofTraceEq allowed rfl

theorem reinitialise_emits (allowed : Event → Bool) (s : Frontend) :
    Emits allowed s s.reinitialise :=
  Emits.ofTraceEq allowed rfl

theorem reinitialise_opened (s : Frontend) (p : Nat) : s.reinitialise.opened p = false := rfl

theorem teardown_openedInv (env : Env) (s : Frontend) (h : OpenedInv s) :
    OpenedInv (teardown env s).2 := by
  rw [teardown_snd]
  have hL := dropLoop_openedInv env MAX_PIDS s h
  have he : Emits (fun e => !e.isRemove) (forUpTo (dropPid env) MAX_PIDS s)
      (closeFE env (closeDMX env ((forUpTo (dropPid env) MAX_PIDS s).setTuned false))).reinitialise :=
    (((setTuned_emits _ _ false).andNext (closeDMX_emits env _)).andNext
      (closeFE_emits env _)).andNext (reinitialise_emits _ _)
  exact hL.ofNone (fun p => reinitialise_opened _ p) he

theorem setupAndTune_openedInv (env : Env) (s : Frontend) (h : OpenedInv s) :
    OpenedInv (setupAndTune env s).2 := by
  cases ht : s.tuned with
  | true => rw [setupAndTune_tuned env s ht]; exact h
  | false =>
    have hk := (setupAndTune_spec env s ht).1
    exact h.ofSame (fun p => by rw [Frontend.opened, Frontend.opened, hk.filter]) hk.fd_dmx
      (setupAndTune_emits env s)

theorem update_openedInv (env : Env) (s : Frontend) (h : OpenedInv s)
    (hn : NoFailedRemove (update env s).2.trace) : OpenedInv (update env s).2 := by
  obtain ⟨_, u2, u3, _⟩ := update_since env s
  have hc := closeOnChange_openedInv env s h (NoFailedRemove.ofPrefix (u2.trans u3) hn)
  have hs := setupAndTune_openedInv env _ hc
  rw [update_snd]
  split
  · exact updatePIDFilters_openedInv env _ hs
  · exact hs

theorem parse_opened (delsys : InputSystem) (dirty : Bool) (pids : Option (Nat → Bool))
    (s : Frontend) (p : Nat) : (parseStreamString delsys dirty pids s).opened p = s.opened p := by
  cases pids with
  | none => rfl
  | some want =>
    simp only [Frontend.opened, parseStreamString]
    split <;> rfl

theorem teardown_trace (env : Env) (s : Frontend) : s.trace <+: (teardown env s).2.trace := by
  rw [teardown_snd]
  exact (dropLoop_spec env MAX_PIDS s).1.trace.trans
    ((((setTuned_emits (fun e => !e.isRemove) _ false).andNext (closeDMX_emits env _)).andNext
      (closeFE_emits env _)).andNext (reinitialise_emits _ _)).trace

theorem reachable_openedInv {s : Frontend} (h : Reachable s) :
    NoFailedRemove s.trace → OpenedInv s := by
  induction h with
  | construct systems modernApi now =>
    intro _
    exact ⟨fun p hp => (by cases hp), fun p hp => (by cases hp),
      fun fd p ok hm => (by cases hm)⟩
  | parse delsys dirty pids _ ih =>
    intro hn
    exact (ih hn).ofSame (parse_opened delsys dirty pids _) rfl (Emits.ofTraceEq _ rfl)
  | update env _ ih =>
    intro hn
    obtain ⟨u1, u2, u3, _⟩ := update_since env _
    exact update_openedInv env _ (ih (NoFailedRemove.ofPrefix ((u1.trans u2).trans u3) hn)) hn
  | teardown env _ ih =>
    intro hn
    exact teardown_openedInv env _ (ih (NoFailedRemove.ofPrefix (teardown_trace env _) hn))
  | setupAndTune env _ ih =>
    intro hn
    exact setupAndTune_openedInv env _
      (ih (NoFailedRemove.ofPrefix (setupAndTune_emits env _).trace hn))
  | updatePIDFilters env _ ih =>
    intro hn
    exact updatePIDFilters_openedInv env _
      (ih (NoFailedRemove.ofPrefix (updatePIDFilters_demuxOnly env _).trace hn))
  | @monitorSignal t env showStatus _ ih =>
    intro hn
    have hk := monitorSignal_keeps env showStatus t
    exact (ih (NoFailedRemove.ofPrefix hk.trace hn)).ofSame
      (fun p => by rw [Frontend.opened, Frontend.opened, hk.filter]) hk.fd_dmx
      (monitorSignal_emits env showStatus _)

theorem dropLoop_data (env : Env) (p n : Nat) (s : Frontend) (h : p < n) :
    (forUpTo (dropPid env) n s).frontendData.filter.data p =
      (dropPid env p (forUpTo (dropPid env) p s)).frontendData.filter.data p := by
  induction n with
  | zero => omega
  | succ n ih =>
    have hrun : forUpTo (dropPid env) (n + 1) s = dropPid env n (forUpTo (dropPid env) n s) :=
      rfl
    by_cases hpn : p = n
    · rw [hrun, hpn]
    · rw [hrun, (dropPid_step env n _).2.1 p hpn]
      exact ih (by omega)

theorem dropLoop_trace_mono (env : Env) (m n : Nat) (s : Frontend) (h : m ≤ n) :
    (forUpTo (dropPid env) m s).trace <+: (forUpTo (dropPid env) n s).trace := by
  induction n with
  | zero =>
    have : m = 0 := by omega
    rw [this]
  | succ n ih =>
    by_cases hm : m = n + 1
    · rw [hm]
    · have hrun : forUpTo (dropPid env) (n + 1) s =
          dropPid env n (forUpTo (dropPid env) n s) := rfl
      rw [hrun]
      exact (ih (by omega)).trans (dropPid_demuxOnly env n _).trace

theorem dropLoop_first (env : Env) (n : Nat) (s : Frontend) (hn : 1 ≤ n)
    (ho : s.opened 0 = true) :
    Event.removePid s.fd_dmx 0 (env.ioctlOk s.calls) ∈ (forUpTo (dropPid env) n s).trace := by
  have h1 : forUpTo (dropPid env) 1 s = dropPid env 0 s := rfl
  have hmono := dropLoop_trace_mono env 1 n s hn
  rw [h1] at hmono
  apply hmono.subset
  rw [trace_of_since (dropPid_demuxOnly env 0 s).trace, (dropPid_step env 0 s).2.2.2, ho]
  simp

theorem allFail_ioctlOk (n : Nat) : Env.allFail.ioctlOk n = false := rfl

theorem allFail_openResult (n : Nat) : Env.allFail.openResult n = none := rfl

theorem parse_dirty (delsys : InputSystem) (pids : Option (Nat → Bool)) (s : Frontend) :
    (parseStreamString delsys true pids s).frontendData.changed = true := by
  simp [parseStreamString]

theorem counting_neverFails : Env.counting.NeverFails := by
  intro n
  simp [Env.counting, Env.const]

theorem requestExample_reachable : Reachable Frontend.requestExample :=
  Reachable.parse _ _ _ (Reachable.construct _ _ _)

theorem requestExample_setup :
    (setupAndTune Env.counting Frontend.requestExample).1 = true ∧
    (setupAndTune Env.counting Frontend.requestExample).2.tuned = true ∧
    (setupAndTune Env.counting Frontend.requestExample).2.frontendData.filter.changed = true ∧
    (setupAndTune Env.counting Frontend.requestExample).2.trace =
      [Event.feOpen false 4, Event.tune 0 4 true, Event.readStatus 4 (some FE_HAS_LOCK)] := by
  refine ⟨by decide, by decide, by decide, by decide⟩

theorem requestExample_update :
    (update Env.counting Frontend.requestExample).2 =
      updatePIDFilters Env.counting (setupAndTune Env.counting Frontend.requestExample).2 := by
  rw [update_snd, closeOnChange_clean Env.counting Frontend.requestExample rfl,
    if_pos requestExample_setup.1]

theorem streaming_opened : (update Env.counting Frontend.requestExample).2.opened 0 = true := by
  rw [requestExample_update,
    updatePIDFilters_opened _ _ requestExample_setup.2.2.1 requestExample_setup.2.1 0
      (by decide)]
  rfl

theorem streaming_noFailedRemove :
    NoFailedRemove (update Env.counting Frontend.requestExample).2.trace := by
  intro fd p hm
  rw [requestExample_update, trace_of_since (updatePIDFilters_demuxOnly _ _).trace] at hm
  rcases List.mem_append.1 hm with h | h
  · rw [requestExample_setup.2.2.2] at h
    simp at h
  · have := updatePIDFilters_noFail_of_ok _ counting_neverFails _ _ h
    simp [Event.failed] at this

theorem changedExample_reachable : Reachable Frontend.changedExample :=
  Reachable.parse _ _ _ (Reachable.update Env.counting requestExample_reachable)

theorem changedExample_opened : Frontend.changedExample.opened 0 = true :=
  (parse_opened _ _ _ _ 0).trans streaming_opened

theorem changedExample_dirty : Frontend.changedExample.frontendData.changed = true :=
  parse_dirty _ _ _

theorem resetSetTuned_opened (s : Frontend) (b : Bool) (p : Nat) :
    (s.resetDeviceDataChanged.setTuned b).opened p = s.opened p := rfl

theorem resetSetTuned_calls (s : Frontend) (b : Bool) :
    (s.resetDeviceDataChanged.setTuned b).calls = s.calls := rfl

theorem closeOnChange_opened_of_fail (s : Frontend) (hd : s.frontendData.changed = true)
    (ho : s.opened 0 = true) :
    (closeOnChange Env.allFail s).opened 0 = true := by
  rw [closeOnChange_dirty _ s hd, opened_congr (sleepFor_frontendData _ 5 _) 0,
    opened_congr (closeFE_frontendData _ _) 0, opened_congr (closeDMX_filter _ _) 0,
    Frontend.opened, dropLoop_data _ 0 MAX_PIDS _ (by decide)]
  have h0 : forUpTo (dropPid Env.allFail) 0 (s.resetDeviceDataChanged.setTuned false) =
      s.resetDeviceDataChanged.setTuned false := rfl
  rw [h0]
  have := dropPid_opened_self Env.allFail 0 (s.resetDeviceDataChanged.setTuned false)
  rw [Frontend.opened] at this
  rw [this, resetSetTuned_opened, ho, allFail_ioctlOk]
  rfl

theorem update_of_allFail (s : Frontend) (hd : s.frontendData.changed = true)
    (ho : s.opened 0 = true) :
    (update Env.allFail s).2.opened 0 = true ∧ (update Env.allFail s).2.fd_dmx = -1 := by
  obtain ⟨c1, c2, c3, _⟩ := closeOnChange_spec Env.allFail s hd
  obtain ⟨k1, _, rest, _, k4, _⟩ := setupAndTune_spec Env.allFail (closeOnChange Env.allFail s) c1
  have hfalse := (k4 ⟨c2, sysOpen_none _ _ (allFail_openResult _)⟩).2
  rw [update_snd, if_neg (by rw [hfalse]; simp)]
  refine ⟨?_, by rw [k1.fd_dmx, c3]⟩
  rw [Frontend.opened, k1.filter]
  exact closeOnChange_opened_of_fail s hd ho

/-- C15 as stated fails.  A first request for PID 0 is parsed and `update`
succeeds: the frontend is tuned, the demux and PID 0 are opened.  Then a
changed request is parsed and `update` runs while every ioctl and every
open fails: the `DMX_REMOVE_PID` for PID 0 fails, so PID 0 stays marked
opened, and the demux is closed all the same.  In the state reached PID 0
is marked opened and the demux descriptor is -1; a following `teardown`
issues `DMX_REMOVE_PID` for PID 0 on the closed demux. -/
theorem opened_on_closed_demux_counterexample :
    Reachable (update Env.allFail Frontend.changedExample).2 ∧
    (update Env.allFail Frontend.changedExample).2.opened 0 = true ∧
    (update Env.allFail Frontend.changedExample).2.fd_dmx = -1 ∧
    Reachable (teardown Env.allFail (update Env.allFail Frontend.changedExample).2).2 ∧
    Event.removePid (-1) 0 false ∈
      (teardown Env.allFail (update Env.allFail Frontend.changedExample).2).2.trace := by
  have hs := update_of_allFail Frontend.changedExample changedExample_dirty changedExample_opened
  have hr := Reachable.update Env.allFail changedExample_reachable
  refine ⟨hr, hs.1, hs.2, Reachable.teardown Env.allFail hr, ?_⟩
  have hmem := dropLoop_first Env.allFail MAX_PIDS _ (by decide) hs.1
  rw [hs.2, allFail_ioctlOk] at hmem
  rw [teardown_snd]
  exact ((((setTuned_emits (fun e => !e.isRemove) _ false).andNext (closeDMX_emits _ _)).andNext
      (closeFE_emits _ _)).andNext (reinitialise_emits _ _)).trace.subset hmem

/-- C15, amended: in every state reachable by sequences of `update`,
`teardown`, `updatePIDFilters` (and `setupAndTune`, `monitorSignal`,
`parseStreamString`) in which no `DMX_REMOVE_PID` has failed, whatever the
other ioctls and opens answered, a PID marked opened implies that the demux
descriptor is not -1, and every `DMX_REMOVE_PID` was issued on an open
demux. -/
theorem opened_implies_demux_open (s : Frontend) (h : Reachable s)
    (hn : NoFailedRemove s.trace) :
    (∀ p, s.opened p = true → s.fd_dmx ≠ -1) ∧
    (∀ fd p ok, Event.removePid fd p ok ∈ s.trace → fd ≠ -1) :=
  ⟨(reachable_openedInv h hn).isOpen, (reachable_openedInv h hn).removes⟩

/-- The state after a first request for PID 0 and a successful `update`:
PID 0 is opened, no `DMX_REMOVE_PID` has failed, and the demux is open. -/
theorem opened_implies_demux_open_witness :
    Reachable (update Env.counting Frontend.requestExample).2 ∧
    NoFailedRemove (update Env.counting Frontend.requestExample).2.trace ∧
    (update Env.counting Frontend.requestExample).2.opened 0 = true ∧
    (update Env.counting Frontend.requestExample).2.fd_dmx ≠ -1 :=
  ⟨Reachable.update Env.counting requestExample_reachable, streaming_noFailedRemove,
    streaming_opened,
    (opened_implies_demux_open _ (Reachable.update Env.counting requestExample_reachable)
      streaming_noFailedRemove).1 0 streaming_opened⟩

end SATPI
